import Mathlib

/-!
# zk-go: note creation (`core/note/create.go`) and alias listing

A shallow embedding of `Create`, `create` and `genPath` and of the library
functions they call, followed by theorems about the filename generation loop,
the render context and the error paths; and of `AliasList.Run` of
`internal/cli/cmd/config.go`, with a theorem about the options it rejects.

Conventions of the embedding

* A Go `string` is a `List Char` (`Str`).
* A Go `error` is `Option Error`, `none` being `nil`.
* The collaborators (`genId`, the renderers, `validatePath`, the template
  loader, the file system) are functions over an explicit world state `σ`,
  threaded in program order.
* `logged` wraps a set of collaborators so that every call is appended to a
  log kept next to the world state; theorems about how often and with which
  arguments a collaborator is invoked are stated on that log. `loggedOutside`
  and `loggedLoader` do the same for what `Create` reaches.
-/

set_option maxRecDepth 1000000

namespace Note

/-! # Definitions -/

/-- Go strings. -/
abbrev Str := List Char

/-! ## `path/filepath` (Go standard library, Unix flavour) -/

namespace filepath

/-- The path separator. -/
def Separator : Char := '/'

/-- The elements between separators: `strings.Split(path, "/")`. -/
def splitSep : Str → List Str
  | [] => [[]]
  | c :: cs =>
    if c = Separator then [] :: splitSep cs
    else
      match splitSep cs with
      | [] => [[c]]
      | e :: es => (c :: e) :: es

/-- The elements written one after the other with a separator in between:
`strings.Join(elems, "/")`. -/
def joinSep : List Str → Str
  | [] => []
  | [e] => e
  | e :: f :: es => e ++ Separator :: joinSep (f :: es)

/-- The element loop of `Clean`. `out` is the stack of the elements kept so
far, the last one first. An empty element and `.` are dropped; `..` removes
the element before it, is dropped at the root, and is kept at the start of a
path that is not rooted. -/
def cleanElems (rooted : Bool) : List Str → List Str → List Str
  | [], out => out
  | e :: es, out =>
    if e = [] ∨ e = ['.'] then cleanElems rooted es out
    else if e = ['.', '.'] then
      match out with
      | [] => if rooted then cleanElems rooted es [] else cleanElems rooted es [e]
      | top :: rest =>
        if top = ['.', '.'] then cleanElems rooted es (e :: top :: rest)
        else cleanElems rooted es rest
    else cleanElems rooted es (e :: out)

/-- `filepath.Clean`: the shortest path equivalent to `path` by purely lexical
processing. The empty path becomes `.`. -/
def Clean (path : Str) : Str :=
  if path = [] then ['.']
  else
    let rooted : Bool := path.head? = some Separator
    let out := joinSep (cleanElems rooted (splitSep path) []).reverse
    let res := if rooted then Separator :: out else out
    if res = [] then ['.'] else res

/-- `filepath.Join(a, b)`: empty elements are ignored, the others are joined
with a separator and the result is cleaned; all elements empty gives the empty
string. -/
def Join (a b : Str) : Str :=
  if a ≠ [] then Clean (a ++ Separator :: b)
  else if b ≠ [] then Clean b
  else []

/-- The text after the last separator of `path` (all of `path` when it has
none). -/
def lastElem (path : Str) : Str :=
  (path.reverse.takeWhile (fun c => c ≠ Separator)).reverse

/-- `path` without its trailing separators. -/
def stripTrailingSep (path : Str) : Str :=
  (path.reverse.dropWhile (fun c => c = Separator)).reverse

/-- `filepath.Base`: the last element of `path`, trailing separators removed
first; `.` for the empty path and `/` for a path of separators only. -/
def Base (path : Str) : Str :=
  if path = [] then ['.']
  else
    let e := lastElem (stripTrailingSep path)
    if e = [] then [Separator] else e

/-- `filepath.Ext`: the suffix of the last element of `path` that starts at its
last dot; empty when that element has no dot. -/
def Ext (path : Str) : Str :=
  let e := lastElem path
  if '.' ∈ e then '.' :: (e.reverse.takeWhile (fun c => c ≠ '.')).reverse else []

end filepath

/-- `strings.TrimSuffix`: `s` without the trailing `suffix`, or `s` itself when
it does not end with `suffix`. -/
def TrimSuffix (s suffix : Str) : Str :=
  if suffix.isSuffixOf s then s.take (s.length - suffix.length) else s

namespace paths

/-- Modelled from the spec: `util/paths.FilenameStem` is not among the
sources. The glossary defines the filename-stem as "a filename with its
extension removed": the base name of the path without its extension. -/
def FilenameStem (path : Str) : Str :=
  let filename := filepath.Base path
  TrimSuffix filename (filepath.Ext filename)

end paths

/-! ## Errors -/

/-- Go `error` values that can cross this package. -/
inductive Error where
  /-- The value `ErrNoteExists{Name, Path}` of `create.go`. -/
  | ErrNoteExists (Name Path : Str)
  /-- An error made of a message: `fmt.Errorf`, and whatever a collaborator
  fails with. -/
  | message (text : Str)
  /-- An error wrapped with a contextual prefix, the cause kept. -/
  | wrapped (context : Str) (cause : Error)
  deriving DecidableEq, Repr

namespace errors

/-- Modelled from the spec: `util/errors.Wrapperf` is not among the sources.
"All errors from this entry point are wrapped with a stable contextual prefix
identifying the operation ... without losing the underlying cause": the
wrapper made from a prefix puts that prefix in front of an error and keeps the
error as cause. -/
def Wrapperf (context : Str) : Error → Error :=
  fun err => Error.wrapped context err

end errors

/-! ## Optional strings and configuration -/

namespace opt

/-- Modelled from the spec: `util/opt.String` is not among the sources. The
request carries an "optional title override" and "omitted vs. explicit-empty
must be distinguishable at the request level": an optional string is either
null or holds a string, which may be empty. -/
structure String where
  Value : Option Str
  deriving DecidableEq, Repr

/-- The null optional string. -/
def NullString : String := ⟨none⟩

/-- The optional string holding `value`. -/
def NewString (value : Str) : String := ⟨some value⟩

/-- Whether the optional string holds no value. -/
def String.IsNull (s : String) : Bool := s.Value.isNone

/-- Modelled from the spec: "If the title is omitted, the rendered context's
title equals the directory's configured default title; if supplied, the
explicit title is used verbatim, even if empty": the receiver when it holds a
value, the alternative when it is null. -/
def String.OrString (s : String) (alt : Str) : String :=
  if s.IsNull then NewString alt else s

/-- The value held, or the empty string for the null optional string. -/
def String.Unwrap (s : String) : Str :=
  match s.Value with
  | none => []
  | some value => value

end opt

namespace zk

/-- Modelled from the spec: the "identifier-generation policy" of a directory
(`IDOptions`); its declaration is not among the sources and `Create` only
hands it to the identifier generator. -/
structure IDOptions where
  Length : Nat
  Charset : Str
  deriving DecidableEq, Repr

/-- The note settings of a directory that `create.go` reads. -/
structure NoteConfig where
  FilenameTemplate : Str
  Extension : Str
  BodyTemplatePath : opt.String
  IDOptions : IDOptions
  DefaultTitle : Str
  deriving DecidableEq, Repr

/-- The configuration of a directory: `Config.Note` and `Config.Extra`. -/
structure DirConfig where
  Note : NoteConfig
  Extra : List (Str × Str)
  deriving DecidableEq, Repr

/-- A directory of the notebook: `zk.Dir`. -/
structure Dir where
  Name : Str
  Path : Str
  Config : DirConfig
  deriving DecidableEq, Repr

/-- Modelled from the spec: `zk.Config`, of which `Create` only uses
`LocateTemplate`, which looks a template up "within configured template
search locations". -/
structure Config where
  TemplateDirs : List Str
  deriving DecidableEq, Repr

end zk

/-- `CreateOpts`: the options to create a new note. -/
structure CreateOpts where
  Config : zk.Config
  Dir : zk.Dir
  Title : opt.String
  Content : opt.String
  deriving DecidableEq, Repr

/-- `createdNote`: the path and the content of the note to write. -/
structure createdNote where
  path : Str
  content : Str
  deriving DecidableEq, Repr

/-- A point in time (`time.Time`). -/
abbrev Time := Nat

/-- `renderContext`: the placeholder values expanded in the templates. -/
structure renderContext where
  ID : Str
  Title : Str
  Content : Str
  Dir : Str
  Filename : Str
  FilenameStem : Str
  Extra : List (Str × Str)
  Now : Time
  Env : List (Str × Str)
  deriving DecidableEq, Repr

/-! ## Collaborators -/

namespace templ

/-- `templ.Renderer`: renders a context to text, or fails. The Go method
returns a string and an error; both are kept. -/
structure Renderer (σ : Type) where
  Render : renderContext → σ → (Str × Option Error) × σ

/-- Modelled from the spec: `templ.NullRenderer` is not among the sources. It
is "a no-op renderer that returns the context's content field unchanged (or
empty)" and never fails. -/
def NullRenderer {σ : Type} : Renderer σ :=
  ⟨fun context s => ((context.Content, none), s)⟩

/-- `templ.Loader`: loads a template from its text or from a file. -/
structure Loader (σ : Type) where
  Load : Str → σ → Except Error (Renderer σ) × σ
  LoadFile : Str → σ → Except Error (Renderer σ) × σ

end templ

/-- `createDeps`: the collaborators of `create`. -/
structure createDeps (σ : Type) where
  filenameTemplate : templ.Renderer σ
  bodyTemplate : templ.Renderer σ
  genId : σ → Str × σ
  validatePath : Str → σ → (Bool × Option Error) × σ
  now : Time

/-- What `Create` reaches outside `create.go`: the template lookup of the
configuration, the identifier generators, the file system and the clock. -/
structure Outside (σ : Type) where
  /-- `zk.Config.LocateTemplate`: the absolute path of a template and whether
  it was found. -/
  LocateTemplate : zk.Config → Str → σ → (Str × Bool) × σ
  /-- `rand.NewIDGenerator`: the generator for an identifier policy. -/
  NewIDGenerator : zk.IDOptions → σ → Str × σ
  /-- `paths.Exists`. -/
  Exists : Str → σ → (Bool × Option Error) × σ
  /-- `paths.WriteString`. -/
  WriteString : Str → Str → σ → Option Error × σ
  /-- `date.Provider.Date`. -/
  Date : σ → Time × σ

/-! ## `create.go` -/

/-- The loop of `genPath` with `n` iterations left. `filename` and `path` are
the variables of the same names, declared before the loop and read after it. -/
def genPathLoop {σ : Type} (dir : zk.Dir) (deps : createDeps σ) :
    Nat → renderContext → Str → Str → σ → (Str × renderContext × Option Error) × σ
  | 0, context, filename, path, s =>
    (([], context, some (Error.ErrNoteExists (filepath.Join dir.Name filename) path)), s)
  | n + 1, context, _, _, s =>
    let g := deps.genId s
    let context := { context with ID := g.1 }
    let r := deps.filenameTemplate.Render context g.2
    match r.1.2 with
    | some err => (([], context, some err), r.2)
    | none =>
      let filename := r.1.1 ++ '.' :: dir.Config.Note.Extension
      let path := filepath.Join dir.Path filename
      let v := deps.validatePath path r.2
      match v.1.2 with
      | some err => (([], context, some err), v.2)
      | none =>
        if v.1.1 then
          let context := { context with Filename := filepath.Base path }
          let context := { context with FilenameStem := paths.FilenameStem path }
          ((path, context, none), v.2)
        else genPathLoop dir deps n context filename path v.2

/-- `genPath`: at most 50 attempts to find a free path for the note. -/
def genPath {σ : Type} (context : renderContext) (dir : zk.Dir) (deps : createDeps σ)
    (s : σ) : (Str × renderContext × Option Error) × σ :=
  genPathLoop dir deps 50 context [] [] s

/-- The context `create` starts from (the `renderContext` literal of its
first statement). `environ` is the process environment, `os.Env()`. -/
def createContext {σ : Type} (opts : CreateOpts) (deps : createDeps σ)
    (environ : List (Str × Str)) : renderContext :=
  { ID := []
    Title := (opts.Title.OrString opts.Dir.Config.Note.DefaultTitle).Unwrap
    Content := opts.Content.Unwrap
    Dir := opts.Dir.Name
    Filename := []
    FilenameStem := []
    Extra := opts.Dir.Config.Extra
    Now := deps.now
    Env := environ }

/-- `create`: the path and the rendered body of the new note. -/
def create {σ : Type} (opts : CreateOpts) (deps : createDeps σ)
    (environ : List (Str × Str)) (s : σ) : (Option createdNote × Option Error) × σ :=
  let context := createContext opts deps environ
  let g := genPath context opts.Dir deps s
  match g.1.2.2 with
  | some err => ((none, some err), g.2)
  | none =>
    let b := deps.bodyTemplate.Render g.1.2.1 g.2
    match b.1.2 with
    | some err => ((none, some err), b.2)
    | none => ((some { path := g.1.1, content := b.1.1 }, none), b.2)

/-- `validatePath`: a path is valid when nothing exists there. -/
def validatePath {σ : Type} (out : Outside σ) (path : Str) (s : σ) :
    (Bool × Option Error) × σ :=
  let e := out.Exists path s
  ((!e.1.1, e.1.2), e.2)

/-- The tail of `Create`, from the call of `create` on: both templates are
loaded. `create` never returns a nil note without an error, so the case
`(none, none)` is never taken (`create_note_or_error`). -/
def Create.finish {σ : Type} (out : Outside σ) (environ : List (Str × Str))
    (opts : CreateOpts) (filenameTemplate bodyTemplate : templ.Renderer σ) (s : σ) :
    (Str × Option Error) × σ :=
  let wrap := errors.Wrapperf "new note".toList
  let d := out.Date s
  let c := create opts
    { filenameTemplate := filenameTemplate
      bodyTemplate := bodyTemplate
      genId := out.NewIDGenerator opts.Dir.Config.Note.IDOptions
      validatePath := validatePath out
      now := d.1 } environ d.2
  match c.1 with
  | (_, some err) => (([], some (wrap err)), c.2)
  | (none, none) => (([], none), c.2)
  | (some createdNote, none) =>
    let w := out.WriteString createdNote.path createdNote.content c.2
    match w.1 with
    | some err => (([], some (wrap err)), w.2)
    | none => ((createdNote.path, none), w.2)

/-- `Create`: generates a new note and returns its path. -/
def Create {σ : Type} (out : Outside σ) (environ : List (Str × Str)) (opts : CreateOpts)
    (templateLoader : templ.Loader σ) (s : σ) : (Str × Option Error) × σ :=
  let wrap := errors.Wrapperf "new note".toList
  let l := templateLoader.Load opts.Dir.Config.Note.FilenameTemplate s
  match l.1 with
  | Except.error err => (([], some err), l.2)
  | Except.ok filenameTemplate =>
    let templatePath := opts.Dir.Config.Note.BodyTemplatePath.Unwrap
    if templatePath ≠ [] then
      let a := out.LocateTemplate opts.Config templatePath l.2
      if !a.1.2 then
        (([], some (wrap (Error.message (templatePath ++ ": cannot find template".toList)))), a.2)
      else
        let f := templateLoader.LoadFile a.1.1 a.2
        match f.1 with
        | Except.error err => (([], some (wrap err)), f.2)
        | Except.ok bodyTemplate =>
          Create.finish out environ opts filenameTemplate bodyTemplate f.2
    else Create.finish out environ opts filenameTemplate templ.NullRenderer l.2

/-! ## The log of the calls to the collaborators -/

/-- One call to a collaborator, with its arguments and what it returned. -/
inductive Call where
  | genId (id : Str)
  | renderFilename (context : renderContext) (text : Str) (err : Option Error)
  | validatePath (path : Str) (valid : Bool) (err : Option Error)
  | renderBody (context : renderContext) (text : Str) (err : Option Error)
  | writeString (path content : Str) (err : Option Error)
  deriving DecidableEq, Repr

/-- The collaborators `deps`, each call appended to the log that is kept next
to the world state. What a collaborator returns and what it does to the world
state is unchanged. -/
def logged {σ : Type} (deps : createDeps σ) : createDeps (σ × List Call) where
  filenameTemplate :=
    ⟨fun context w =>
      let r := deps.filenameTemplate.Render context w.1
      (r.1, (r.2, w.2 ++ [Call.renderFilename context r.1.1 r.1.2]))⟩
  bodyTemplate :=
    ⟨fun context w =>
      let r := deps.bodyTemplate.Render context w.1
      (r.1, (r.2, w.2 ++ [Call.renderBody context r.1.1 r.1.2]))⟩
  genId := fun w =>
    let g := deps.genId w.1
    (g.1, (g.2, w.2 ++ [Call.genId g.1]))
  validatePath := fun path w =>
    let v := deps.validatePath path w.1
    (v.1, (v.2, w.2 ++ [Call.validatePath path v.1.1 v.1.2]))
  now := deps.now

/-- The identifiers generated, in order. -/
def genIdCalls : List Call → List Str
  | [] => []
  | Call.genId id :: l => id :: genIdCalls l
  | _ :: l => genIdCalls l

/-- The filename renders, in order: context, text and error. -/
def renderFilenameCalls : List Call → List (renderContext × Str × Option Error)
  | [] => []
  | Call.renderFilename context text err :: l => (context, text, err) :: renderFilenameCalls l
  | _ :: l => renderFilenameCalls l

/-- The validations, in order: path, answer and error. -/
def validatePathCalls : List Call → List (Str × Bool × Option Error)
  | [] => []
  | Call.validatePath path valid err :: l => (path, valid, err) :: validatePathCalls l
  | _ :: l => validatePathCalls l

/-- The body renders, in order: context, text and error. -/
def renderBodyCalls : List Call → List (renderContext × Str × Option Error)
  | [] => []
  | Call.renderBody context text err :: l => (context, text, err) :: renderBodyCalls l
  | _ :: l => renderBodyCalls l

/-- The log of `genPath` run with `deps` from the world state `s`. -/
def genPathLog {σ : Type} (context : renderContext) (dir : zk.Dir) (deps : createDeps σ)
    (s : σ) : List Call :=
  (genPath context dir (logged deps) (s, [])).2.2

/-- The log of `create` run with `deps` from the world state `s`. -/
def createLog {σ : Type} (opts : CreateOpts) (deps : createDeps σ)
    (environ : List (Str × Str)) (s : σ) : List Call :=
  (create opts (logged deps) environ (s, [])).2.2

/-- The candidate of an attempt: the rendered filename, a dot and the
extension, and that joined to the path of the directory. -/
def candidateName (dir : zk.Dir) (text : Str) : Str :=
  text ++ '.' :: dir.Config.Note.Extension

/-- The full path of the candidate of an attempt. -/
def candidatePath (dir : zk.Dir) (text : Str) : Str :=
  filepath.Join dir.Path (candidateName dir text)

/-! ## One attempt -/

/-- The context of the next attempt: the identifier is the one generated at
the world state `s`. -/
def attemptContext {σ : Type} (context : renderContext) (deps : createDeps σ) (s : σ) :
    renderContext :=
  { context with ID := (deps.genId s).1 }

/-- The filename render of the next attempt. -/
def attemptRender {σ : Type} (context : renderContext) (deps : createDeps σ) (s : σ) :
    (Str × Option Error) × σ :=
  deps.filenameTemplate.Render (attemptContext context deps s) (deps.genId s).2

/-- The validation of the candidate of the next attempt. -/
def attemptValidate {σ : Type} (context : renderContext) (dir : zk.Dir) (deps : createDeps σ)
    (s : σ) : (Bool × Option Error) × σ :=
  deps.validatePath (candidatePath dir (attemptRender context deps s).1.1)
    (attemptRender context deps s).2

/-- The context `genPath` returns when the candidate of the next attempt is
accepted. -/
def acceptedContext {σ : Type} (context : renderContext) (dir : zk.Dir) (deps : createDeps σ)
    (s : σ) : renderContext :=
  { attemptContext context deps s with
    Filename := filepath.Base (candidatePath dir (attemptRender context deps s).1.1)
    FilenameStem := paths.FilenameStem (candidatePath dir (attemptRender context deps s).1.1) }

/-! ## The shape of a run of `genPath` -/

/-- How the loop of `genPath` stops. -/
inductive Stop where
  /-- No iteration is left. -/
  | exhausted
  /-- The filename render of the attempt with identifier `id` failed. -/
  | renderFailed (id text : Str) (err : Error)
  /-- The validation of the candidate of the attempt failed. -/
  | validateFailed (id text : Str) (valid : Bool) (err : Error)
  /-- The candidate of the attempt was reported free. -/
  | accepted (id text : Str)

/-- The calls of an attempt, given by its identifier and its rendered
filename, whose candidate was reported occupied. -/
def occupiedCalls (context : renderContext) (dir : zk.Dir) (a : Str × Str) : List Call :=
  [Call.genId a.1,
   Call.renderFilename { context with ID := a.1 } a.2 none,
   Call.validatePath (candidatePath dir a.2) false none]

/-- The calls of the attempt at which the loop stops. -/
def stopCalls (context : renderContext) (dir : zk.Dir) : Stop → List Call
  | Stop.exhausted => []
  | Stop.renderFailed id text err =>
    [Call.genId id, Call.renderFilename { context with ID := id } text (some err)]
  | Stop.validateFailed id text valid err =>
    [Call.genId id, Call.renderFilename { context with ID := id } text none,
     Call.validatePath (candidatePath dir text) valid (some err)]
  | Stop.accepted id text =>
    [Call.genId id, Call.renderFilename { context with ID := id } text none,
     Call.validatePath (candidatePath dir text) true none]

/-- The context after the occupied attempts `occ`. -/
def lastContext (context : renderContext) (occ : List (Str × Str)) : renderContext :=
  occ.foldl (fun c a => { c with ID := a.1 }) context

/-- The variable `filename` after the occupied attempts `occ`. -/
def lastName (dir : zk.Dir) (filename : Str) (occ : List (Str × Str)) : Str :=
  occ.foldl (fun _ a => candidateName dir a.2) filename

/-- The variable `path` after the occupied attempts `occ`. -/
def lastPath (dir : zk.Dir) (path : Str) (occ : List (Str × Str)) : Str :=
  occ.foldl (fun _ a => candidatePath dir a.2) path

/-- What the loop returns when it stops after the occupied attempts `occ`. -/
def stopResult (context : renderContext) (dir : zk.Dir) (filename path : Str)
    (occ : List (Str × Str)) : Stop → Str × renderContext × Option Error
  | Stop.exhausted =>
    ([], lastContext context occ,
      some (Error.ErrNoteExists (filepath.Join dir.Name (lastName dir filename occ))
        (lastPath dir path occ)))
  | Stop.renderFailed id _ err => ([], { context with ID := id }, some err)
  | Stop.validateFailed id _ _ err => ([], { context with ID := id }, some err)
  | Stop.accepted id text =>
    (candidatePath dir text,
      { context with
        ID := id
        Filename := filepath.Base (candidatePath dir text)
        FilenameStem := paths.FilenameStem (candidatePath dir text) },
      none)

/-- The attempts a run of `n` iterations can make before `stop`: all `n` when
the loop is exhausted, fewer otherwise. -/
def stopsWithin (n : Nat) (occ : List (Str × Str)) : Stop → Prop
  | Stop.exhausted => occ.length = n
  | _ => occ.length < n

/-- The attempt `a` was made at the world state `t` and its candidate was
reported occupied. -/
def occupiedAt {σ : Type} (context : renderContext) (dir : zk.Dir) (deps : createDeps σ)
    (t : σ) (a : Str × Str) : Prop :=
  (deps.genId t).1 = a.1 ∧ (attemptRender context deps t).1 = (a.2, none) ∧
    (attemptValidate context dir deps t).1 = (false, none)

/-- The attempt at which the loop stops was made at the world state `t`. -/
def stopAt {σ : Type} (context : renderContext) (dir : zk.Dir) (deps : createDeps σ)
    (t : σ) : Stop → Prop
  | Stop.exhausted => True
  | Stop.renderFailed id text err =>
    (deps.genId t).1 = id ∧ (attemptRender context deps t).1 = (text, some err)
  | Stop.validateFailed id text valid err =>
    (deps.genId t).1 = id ∧ (attemptRender context deps t).1 = (text, none) ∧
      (attemptValidate context dir deps t).1 = (valid, some err)
  | Stop.accepted id text =>
    (deps.genId t).1 = id ∧ (attemptRender context deps t).1 = (text, none) ∧
      (attemptValidate context dir deps t).1 = (true, none)

namespace filepath

/-- A path element that `Clean` keeps as it is: not empty, without separator,
and neither `.` nor `..`. -/
def plainElem (e : Str) : Prop :=
  Separator ∉ e ∧ e ≠ [] ∧ e ≠ ['.'] ∧ e ≠ ['.', '.']

instance (e : Str) : Decidable (plainElem e) := by
  unfold plainElem; infer_instance

end filepath

/-! ## Sample collaborators -/

namespace Sample

/-- The directory `journal` of a notebook at `/notes`, with notes in `.md`. -/
def dir : zk.Dir :=
  { Name := "journal".toList
    Path := "/notes/journal".toList
    Config :=
      { Note :=
          { FilenameTemplate := "{{id}}".toList
            Extension := "md".toList
            BodyTemplatePath := opt.NullString
            IDOptions := { Length := 6, Charset := "abc123".toList }
            DefaultTitle := "Untitled".toList }
        Extra := [] } }

/-- A request for a note titled `Groceries` in `dir`, without content. -/
def opts : CreateOpts :=
  { Config := { TemplateDirs := [] }
    Dir := dir
    Title := opt.NewString "Groceries".toList
    Content := opt.NullString }

/-- Collaborators over a world state that counts the identifiers generated so
far: the identifier, the filename render and the validation are given as
functions of that count. -/
def deps (gen : Nat → Str) (render : renderContext → Nat → Str × Option Error)
    (valid : Str → Nat → Bool × Option Error) (body : templ.Renderer Nat) : createDeps Nat :=
  { filenameTemplate := ⟨fun context s => (render context s, s)⟩
    bodyTemplate := body
    genId := fun s => (gen s, s + 1)
    validatePath := fun path s => (valid path s, s)
    now := 0 }

/-- The filename template `{{id}}`. -/
def idTemplate : renderContext → Nat → Str × Option Error :=
  fun context _ => (context.ID, none)

/-- The identifiers `a`, `aa`, `aaa`, ... -/
def genA : Nat → Str := fun s => List.replicate (s + 1) 'a'

/-- The context `create` builds for the sample request. -/
def context : renderContext :=
  createContext opts (deps genA idTemplate (fun _ _ => (true, none)) templ.NullRenderer) []

/-- Collaborators for which the first two candidates are occupied and the
third is free. -/
def thirdFree : createDeps Nat :=
  deps genA idTemplate (fun _ s => (decide (3 ≤ s), none)) templ.NullRenderer

/-- Collaborators whose validator looks at the path alone: only the third
candidate, `/notes/journal/aaa.md`, is free. -/
def thirdFreeByPath : createDeps Nat :=
  deps genA idTemplate (fun path _ => (decide (path = "/notes/journal/aaa.md".toList), none))
    templ.NullRenderer

/-- Collaborators whose filename template renders `note` whatever the
identifier and whose validator answers occupied at the first attempt and free
from the second one on. -/
def occupiedThenFree : createDeps Nat :=
  deps genA (fun _ _ => ("note".toList, none)) (fun _ s => (decide (2 ≤ s), none))
    templ.NullRenderer

/-- The identifier `abc123`, whatever the world state. -/
def genAbc : Nat → Str := fun _ => "abc123".toList

/-- Collaborators of the example of the specification: the identifier is
`abc123`, the template is `{{id}}`, every path is free and there is no body
template. -/
def allFree : createDeps Nat :=
  deps genAbc idTemplate (fun _ _ => (true, none)) templ.NullRenderer

/-- As `allFree`, with a body template that fails to render. -/
def bodyFails : createDeps Nat :=
  deps genAbc idTemplate (fun _ _ => (true, none))
    ⟨fun _ s => (([], some (Error.message "body: undefined".toList)), s)⟩

/-- As `allFree`, with the filename template `sub/{{id}}`. -/
def subTemplate : createDeps Nat :=
  deps genAbc (fun context _ => ("sub/".toList ++ context.ID, none)) (fun _ _ => (true, none))
    templ.NullRenderer

/-- As `allFree`, with a filename template that renders `.`. -/
def dotTemplate : createDeps Nat :=
  deps genAbc (fun _ _ => (['.'], none)) (fun _ _ => (true, none)) templ.NullRenderer

/-- As `allFree`, with a filename template that renders the empty string. -/
def emptyTemplate : createDeps Nat :=
  deps genAbc (fun _ _ => ([], none)) (fun _ _ => (true, none)) templ.NullRenderer

/-- The sample request in a directory with an empty extension. -/
def optsNoExt : CreateOpts :=
  { opts with
    Dir := { dir with Config := { dir.Config with Note := { dir.Config.Note with Extension := [] } } } }

/-- As `allFree`, with every path occupied. -/
def allOccupied : createDeps Nat :=
  deps genAbc idTemplate (fun _ _ => (false, none)) templ.NullRenderer

/-- The error of a filename template with an undefined placeholder. -/
def renderError : Error := Error.message "filename: undefined placeholder".toList

/-- Collaborators whose filename template does not render. -/
def renderFails : createDeps Nat :=
  deps genA (fun _ _ => ([], some renderError)) (fun _ _ => (true, none)) templ.NullRenderer

/-- The error of a failed existence check. -/
def existsError : Error := Error.message "permission denied".toList

/-- Collaborators whose validator reports the first candidate occupied and
fails on the second one, returning `true` next to the error. -/
def validateFails : createDeps Nat :=
  deps genA idTemplate (fun _ s => if s = 1 then (false, none) else (true, some existsError))
    templ.NullRenderer

/-- The error of a template that cannot be loaded. -/
def loadError : Error := Error.message "filename template not found".toList

/-- A template loader that cannot load any template. -/
def failingLoader : templ.Loader Nat :=
  { Load := fun _ s => (Except.error loadError, s)
    LoadFile := fun _ s => (Except.error loadError, s) }

/-- A template loader that loads `{{id}}` for every template. -/
def idLoader : templ.Loader Nat :=
  { Load := fun _ s => (Except.ok ⟨fun context s => (idTemplate context s, s)⟩, s)
    LoadFile := fun _ s => (Except.ok ⟨fun context s => (idTemplate context s, s)⟩, s) }

/-- An empty file system that accepts every write, identifiers `a`, `aa`,
..., and no template directory. -/
def outside : Outside Nat :=
  { LocateTemplate := fun _ _ s => (([], false), s)
    NewIDGenerator := fun _ s => (genA s, s + 1)
    Exists := fun _ s => ((false, none), s)
    WriteString := fun _ _ s => (none, s)
    Date := fun s => (0, s) }

end Sample

/-- The identifiers generated and the filename renders of a log, in order. -/
def genIdRenderCalls : List Call → List Call
  | [] => []
  | Call.genId id :: l => Call.genId id :: genIdRenderCalls l
  | Call.renderFilename context text err :: l =>
    Call.renderFilename context text err :: genIdRenderCalls l
  | _ :: l => genIdRenderCalls l

/-- The generation of the identifier of a filename render, followed by that
render. -/
def genIdThenRender (r : renderContext × Str × Option Error) : List Call :=
  [Call.genId r.1.ID, Call.renderFilename r.1 r.2.1 r.2.2]

namespace Sample

/-- Collaborators whose filename template renders `note` whatever the
identifier, with every path occupied. -/
def constantTemplate : createDeps Nat :=
  deps genA (fun _ _ => ("note".toList, none)) (fun _ _ => (false, none)) templ.NullRenderer

end Sample

/-! ## The log of `Create` -/

/-- A renderer whose renders are appended to the log, as the call made by
`call`. -/
def loggedRenderer {σ : Type} (call : renderContext → Str → Option Error → Call)
    (r : templ.Renderer σ) : templ.Renderer (σ × List Call) :=
  ⟨fun context w =>
    let x := r.Render context w.1
    (x.1, (x.2, w.2 ++ [call context x.1.1 x.1.2]))⟩

/-- A template loader whose templates log their renders: a template loaded
from its text is a filename template, a template loaded from a file a body
template. Loading itself is not logged. -/
def loggedLoader {σ : Type} (l : templ.Loader σ) : templ.Loader (σ × List Call) where
  Load := fun template w =>
    let x := l.Load template w.1
    (match x.1 with
      | Except.error err => Except.error err
      | Except.ok r => Except.ok (loggedRenderer Call.renderFilename r),
      (x.2, w.2))
  LoadFile := fun path w =>
    let x := l.LoadFile path w.1
    (match x.1 with
      | Except.error err => Except.error err
      | Except.ok r => Except.ok (loggedRenderer Call.renderBody r),
      (x.2, w.2))

/-- The outside of `Create` with the identifiers generated, the existence
checks (as the validations `validatePath` makes of them) and the writes
appended to the log. The template lookup and the clock are not logged. -/
def loggedOutside {σ : Type} (out : Outside σ) : Outside (σ × List Call) where
  LocateTemplate := fun config path w =>
    let x := out.LocateTemplate config path w.1
    (x.1, (x.2, w.2))
  NewIDGenerator := fun options w =>
    let g := out.NewIDGenerator options w.1
    (g.1, (g.2, w.2 ++ [Call.genId g.1]))
  Exists := fun path w =>
    let e := out.Exists path w.1
    (e.1, (e.2, w.2 ++ [Call.validatePath path (!e.1.1) e.1.2]))
  WriteString := fun path content w =>
    let x := out.WriteString path content w.1
    (x.1, (x.2, w.2 ++ [Call.writeString path content x.1]))
  Date := fun w =>
    let d := out.Date w.1
    (d.1, (d.2, w.2))

/-- The log of `Create` run from the world state `s`. The render of
`templ.NullRenderer`, which is no collaborator, is not in it. -/
def CreateLog {σ : Type} (out : Outside σ) (environ : List (Str × Str)) (opts : CreateOpts)
    (templateLoader : templ.Loader σ) (s : σ) : List Call :=
  (Create (loggedOutside out) environ opts (loggedLoader templateLoader) (s, [])).2.2

/-- The writes of a log, in order: path, content and error. -/
def writeStringCalls : List Call → List (Str × Str × Option Error)
  | [] => []
  | Call.writeString path content err :: l => (path, content, err) :: writeStringCalls l
  | _ :: l => writeStringCalls l

/-- The collaborators `Create` hands to `create`, for the loaded templates
and the world state `s` at which the clock is read. -/
def Create.deps {σ : Type} (out : Outside σ) (opts : CreateOpts)
    (filenameTemplate bodyTemplate : templ.Renderer σ) (s : σ) : createDeps σ :=
  { filenameTemplate := filenameTemplate
    bodyTemplate := bodyTemplate
    genId := out.NewIDGenerator opts.Dir.Config.Note.IDOptions
    validatePath := validatePath out
    now := (out.Date s).1 }

/-- The body renderer `b` over logged world states does what the renderer
`bt` does, and logs no write. -/
def bodyLike {σ : Type} (b : templ.Renderer (σ × List Call)) (bt : templ.Renderer σ) : Prop :=
  ∀ context w,
    (b.Render context w).1 = (bt.Render context w.1).1 ∧
    (b.Render context w).2.1 = (bt.Render context w.1).2 ∧
    writeStringCalls (b.Render context w).2.2 = writeStringCalls w.2

/-- What a logged run of `Create` that ended with the result and the log `R`
has written: at most one write, made as the last call, of the note that
`create` returned (for a body template that satisfies `P`), at the world
state `create` left; a run that succeeds has written the path it returns,
and a run that fails has written nothing unless it is the write that
failed. -/
def writesOnce {σ : Type} (out : Outside σ) (environ : List (Str × Str)) (opts : CreateOpts)
    (P : templ.Renderer σ → Prop) (R : (Str × Option Error) × (σ × List Call)) : Prop :=
  (writeStringCalls R.2.2).length ≤ 1 ∧
  (∀ path content err, (path, content, err) ∈ writeStringCalls R.2.2 →
    R.2.2.getLast? = some (Call.writeString path content err) ∧
    R.1 = (match err with
      | some e => ([], some (errors.Wrapperf "new note".toList e))
      | none => (path, none)) ∧
    ∃ (filenameTemplate bodyTemplate : templ.Renderer σ) (t : σ),
      P bodyTemplate ∧
      (create opts (Create.deps out opts filenameTemplate bodyTemplate t) environ
        (out.Date t).2).1 = (some { path := path, content := content }, none) ∧
      err = (out.WriteString path content
        (create opts (Create.deps out opts filenameTemplate bodyTemplate t) environ
          (out.Date t).2).2).1) ∧
  (R.1.2 = none → ∃ content, writeStringCalls R.2.2 = [(R.1.1, content, none)]) ∧
  (∀ err, R.1.2 = some err →
    writeStringCalls R.2.2 = [] ∨
    ∃ path content e, writeStringCalls R.2.2 = [(path, content, some e)] ∧
      err = errors.Wrapperf "new note".toList e)

/-- The template resolution of `Create` (its lines 50 to 65): the filename
template and the body template it loads, or the error it returns, and the
world state after. -/
def Create.resolve {σ : Type} (out : Outside σ) (opts : CreateOpts)
    (templateLoader : templ.Loader σ) (s : σ) :
    Except Error (templ.Renderer σ × templ.Renderer σ) × σ :=
  let wrap := errors.Wrapperf "new note".toList
  let l := templateLoader.Load opts.Dir.Config.Note.FilenameTemplate s
  match l.1 with
  | Except.error err => (Except.error err, l.2)
  | Except.ok filenameTemplate =>
    let templatePath := opts.Dir.Config.Note.BodyTemplatePath.Unwrap
    if templatePath ≠ [] then
      let a := out.LocateTemplate opts.Config templatePath l.2
      if !a.1.2 then
        (Except.error (wrap (Error.message (templatePath ++ ": cannot find template".toList))),
          a.2)
      else
        let f := templateLoader.LoadFile a.1.1 a.2
        match f.1 with
        | Except.error err => (Except.error (wrap err), f.2)
        | Except.ok bodyTemplate => (Except.ok (filenameTemplate, bodyTemplate), f.2)
    else (Except.ok (filenameTemplate, templ.NullRenderer), l.2)

/-- A request as `opts`, for a directory whose notes have the body template
`note.md`. -/
def Sample.optsBodyTemplate : CreateOpts :=
  { Config := { TemplateDirs := ["/templates".toList] }
    Dir :=
      { Name := "journal".toList
        Path := "/notes/journal".toList
        Config :=
          { Note :=
              { FilenameTemplate := "{{id}}".toList
                Extension := "md".toList
                BodyTemplatePath := opt.NewString "note.md".toList
                IDOptions := { Length := 6, Charset := "abc123".toList }
                DefaultTitle := "Untitled".toList }
            Extra := [] } }
    Title := opt.NewString "Groceries".toList
    Content := opt.NullString }

/-- A template loader that loads `{{id}}` for a template given by its text
and a heading with the title for a template file. -/
def Sample.titleLoader : templ.Loader Nat :=
  { Load := fun _ s => (Except.ok ⟨fun context s => (Sample.idTemplate context s, s)⟩, s)
    LoadFile := fun _ s =>
      (Except.ok ⟨fun context s => (('#' :: ' ' :: context.Title, none), s)⟩, s) }

/-- As `Sample.outside`, with every template found in `/templates`. -/
def Sample.outsideTemplates : Outside Nat :=
  { LocateTemplate := fun _ path s => (("/templates/".toList ++ path, true), s)
    NewIDGenerator := fun _ s => (Sample.genA s, s + 1)
    Exists := fun _ s => ((false, none), s)
    WriteString := fun _ _ s => (none, s)
    Date := fun s => (0, s) }

/-- The error of a write on a read-only file system. -/
def Sample.writeError : Error := Error.message "read-only file system".toList

/-- As `Sample.outsideTemplates`, on a file system that refuses every write. -/
def Sample.outsideReadOnly : Outside Nat :=
  { LocateTemplate := fun _ path s => (("/templates/".toList ++ path, true), s)
    NewIDGenerator := fun _ s => (Sample.genA s, s + 1)
    Exists := fun _ s => ((false, none), s)
    WriteString := fun _ _ s => (some Sample.writeError, s)
    Date := fun s => (0, s) }

/-! ## `internal/cli/cmd/config.go`: the alias listing -/

namespace cmd

/-- `AliasList`: the options of the alias listing. -/
structure AliasList where
  Format : Str
  Header : Str
  Footer : Str
  Delimiter : Str
  NoPager : Bool
  Quiet : Bool
  deriving DecidableEq, Repr

/-- What `Run` uses of `cli.Container`. -/
structure Container where
  /-- `Config.Aliases`, in the order in which `range` visits the map (an
  order Go does not specify). -/
  Aliases : List (Str × Str)
  /-- `Paginate`: the error returned for `NoPager` and the text that the
  callback writes. -/
  Paginate : Bool → Str → Option Error

/-- What a call of `Run` did: the receiver after the call, the call of
`Paginate` if there was one (`NoPager` and the text written by the callback),
the text printed on the standard error, and the error returned. -/
structure RunResult where
  cmd : AliasList
  paginated : Option (Bool × Str)
  stderr : Str
  err : Option Error
  deriving DecidableEq, Repr

/-- The loop of the callback: the aliases as `key=value`, with the delimiter
before each one but the first; `i` counts the aliases already printed. -/
def aliasLines (delimiter : Str) : Nat → List (Str × Str) → Str
  | _, [] => []
  | i, (key, value) :: rest =>
    (if i > 0 then delimiter else []) ++ (key ++ '=' :: value) ++
      aliasLines delimiter (i + 1) rest

/-- The text the callback of `Run` writes: header, aliases and footer. -/
def listing (cmd : AliasList) (container : Container) : Str :=
  (if cmd.Header ≠ [] then cmd.Header else []) ++
    aliasLines cmd.Delimiter 0 container.Aliases ++
    (if cmd.Footer ≠ [] then cmd.Footer else [])

/-- The end of `Run`, after the options are settled: the aliases are
paginated when there is one; otherwise their number is printed on the
standard error unless `Quiet`. `Pluralize` is `strings.Pluralize`. -/
def AliasList.list (Pluralize : Str → Nat → Str) (cmd : AliasList) (container : Container) :
    RunResult :=
  let count := container.Aliases.length
  if count > 0 then
    { cmd := cmd
      paginated := some (cmd.NoPager, listing cmd container)
      stderr := []
      err := container.Paginate cmd.NoPager (listing cmd container) }
  else if !cmd.Quiet then
    { cmd := cmd
      paginated := none
      stderr := "\nFound ".toList ++ (Nat.repr count).toList ++ ' ' ::
        Pluralize "alias".toList count ++ ['\n']
      err := none }
  else { cmd := cmd, paginated := none, stderr := [], err := none }

/-- `AliasList.Run`. `ExpandWhitespaceLiterals` is the function of that name
of `util/strings`. -/
def AliasList.Run (ExpandWhitespaceLiterals : Str → Str) (Pluralize : Str → Nat → Str)
    (cmd : AliasList) (container : Container) : RunResult :=
  let cmd := { cmd with Header := ExpandWhitespaceLiterals cmd.Header }
  let cmd := { cmd with Footer := ExpandWhitespaceLiterals cmd.Footer }
  let cmd := { cmd with Delimiter := ExpandWhitespaceLiterals cmd.Delimiter }
  if cmd.Format = "json".toList ∨ cmd.Format = "jsonl".toList then
    if cmd.Header ≠ [] then
      { cmd := cmd, paginated := none, stderr := []
        err := some (Error.message "--header can't be used with JSON format".toList) }
    else if cmd.Footer ≠ ['\n'] then
      { cmd := cmd, paginated := none, stderr := []
        err := some (Error.message "--footer can't be used with JSON format".toList) }
    else if cmd.Delimiter ≠ ['\n'] then
      { cmd := cmd, paginated := none, stderr := []
        err := some (Error.message "--delimiter can't be used with JSON format".toList) }
    else
      let cmd :=
        if cmd.Format = "json".toList then
          { cmd with Delimiter := [','], Header := ['['], Footer := [']', '\n'] }
        else if cmd.Format = "jsonl".toList then { cmd with Footer := ['\n'] }
        else cmd
      AliasList.list Pluralize cmd container
  else AliasList.list Pluralize cmd container

/-- The options of `cmd` after the expansion of the whitespace literals. -/
def expanded (ExpandWhitespaceLiterals : Str → Str) (cmd : AliasList) : AliasList :=
  { cmd with
    Header := ExpandWhitespaceLiterals cmd.Header
    Footer := ExpandWhitespaceLiterals cmd.Footer
    Delimiter := ExpandWhitespaceLiterals cmd.Delimiter }

/-- A sample container with two aliases and a pager that never fails. -/
def sampleContainer : Container :=
  { Aliases := [("ls".toList, "zk list".toList), ("n".toList, "zk new".toList)]
    Paginate := fun _ _ => none }

/-- Sample options: the format and the header are given, the footer and the
delimiter are the defaults. -/
def sampleCmd (format header : Str) : AliasList :=
  { Format := format, Header := header, Footer := ['\n'], Delimiter := ['\n']
    NoPager := true, Quiet := false }

end cmd

/-! # Theorems -/

theorem lastContext_eq (context : renderContext) (a : Str × Str) (occ : List (Str × Str)) :
    lastContext { context with ID := a.1 } occ = lastContext context (a :: occ) := rfl

theorem occupiedCalls_context (context : renderContext) (dir : zk.Dir) (id : Str)
    (a : Str × Str) :
    occupiedCalls { context with ID := id } dir a = occupiedCalls context dir a := rfl

theorem stopCalls_context (context : renderContext) (dir : zk.Dir) (id : Str) (stop : Stop) :
    stopCalls { context with ID := id } dir stop = stopCalls context dir stop := by
  cases stop <;> rfl

/-! ## One iteration of the loop -/

section Steps

variable {σ : Type} (dir : zk.Dir) (deps : createDeps σ) (n : Nat) (context : renderContext)
  (filename path : Str) (s : σ)

theorem genPathLoop_renderFailed (err : Error)
    (hr : (attemptRender context deps s).1.2 = some err) :
    genPathLoop dir deps (n + 1) context filename path s
      = (([], attemptContext context deps s, some err), (attemptRender context deps s).2) := by
  simp only [attemptRender, attemptContext] at hr
  simp only [genPathLoop, hr, attemptRender, attemptContext]

theorem genPathLoop_validateFailed (err : Error)
    (hr : (attemptRender context deps s).1.2 = none)
    (he : (attemptValidate context dir deps s).1.2 = some err) :
    genPathLoop dir deps (n + 1) context filename path s
      = (([], attemptContext context deps s, some err),
          (attemptValidate context dir deps s).2) := by
  simp only [attemptValidate, attemptRender, attemptContext, candidatePath, candidateName]
    at hr he
  simp only [genPathLoop, hr, he, attemptValidate, attemptRender, attemptContext,
    candidatePath, candidateName]

theorem genPathLoop_accepted
    (hr : (attemptRender context deps s).1.2 = none)
    (he : (attemptValidate context dir deps s).1.2 = none)
    (hv : (attemptValidate context dir deps s).1.1 = true) :
    genPathLoop dir deps (n + 1) context filename path s
      = ((candidatePath dir (attemptRender context deps s).1.1,
          { attemptContext context deps s with
            Filename := filepath.Base (candidatePath dir (attemptRender context deps s).1.1)
            FilenameStem :=
              paths.FilenameStem (candidatePath dir (attemptRender context deps s).1.1) },
          none),
          (attemptValidate context dir deps s).2) := by
  simp only [attemptValidate, attemptRender, attemptContext, candidatePath, candidateName]
    at hr he hv
  simp only [genPathLoop, hr, he, hv, attemptValidate, attemptRender, attemptContext,
    candidatePath, candidateName, if_true]

theorem genPathLoop_occupied
    (hr : (attemptRender context deps s).1.2 = none)
    (he : (attemptValidate context dir deps s).1.2 = none)
    (hv : (attemptValidate context dir deps s).1.1 = false) :
    genPathLoop dir deps (n + 1) context filename path s
      = genPathLoop dir deps n (attemptContext context deps s)
          (candidateName dir (attemptRender context deps s).1.1)
          (candidatePath dir (attemptRender context deps s).1.1)
          (attemptValidate context dir deps s).2 := by
  simp only [attemptValidate, attemptRender, attemptContext, candidatePath, candidateName]
    at hr he hv
  simp only [genPathLoop, hr, he, hv, attemptValidate, attemptRender, attemptContext,
    candidatePath, candidateName, Bool.false_eq_true, if_false]

variable (l : List Call)

theorem attemptContext_logged :
    attemptContext context (logged deps) (s, l) = attemptContext context deps s := rfl

theorem attemptRender_logged :
    attemptRender context (logged deps) (s, l)
      = ((attemptRender context deps s).1,
          ((attemptRender context deps s).2,
            l ++ [Call.genId (deps.genId s).1] ++
              [Call.renderFilename (attemptContext context deps s)
                (attemptRender context deps s).1.1 (attemptRender context deps s).1.2])) := rfl

theorem attemptValidate_logged :
    attemptValidate context dir (logged deps) (s, l)
      = ((attemptValidate context dir deps s).1,
          ((attemptValidate context dir deps s).2,
            l ++ [Call.genId (deps.genId s).1] ++
              [Call.renderFilename (attemptContext context deps s)
                (attemptRender context deps s).1.1 (attemptRender context deps s).1.2] ++
              [Call.validatePath (candidatePath dir (attemptRender context deps s).1.1)
                (attemptValidate context dir deps s).1.1
                (attemptValidate context dir deps s).1.2])) := rfl

end Steps

/-! ## Runs of the loop -/

/-- Logging is transparent: the run with the logged collaborators returns what
the run with the collaborators themselves returns and leaves the same world
state. -/
theorem genPathLoop_logged {σ : Type} (dir : zk.Dir) (deps : createDeps σ) (n : Nat) :
    ∀ (context : renderContext) (filename path : Str) (s : σ) (l : List Call),
      (genPathLoop dir (logged deps) n context filename path (s, l)).1
          = (genPathLoop dir deps n context filename path s).1 ∧
      (genPathLoop dir (logged deps) n context filename path (s, l)).2.1
          = (genPathLoop dir deps n context filename path s).2 := by
  induction n with
  | zero => intro context filename path s l; exact ⟨rfl, rfl⟩
  | succ n ih =>
    intro context filename path s l
    cases hr : (attemptRender context deps s).1.2 with
    | some err =>
      rw [genPathLoop_renderFailed dir deps n context filename path s err hr,
        genPathLoop_renderFailed dir (logged deps) n context filename path (s, l) err
          (by rw [attemptRender_logged]; exact hr)]
      exact ⟨rfl, rfl⟩
    | none =>
      have hr2 : (attemptRender context (logged deps) (s, l)).1.2 = none := by
        rw [attemptRender_logged]; exact hr
      cases he : (attemptValidate context dir deps s).1.2 with
      | some err =>
        rw [genPathLoop_validateFailed dir deps n context filename path s err hr he,
          genPathLoop_validateFailed dir (logged deps) n context filename path (s, l) err hr2
            (by rw [attemptValidate_logged]; exact he)]
        exact ⟨rfl, rfl⟩
      | none =>
        have he2 : (attemptValidate context dir (logged deps) (s, l)).1.2 = none := by
          rw [attemptValidate_logged]; exact he
        cases hv : (attemptValidate context dir deps s).1.1 with
        | true =>
          rw [genPathLoop_accepted dir deps n context filename path s hr he hv,
            genPathLoop_accepted dir (logged deps) n context filename path (s, l) hr2 he2
              (by rw [attemptValidate_logged]; exact hv)]
          exact ⟨rfl, rfl⟩
        | false =>
          rw [genPathLoop_occupied dir deps n context filename path s hr he hv,
            genPathLoop_occupied dir (logged deps) n context filename path (s, l) hr2 he2
              (by rw [attemptValidate_logged]; exact hv)]
          exact ih _ _ _ _ _

/-- Every run of the loop is a sequence of occupied attempts followed by one
stop; the log and the result are those of that sequence. -/
theorem genPathLoop_shape {σ : Type} (dir : zk.Dir) (deps : createDeps σ) (n : Nat) :
    ∀ (context : renderContext) (filename path : Str) (s : σ) (l : List Call),
    ∃ (occ : List (Str × Str)) (stop : Stop),
      stopsWithin n occ stop ∧
      (genPathLoop dir (logged deps) n context filename path (s, l)).2.2
        = l ++ (occ.flatMap (occupiedCalls context dir) ++ stopCalls context dir stop) ∧
      (genPathLoop dir (logged deps) n context filename path (s, l)).1
        = stopResult context dir filename path occ stop ∧
      (∀ a ∈ occ, ∃ t, occupiedAt context dir deps t a) ∧
      ∃ t, stopAt context dir deps t stop := by
  induction n with
  | zero =>
    intro context filename path s l
    exact ⟨[], Stop.exhausted, rfl, by simp [genPathLoop, stopCalls], rfl, by simp,
      ⟨s, trivial⟩⟩
  | succ n ih =>
    intro context filename path s l
    cases hr : (attemptRender context deps s).1.2 with
    | some err =>
      rw [genPathLoop_renderFailed dir (logged deps) n context filename path (s, l) err
          (by rw [attemptRender_logged]; exact hr)]
      refine ⟨[], Stop.renderFailed (deps.genId s).1 (attemptRender context deps s).1.1 err,
        ?_, ?_, ?_, by simp, ⟨s, rfl, by rw [← hr]⟩⟩
      · simp [stopsWithin]
      · simp [attemptRender_logged, stopCalls, hr, attemptContext]
      · rfl
    | none =>
      have hr2 : (attemptRender context (logged deps) (s, l)).1.2 = none := by
        rw [attemptRender_logged]; exact hr
      cases he : (attemptValidate context dir deps s).1.2 with
      | some err =>
        rw [genPathLoop_validateFailed dir (logged deps) n context filename path (s, l) err hr2
            (by rw [attemptValidate_logged]; exact he)]
        refine ⟨[], Stop.validateFailed (deps.genId s).1 (attemptRender context deps s).1.1
          (attemptValidate context dir deps s).1.1 err, ?_, ?_, ?_, by simp,
          ⟨s, rfl, by rw [← hr], by rw [← he]⟩⟩
        · simp [stopsWithin]
        · simp [attemptValidate_logged, stopCalls, hr, he, attemptContext]
        · rfl
      | none =>
        have he2 : (attemptValidate context dir (logged deps) (s, l)).1.2 = none := by
          rw [attemptValidate_logged]; exact he
        cases hv : (attemptValidate context dir deps s).1.1 with
        | true =>
          rw [genPathLoop_accepted dir (logged deps) n context filename path (s, l) hr2 he2
              (by rw [attemptValidate_logged]; exact hv)]
          refine ⟨[], Stop.accepted (deps.genId s).1 (attemptRender context deps s).1.1,
            ?_, ?_, ?_, by simp, ⟨s, rfl, by rw [← hr], by rw [← he, ← hv]⟩⟩
          · simp [stopsWithin]
          · simp [attemptValidate_logged, stopCalls, hr, he, hv, attemptContext]
          · rfl
        | false =>
          rw [genPathLoop_occupied dir (logged deps) n context filename path (s, l) hr2 he2
              (by rw [attemptValidate_logged]; exact hv)]
          obtain ⟨occ, stop, hw, hl, hres, hocc, t, hstop⟩ :=
            ih (attemptContext context (logged deps) (s, l))
              (candidateName dir (attemptRender context (logged deps) (s, l)).1.1)
              (candidatePath dir (attemptRender context (logged deps) (s, l)).1.1)
              (attemptValidate context dir (logged deps) (s, l)).2.1
              (attemptValidate context dir (logged deps) (s, l)).2.2
          refine ⟨((deps.genId s).1, (attemptRender context deps s).1.1) :: occ, stop,
            ?_, ?_, ?_, ?_, ⟨t, by cases stop <;> exact hstop⟩⟩
          · cases stop <;> simp_all [stopsWithin]
          · have hoc : occupiedCalls (attemptContext context (logged deps) (s, l)) dir
                = occupiedCalls context dir := rfl
            have hsc : stopCalls (attemptContext context (logged deps) (s, l)) dir stop
                = stopCalls context dir stop := stopCalls_context context dir _ stop
            rw [hl, hoc, hsc]
            simp [attemptValidate_logged, occupiedCalls, hr, he, hv, attemptContext]
          · rw [hres]
            cases stop <;> rfl
          · intro a ha
            rcases List.mem_cons.mp ha with h | h
            · exact ⟨s, by rw [h]; exact ⟨rfl, by rw [← hr], by rw [← he, ← hv]⟩⟩
            · exact hocc a h

/-! ## Lemmas on paths -/

namespace filepath

theorem splitSep_ne_nil (p : Str) : splitSep p ≠ [] := by
  cases p with
  | nil => simp [splitSep]
  | cons c cs =>
    unfold splitSep
    split
    · simp
    · split <;> simp

theorem splitSep_append_sep (a b : Str) :
    splitSep (a ++ Separator :: b) = splitSep a ++ splitSep b := by
  induction a with
  | nil => simp [splitSep]
  | cons c cs ih =>
    by_cases hc : c = Separator
    · simp [splitSep, hc, ih]
    · have h1 := splitSep_ne_nil cs
      cases hs : splitSep cs with
      | nil => exact absurd hs h1
      | cons e es => simp [splitSep, hc, ih, hs]

theorem splitSep_of_not_mem (p : Str) (h : Separator ∉ p) : splitSep p = [p] := by
  induction p with
  | nil => rfl
  | cons c cs ih =>
    have hc : c ≠ Separator := fun hc => h (by simp [hc])
    have hcs : Separator ∉ cs := fun hm => h (List.mem_cons_of_mem _ hm)
    simp [splitSep, hc, ih hcs]

theorem cleanElems_append (rooted : Bool) (es fs : List Str) :
    ∀ out, cleanElems rooted (es ++ fs) out = cleanElems rooted fs (cleanElems rooted es out) := by
  induction es with
  | nil => intro out; rfl
  | cons e es ih =>
    intro out
    simp only [List.cons_append, cleanElems]
    split
    · exact ih _
    · split
      · split
        · split <;> exact ih _
        · split <;> exact ih _
      · exact ih _

theorem joinSep_concat (ys : List Str) (e : Str) :
    joinSep (ys ++ [e]) = if ys = [] then e else joinSep ys ++ Separator :: e := by
  induction ys with
  | nil => rfl
  | cons y ys ih =>
    cases ys with
    | nil => simp [joinSep]
    | cons z zs =>
      simp only [List.cons_append, joinSep] at ih ⊢
      simp [ih]

theorem Base_append_plain (pre e : Str) (he : plainElem e)
    (hpre : pre = [] ∨ ∃ q, pre = q ++ [Separator]) : Base (pre ++ e) = e := by
  obtain ⟨hsep, hne, -, -⟩ := he
  have hall : ∀ c ∈ e.reverse, (fun c => decide (c ≠ Separator)) c = true := by
    intro c hc
    have : c ≠ Separator := fun h => hsep (h ▸ List.mem_reverse.mp hc)
    simpa using this
  have hrev : e.reverse ≠ [] := by simpa using hne
  obtain ⟨x, xs, hx⟩ := List.exists_cons_of_ne_nil hrev
  have hxsep : x ≠ Separator := by simpa using hall x (by simp [hx])
  have hstrip : stripTrailingSep (pre ++ e) = pre ++ e := by
    have he' : e = xs.reverse ++ [x] := by
      have := congrArg List.reverse hx
      simpa using this
    simp [stripTrailingSep, List.reverse_append, hx, List.dropWhile, hxsep]
    exact he'.symm
  have hlast : lastElem (pre ++ e) = e := by
    unfold lastElem
    rw [List.reverse_append, List.takeWhile_append_of_pos hall]
    rcases hpre with h | ⟨q, h⟩
    · simp [h]
    · simp [h]
  have hne2 : pre ++ e ≠ [] := by simp [hne]
  simp [Base, hne2, hstrip, hlast, hne]

theorem cleanElems_plain (rooted : Bool) (e : Str) (he : plainElem e) (out : List Str) :
    cleanElems rooted [e] out = e :: out := by
  obtain ⟨-, hne, hd, hdd⟩ := he
  simp [cleanElems, hne, hd, hdd]

theorem Clean_append_plain (a e : Str) (he : plainElem e) :
    ∃ pre, Clean (a ++ Separator :: e) = pre ++ e ∧ (pre = [] ∨ ∃ q, pre = q ++ [Separator]) := by
  have hne : a ++ Separator :: e ≠ [] := by simp
  have hsep : Separator ∉ e := he.1
  have hne1 : e ≠ [] := he.2.1
  unfold Clean
  simp only [hne, if_false]
  generalize decide ((a ++ Separator :: e).head? = some Separator) = rooted
  rw [splitSep_append_sep, splitSep_of_not_mem e hsep, cleanElems_append,
    cleanElems_plain _ e he, List.reverse_cons, joinSep_concat]
  generalize (cleanElems rooted (splitSep a) []).reverse = ys
  by_cases hy : ys = []
  · cases rooted
    · exact ⟨[], by simp [hy, hne1], Or.inl rfl⟩
    · exact ⟨[Separator], by simp [hy], Or.inr ⟨[], rfl⟩⟩
  · cases rooted
    · exact ⟨joinSep ys ++ [Separator], by simp [hy], Or.inr ⟨joinSep ys, rfl⟩⟩
    · exact ⟨Separator :: (joinSep ys ++ [Separator]), by simp [hy],
        Or.inr ⟨Separator :: joinSep ys, rfl⟩⟩

theorem Clean_plain (e : Str) (he : plainElem e) : Clean e = e := by
  have hsep : Separator ∉ e := he.1
  have hne1 : e ≠ [] := he.2.1
  have hroot : ¬ e.head? = some Separator := by
    intro h
    cases e with
    | nil => simp at h
    | cons c cs => simp at h; exact hsep (by simp [h])
  unfold Clean
  simp only [hne1, if_false]
  rw [splitSep_of_not_mem e hsep, cleanElems_plain _ e he]
  simp [joinSep, hroot, hne1]

/-- Joining a plain element to any path gives a path whose base name is that
element. -/
theorem Base_Join_plain (a e : Str) (he : plainElem e) : Base (Join a e) = e := by
  unfold Join
  by_cases ha : a = []
  · simp only [ha, ne_eq, not_true_eq_false, if_false, he.2.1, not_false_eq_true, if_true]
    rw [Clean_plain e he]
    exact Base_append_plain [] e he (Or.inl rfl)
  · simp only [ne_eq, ha, not_false_eq_true, if_true]
    obtain ⟨pre, hc, hpre⟩ := Clean_append_plain a e he
    rw [hc]
    exact Base_append_plain pre e he hpre

end filepath

/-! ## Lemmas on logs -/

theorem genIdCalls_append (l m : List Call) :
    genIdCalls (l ++ m) = genIdCalls l ++ genIdCalls m := by
  induction l with
  | nil => rfl
  | cons c l ih => cases c <;> simp [genIdCalls, ih]

theorem renderFilenameCalls_append (l m : List Call) :
    renderFilenameCalls (l ++ m) = renderFilenameCalls l ++ renderFilenameCalls m := by
  induction l with
  | nil => rfl
  | cons c l ih => cases c <;> simp [renderFilenameCalls, ih]

theorem validatePathCalls_append (l m : List Call) :
    validatePathCalls (l ++ m) = validatePathCalls l ++ validatePathCalls m := by
  induction l with
  | nil => rfl
  | cons c l ih => cases c <;> simp [validatePathCalls, ih]

theorem renderBodyCalls_append (l m : List Call) :
    renderBodyCalls (l ++ m) = renderBodyCalls l ++ renderBodyCalls m := by
  induction l with
  | nil => rfl
  | cons c l ih => cases c <;> simp [renderBodyCalls, ih]

theorem genIdCalls_occupied (context : renderContext) (dir : zk.Dir) (occ : List (Str × Str)) :
    genIdCalls (occ.flatMap (occupiedCalls context dir)) = occ.map (fun a => a.1) := by
  induction occ with
  | nil => rfl
  | cons a occ ih =>
    simp only [List.flatMap_cons, genIdCalls_append, ih, List.map_cons]
    rfl

theorem renderFilenameCalls_occupied (context : renderContext) (dir : zk.Dir)
    (occ : List (Str × Str)) :
    renderFilenameCalls (occ.flatMap (occupiedCalls context dir))
      = occ.map (fun a => ({ context with ID := a.1 }, a.2, none)) := by
  induction occ with
  | nil => rfl
  | cons a occ ih =>
    simp only [List.flatMap_cons, renderFilenameCalls_append, ih, List.map_cons]
    rfl

theorem validatePathCalls_occupied (context : renderContext) (dir : zk.Dir)
    (occ : List (Str × Str)) :
    validatePathCalls (occ.flatMap (occupiedCalls context dir))
      = occ.map (fun a => (candidatePath dir a.2, false, none)) := by
  induction occ with
  | nil => rfl
  | cons a occ ih =>
    simp only [List.flatMap_cons, validatePathCalls_append, ih, List.map_cons]
    rfl

theorem renderBodyCalls_occupied (context : renderContext) (dir : zk.Dir)
    (occ : List (Str × Str)) :
    renderBodyCalls (occ.flatMap (occupiedCalls context dir)) = [] := by
  induction occ with
  | nil => rfl
  | cons a occ ih =>
    simp only [List.flatMap_cons, renderBodyCalls_append, ih]
    rfl

theorem renderBodyCalls_stop (context : renderContext) (dir : zk.Dir) (stop : Stop) :
    renderBodyCalls (stopCalls context dir stop) = [] := by
  cases stop <;> rfl

/-! ## The shape of `genPath` and of `create` -/

/-- The result and the world state of `genPath` do not depend on the log. -/
theorem genPath_logged {σ : Type} (context : renderContext) (dir : zk.Dir)
    (deps : createDeps σ) (s : σ) :
    (genPath context dir (logged deps) (s, [])).1 = (genPath context dir deps s).1 ∧
    (genPath context dir (logged deps) (s, [])).2.1 = (genPath context dir deps s).2 :=
  genPathLoop_logged dir deps 50 context [] [] s []

/-- A run of `genPath`: at most 50 occupied attempts and one stop. -/
theorem genPath_shape {σ : Type} (context : renderContext) (dir : zk.Dir)
    (deps : createDeps σ) (s : σ) :
    ∃ (occ : List (Str × Str)) (stop : Stop),
      stopsWithin 50 occ stop ∧
      genPathLog context dir deps s
        = occ.flatMap (occupiedCalls context dir) ++ stopCalls context dir stop ∧
      (genPath context dir deps s).1 = stopResult context dir [] [] occ stop := by
  obtain ⟨occ, stop, hw, hl, hres, -, -⟩ := genPathLoop_shape dir deps 50 context [] [] s []
  refine ⟨occ, stop, hw, ?_, ?_⟩
  · simpa [genPathLog, genPath] using hl
  · rw [← (genPath_logged context dir deps s).1]
    exact hres

/-- A run of `genPath`, with the world states at which its attempts were
made. -/
theorem genPath_shape_at {σ : Type} (context : renderContext) (dir : zk.Dir)
    (deps : createDeps σ) (s : σ) :
    ∃ (occ : List (Str × Str)) (stop : Stop),
      stopsWithin 50 occ stop ∧
      genPathLog context dir deps s
        = occ.flatMap (occupiedCalls context dir) ++ stopCalls context dir stop ∧
      (genPath context dir deps s).1 = stopResult context dir [] [] occ stop ∧
      (∀ a ∈ occ, ∃ t, occupiedAt context dir deps t a) ∧
      ∃ t, stopAt context dir deps t stop := by
  obtain ⟨occ, stop, hw, hl, hres, hocc, hstop⟩ :=
    genPathLoop_shape dir deps 50 context [] [] s []
  refine ⟨occ, stop, hw, ?_, ?_, hocc, hstop⟩
  · simpa [genPathLog, genPath] using hl
  · rw [← (genPath_logged context dir deps s).1]
    exact hres

theorem createContext_logged {σ : Type} (opts : CreateOpts) (deps : createDeps σ)
    (environ : List (Str × Str)) :
    createContext opts (logged deps) environ = createContext opts deps environ := rfl

theorem bodyRender_logged {σ : Type} (deps : createDeps σ) (context : renderContext)
    (w : σ × List Call) :
    (logged deps).bodyTemplate.Render context w
      = ((deps.bodyTemplate.Render context w.1).1,
          ((deps.bodyTemplate.Render context w.1).2,
            w.2 ++ [Call.renderBody context (deps.bodyTemplate.Render context w.1).1.1
              (deps.bodyTemplate.Render context w.1).1.2])) := rfl

/-- When `genPath` fails, `create` returns its error and no note, and calls
no further collaborator. -/
theorem create_of_genPath_error {σ : Type} (opts : CreateOpts) (deps : createDeps σ)
    (environ : List (Str × Str)) (s : σ) (err : Error)
    (h : (genPath (createContext opts deps environ) opts.Dir deps s).1.2.2 = some err) :
    create opts deps environ s
      = ((none, some err), (genPath (createContext opts deps environ) opts.Dir deps s).2) := by
  simp only [create, h]

/-- When `genPath` succeeds, `create` renders the body with the context that
`genPath` returned. -/
theorem create_of_genPath_ok {σ : Type} (opts : CreateOpts) (deps : createDeps σ)
    (environ : List (Str × Str)) (s : σ)
    (h : (genPath (createContext opts deps environ) opts.Dir deps s).1.2.2 = none) :
    create opts deps environ s
      = (match (deps.bodyTemplate.Render
            (genPath (createContext opts deps environ) opts.Dir deps s).1.2.1
            (genPath (createContext opts deps environ) opts.Dir deps s).2).1.2 with
          | some err => (none, some err)
          | none =>
            (some
              { path := (genPath (createContext opts deps environ) opts.Dir deps s).1.1
                content := (deps.bodyTemplate.Render
                  (genPath (createContext opts deps environ) opts.Dir deps s).1.2.1
                  (genPath (createContext opts deps environ) opts.Dir deps s).2).1.1 },
              none),
          (deps.bodyTemplate.Render
            (genPath (createContext opts deps environ) opts.Dir deps s).1.2.1
            (genPath (createContext opts deps environ) opts.Dir deps s).2).2) := by
  simp only [create, h]
  split <;> simp_all

/-- `create` returns a note or an error, never neither. -/
theorem create_note_or_error {σ : Type} (opts : CreateOpts) (deps : createDeps σ)
    (environ : List (Str × Str)) (s : σ) :
    (create opts deps environ s).1 ≠ (none, none) := by
  cases h : (genPath (createContext opts deps environ) opts.Dir deps s).1.2.2 with
  | some err => rw [create_of_genPath_error opts deps environ s err h]; simp
  | none =>
    rw [create_of_genPath_ok opts deps environ s h]
    split <;> simp

/-- The log of `create` when `genPath` fails is the log of `genPath`. -/
theorem createLog_of_genPath_error {σ : Type} (opts : CreateOpts) (deps : createDeps σ)
    (environ : List (Str × Str)) (s : σ) (err : Error)
    (h : (genPath (createContext opts deps environ) opts.Dir deps s).1.2.2 = some err) :
    createLog opts deps environ s
      = genPathLog (createContext opts deps environ) opts.Dir deps s := by
  have h2 : (genPath (createContext opts (logged deps) environ) opts.Dir (logged deps)
      (s, [])).1.2.2 = some err := by
    rw [createContext_logged, (genPath_logged _ _ deps s).1]; exact h
  unfold createLog
  rw [create_of_genPath_error opts (logged deps) environ (s, []) err h2]
  rfl

/-- The log of `create` when `genPath` succeeds is the log of `genPath`
followed by one body render, of the context that `genPath` returned. -/
theorem createLog_of_genPath_ok {σ : Type} (opts : CreateOpts) (deps : createDeps σ)
    (environ : List (Str × Str)) (s : σ)
    (h : (genPath (createContext opts deps environ) opts.Dir deps s).1.2.2 = none) :
    createLog opts deps environ s
      = genPathLog (createContext opts deps environ) opts.Dir deps s ++
          [Call.renderBody (genPath (createContext opts deps environ) opts.Dir deps s).1.2.1
            (deps.bodyTemplate.Render
              (genPath (createContext opts deps environ) opts.Dir deps s).1.2.1
              (genPath (createContext opts deps environ) opts.Dir deps s).2).1.1
            (deps.bodyTemplate.Render
              (genPath (createContext opts deps environ) opts.Dir deps s).1.2.1
              (genPath (createContext opts deps environ) opts.Dir deps s).2).1.2] := by
  have h2 : (genPath (createContext opts (logged deps) environ) opts.Dir (logged deps)
      (s, [])).1.2.2 = none := by
    rw [createContext_logged, (genPath_logged _ _ deps s).1]; exact h
  unfold createLog
  rw [create_of_genPath_ok opts (logged deps) environ (s, []) h2, bodyRender_logged,
    createContext_logged, (genPath_logged _ _ deps s).1, (genPath_logged _ _ deps s).2]
  rfl

/-! ## Success: the first free candidate -/

/-- C1 (amended): when `genPath` succeeds, the validations of the run are
those of the earlier candidates, each reported occupied without error,
followed by the validation of the returned path, reported free: the returned
path is the candidate of the first attempt reported free, and the validation
on which `genPath` returns is never one that reported occupied. Every
validated path is the candidate built from the filename render of its
attempt. When the answer of the validator depends on the path alone, no
validation of the run reported the returned path occupied. -/
theorem genPath_returns_first_free {σ : Type} (context : renderContext) (dir : zk.Dir)
    (deps : createDeps σ) (s : σ) (h : (genPath context dir deps s).1.2.2 = none) :
    (∃ earlier : List (Str × Bool × Option Error),
      validatePathCalls (genPathLog context dir deps s)
        = earlier ++ [((genPath context dir deps s).1.1, true, none)] ∧
      (∀ v ∈ earlier, v.2 = (false, none)) ∧
      earlier.length < 50 ∧
      (validatePathCalls (genPathLog context dir deps s)).map (fun v => v.1)
        = (renderFilenameCalls (genPathLog context dir deps s)).map
            (fun r => candidatePath dir r.2.1)) ∧
    (∀ v : Str → Bool × Option Error,
      (∀ path t, (deps.validatePath path t).1 = v path) →
      ∀ x ∈ validatePathCalls (genPathLog context dir deps s),
        x.1 = (genPath context dir deps s).1.1 → x.2 = (true, none)) := by
  obtain ⟨occ, stop, hw, hl, hres, hocc, t, hstop⟩ := genPath_shape_at context dir deps s
  rw [hres] at h
  cases stop with
  | exhausted => simp [stopResult] at h
  | renderFailed id text err => simp [stopResult] at h
  | validateFailed id text valid err => simp [stopResult] at h
  | accepted id text =>
    have hvals : validatePathCalls (genPathLog context dir deps s)
        = occ.map (fun a => (candidatePath dir a.2, false, none)) ++
            [((genPath context dir deps s).1.1, true, none)] := by
      rw [hl, hres, validatePathCalls_append, validatePathCalls_occupied]
      rfl
    refine ⟨⟨occ.map (fun a => (candidatePath dir a.2, false, none)), hvals, ?_, ?_, ?_⟩, ?_⟩
    · intro v hv
      obtain ⟨a, -, rfl⟩ := List.mem_map.mp hv
      rfl
    · simpa [stopsWithin] using hw
    · rw [hl, validatePathCalls_append, validatePathCalls_occupied,
        renderFilenameCalls_append, renderFilenameCalls_occupied]
      simp [stopCalls, validatePathCalls, renderFilenameCalls, Function.comp_def]
    · intro v hv x hx hpath
      rw [hvals] at hx
      rcases List.mem_append.mp hx with hx | hx
      · obtain ⟨a, ha, rfl⟩ := List.mem_map.mp hx
        obtain ⟨u, -, h2, h3⟩ := hocc a ha
        obtain ⟨-, k2, k3⟩ := hstop
        rw [attemptValidate, hv, h2] at h3
        rw [attemptValidate, hv, k2] at k3
        have hp : candidatePath dir a.2 = candidatePath dir text := by
          rw [hres] at hpath
          exact hpath
        rw [hp, k3] at h3
        simp at h3
      · rw [List.mem_singleton] at hx
        rw [hx]

theorem genPath_returns_first_free_witness :
    (genPath Sample.context Sample.dir Sample.thirdFree 0).1.2.2 = none ∧
    (∃ earlier : List (Str × Bool × Option Error),
      validatePathCalls (genPathLog Sample.context Sample.dir Sample.thirdFree 0)
        = earlier ++ [((genPath Sample.context Sample.dir Sample.thirdFree 0).1.1, true, none)] ∧
      (∀ v ∈ earlier, v.2 = (false, none)) ∧
      earlier.length < 50 ∧
      (validatePathCalls (genPathLog Sample.context Sample.dir Sample.thirdFree 0)).map
          (fun v => v.1)
        = (renderFilenameCalls (genPathLog Sample.context Sample.dir Sample.thirdFree 0)).map
            (fun r => candidatePath Sample.dir r.2.1)) ∧
    (genPath Sample.context Sample.dir Sample.thirdFreeByPath 0).1.1
      = "/notes/journal/aaa.md".toList ∧
    (validatePathCalls (genPathLog Sample.context Sample.dir Sample.thirdFreeByPath 0)).length
      = 3 ∧
    (∀ x ∈ validatePathCalls (genPathLog Sample.context Sample.dir Sample.thirdFreeByPath 0),
      x.1 = (genPath Sample.context Sample.dir Sample.thirdFreeByPath 0).1.1 →
      x.2 = (true, none)) :=
  ⟨by decide, (genPath_returns_first_free _ _ _ _ (by decide)).1, by decide, by decide,
    (genPath_returns_first_free _ _ Sample.thirdFreeByPath 0 (by decide)).2
      (fun path => (decide (path = "/notes/journal/aaa.md".toList), none))
      (fun _ _ => rfl)⟩

/-- C1, as stated, fails: with a filename template that ignores the
identifier and a validator that answers occupied and then free for the same
path, `genPath` returns, on the second attempt, the path that the validator
reported occupied on the first. -/
theorem genPath_returns_first_free_counterexample :
    (genPath Sample.context Sample.dir Sample.occupiedThenFree 0).1.1
      = "/notes/journal/note.md".toList ∧
    (genPath Sample.context Sample.dir Sample.occupiedThenFree 0).1.2.2 = none ∧
    validatePathCalls (genPathLog Sample.context Sample.dir Sample.occupiedThenFree 0)
      = [("/notes/journal/note.md".toList, false, none),
         ("/notes/journal/note.md".toList, true, none)] ∧
    ("/notes/journal/note.md".toList, false, (none : Option Error))
      ∈ validatePathCalls (genPathLog Sample.context Sample.dir Sample.occupiedThenFree 0) := by
  decide

/-- C2 (amended): when the first filename render succeeds and the validator
reports the first candidate free, `genPath` accepts it on the first attempt,
after exactly one identifier, one filename render and one validation, and
returns the path of the directory joined with the rendered filename, a dot
and the extension; `create` then makes one more call, the body render, and
returns the note at that path when the body render succeeds, and the error
of the body render otherwise. The base name of that path is the rendered
filename, a dot and the extension whenever that name has no separator and is
neither `.` nor `..`. -/
theorem create_first_attempt {σ : Type} (opts : CreateOpts) (deps : createDeps σ)
    (environ : List (Str × Str)) (s : σ)
    (hr : (attemptRender (createContext opts deps environ) deps s).1.2 = none)
    (hv : (attemptValidate (createContext opts deps environ) opts.Dir deps s).1
      = (true, none)) :
    (genPath (createContext opts deps environ) opts.Dir deps s).1
      = (filepath.Join opts.Dir.Path
            ((attemptRender (createContext opts deps environ) deps s).1.1 ++
              '.' :: opts.Dir.Config.Note.Extension),
          acceptedContext (createContext opts deps environ) opts.Dir deps s, none) ∧
    genPathLog (createContext opts deps environ) opts.Dir deps s
      = [Call.genId (deps.genId s).1,
          Call.renderFilename (attemptContext (createContext opts deps environ) deps s)
            (attemptRender (createContext opts deps environ) deps s).1.1 none,
          Call.validatePath
            (candidatePath opts.Dir (attemptRender (createContext opts deps environ) deps s).1.1)
            true none] ∧
    createLog opts deps environ s
      = [Call.genId (deps.genId s).1,
          Call.renderFilename (attemptContext (createContext opts deps environ) deps s)
            (attemptRender (createContext opts deps environ) deps s).1.1 none,
          Call.validatePath
            (candidatePath opts.Dir (attemptRender (createContext opts deps environ) deps s).1.1)
            true none,
          Call.renderBody (acceptedContext (createContext opts deps environ) opts.Dir deps s)
            (deps.bodyTemplate.Render
              (acceptedContext (createContext opts deps environ) opts.Dir deps s)
              (attemptValidate (createContext opts deps environ) opts.Dir deps s).2).1.1
            (deps.bodyTemplate.Render
              (acceptedContext (createContext opts deps environ) opts.Dir deps s)
              (attemptValidate (createContext opts deps environ) opts.Dir deps s).2).1.2] ∧
    ((deps.bodyTemplate.Render
        (acceptedContext (createContext opts deps environ) opts.Dir deps s)
        (attemptValidate (createContext opts deps environ) opts.Dir deps s).2).1.2 = none →
      (create opts deps environ s).1
        = (some
            { path :=
                filepath.Join opts.Dir.Path
                  ((attemptRender (createContext opts deps environ) deps s).1.1 ++
                    '.' :: opts.Dir.Config.Note.Extension)
              content := (deps.bodyTemplate.Render
                (acceptedContext (createContext opts deps environ) opts.Dir deps s)
                (attemptValidate (createContext opts deps environ) opts.Dir deps s).2).1.1 },
            none)) ∧
    (∀ err,
      (deps.bodyTemplate.Render
        (acceptedContext (createContext opts deps environ) opts.Dir deps s)
        (attemptValidate (createContext opts deps environ) opts.Dir deps s).2).1.2 = some err →
      (create opts deps environ s).1 = (none, some err)) ∧
    (filepath.plainElem
        ((attemptRender (createContext opts deps environ) deps s).1.1 ++
          '.' :: opts.Dir.Config.Note.Extension) →
      filepath.Base
          (filepath.Join opts.Dir.Path
            ((attemptRender (createContext opts deps environ) deps s).1.1 ++
              '.' :: opts.Dir.Config.Note.Extension))
        = (attemptRender (createContext opts deps environ) deps s).1.1 ++
            '.' :: opts.Dir.Config.Note.Extension) := by
  have hv1 : (attemptValidate (createContext opts deps environ) opts.Dir deps s).1.1 = true := by
    rw [hv]
  have hv2 : (attemptValidate (createContext opts deps environ) opts.Dir deps s).1.2 = none := by
    rw [hv]
  have hg : genPath (createContext opts deps environ) opts.Dir deps s
      = ((candidatePath opts.Dir (attemptRender (createContext opts deps environ) deps s).1.1,
          acceptedContext (createContext opts deps environ) opts.Dir deps s, none),
          (attemptValidate (createContext opts deps environ) opts.Dir deps s).2) :=
    genPathLoop_accepted opts.Dir deps 49 _ [] [] s hr hv2 hv1
  have hgl : genPathLog (createContext opts deps environ) opts.Dir deps s
      = [Call.genId (deps.genId s).1,
          Call.renderFilename (attemptContext (createContext opts deps environ) deps s)
            (attemptRender (createContext opts deps environ) deps s).1.1 none,
          Call.validatePath
            (candidatePath opts.Dir (attemptRender (createContext opts deps environ) deps s).1.1)
            true none] := by
    unfold genPathLog genPath
    rw [genPathLoop_accepted opts.Dir (logged deps) 49 _ [] [] (s, [])
      (by rw [attemptRender_logged]; exact hr) (by rw [attemptValidate_logged]; exact hv2)
      (by rw [attemptValidate_logged]; exact hv1), attemptValidate_logged]
    simp [hr, hv1, hv2]
  have hok : (genPath (createContext opts deps environ) opts.Dir deps s).1.2.2 = none := by
    rw [hg]
  refine ⟨by rw [hg]; rfl, hgl, ?_, ?_, ?_, fun hp => filepath.Base_Join_plain _ _ hp⟩
  · rw [createLog_of_genPath_ok opts deps environ s hok, hgl, hg]
    rfl
  · intro hb
    rw [create_of_genPath_ok opts deps environ s hok, hg]
    simp only [hb]
    rfl
  · intro err hb
    rw [create_of_genPath_ok opts deps environ s hok, hg]
    simp only [hb]

theorem create_first_attempt_witness :
    (attemptValidate (createContext Sample.opts Sample.allFree []) Sample.opts.Dir
        Sample.allFree 0).1 = (true, none) ∧
    (create Sample.opts Sample.allFree [] 0).1
      = (some { path := "/notes/journal/abc123.md".toList, content := [] }, none) ∧
    (createLog Sample.opts Sample.allFree [] 0).length = 4 ∧
    filepath.Base "/notes/journal/abc123.md".toList = "abc123.md".toList ∧
    (genPath (createContext Sample.opts Sample.bodyFails []) Sample.opts.Dir
        Sample.bodyFails 0).1.1 = "/notes/journal/abc123.md".toList ∧
    (genPathLog (createContext Sample.opts Sample.bodyFails []) Sample.opts.Dir
        Sample.bodyFails 0).length = 3 ∧
    (create Sample.opts Sample.bodyFails [] 0).1
      = (none, some (Error.message "body: undefined".toList)) :=
  have h := create_first_attempt Sample.opts Sample.allFree [] 0 (by decide) (by decide)
  have h2 := create_first_attempt Sample.opts Sample.bodyFails [] 0 (by decide) (by decide)
  ⟨by decide, h.2.2.2.1 (by decide), by rw [h.2.2.1]; rfl, h.2.2.2.2.2 (by decide),
    by rw [h2.1]; decide, by rw [h2.2.1]; rfl, h2.2.2.2.2.1 _ (by decide)⟩

/-- C2, as stated, fails: with the first candidate reported free `create`
still fails when the body template does not render; and the base name of the
returned path is not the rendered filename, a dot and the extension when that
name has a separator (`sub/abc123.md`), is `..` or is `.`. -/
theorem create_first_attempt_counterexample :
    ((attemptValidate (createContext Sample.opts Sample.bodyFails []) Sample.opts.Dir
          Sample.bodyFails 0).1 = (true, none) ∧
      (create Sample.opts Sample.bodyFails [] 0).1
        = (none, some (Error.message "body: undefined".toList))) ∧
    ((attemptValidate (createContext Sample.opts Sample.subTemplate []) Sample.opts.Dir
          Sample.subTemplate 0).1 = (true, none) ∧
      (attemptRender (createContext Sample.opts Sample.subTemplate []) Sample.subTemplate 0).1
        = ("sub/abc123".toList, none) ∧
      (create Sample.opts Sample.subTemplate [] 0).1
        = (some { path := "/notes/journal/sub/abc123.md".toList, content := [] }, none) ∧
      filepath.Base "/notes/journal/sub/abc123.md".toList = "abc123.md".toList ∧
      "abc123.md".toList ≠ "sub/abc123.md".toList) ∧
    ((attemptValidate (createContext Sample.optsNoExt Sample.dotTemplate [])
          Sample.optsNoExt.Dir Sample.dotTemplate 0).1 = (true, none) ∧
      (attemptRender (createContext Sample.optsNoExt Sample.dotTemplate [])
          Sample.dotTemplate 0).1 = (['.'], none) ∧
      (create Sample.optsNoExt Sample.dotTemplate [] 0).1
        = (some { path := "/notes".toList, content := [] }, none) ∧
      filepath.Base "/notes".toList = "notes".toList ∧
      "notes".toList ≠ ['.'] ++ '.' :: Sample.optsNoExt.Dir.Config.Note.Extension) ∧
    ((attemptValidate (createContext Sample.optsNoExt Sample.emptyTemplate [])
          Sample.optsNoExt.Dir Sample.emptyTemplate 0).1 = (true, none) ∧
      (attemptRender (createContext Sample.optsNoExt Sample.emptyTemplate [])
          Sample.emptyTemplate 0).1 = ([], none) ∧
      (create Sample.optsNoExt Sample.emptyTemplate [] 0).1
        = (some { path := "/notes/journal".toList, content := [] }, none) ∧
      filepath.Base "/notes/journal".toList = "journal".toList ∧
      "journal".toList ≠ [] ++ '.' :: Sample.optsNoExt.Dir.Config.Note.Extension) := by
  decide

/-! ## Collision: every candidate occupied -/

theorem lastName_concat (dir : zk.Dir) (filename : Str) (init : List (Str × Str))
    (a : Str × Str) : lastName dir filename (init ++ [a]) = candidateName dir a.2 := by
  simp [lastName, List.foldl_append]

theorem lastPath_concat (dir : zk.Dir) (path : Str) (init : List (Str × Str))
    (a : Str × Str) : lastPath dir path (init ++ [a]) = candidatePath dir a.2 := by
  simp [lastPath, List.foldl_append]

theorem lastContext_concat (context : renderContext) (init : List (Str × Str))
    (a : Str × Str) :
    lastContext context (init ++ [a]) = { lastContext context init with ID := a.1 } := by
  simp [lastContext, List.foldl_append]

/-- The context after some attempts differs from the first one in its
identifier only. -/
theorem lastContext_frame (occ : List (Str × Str)) :
    ∀ context : renderContext,
      lastContext context occ = { context with ID := (lastContext context occ).ID } := by
  induction occ with
  | nil => intro context; rfl
  | cons a occ ih =>
    intro context
    have h := ih { context with ID := a.1 }
    rw [← lastContext_eq] 
    rw [h]

/-- When every filename render of the run succeeded and every validation of
the run reported an occupied path without error, the run made all 50
attempts. -/
theorem genPath_exhausted {σ : Type} (context : renderContext) (dir : zk.Dir)
    (deps : createDeps σ) (s : σ)
    (hrender : ∀ r ∈ renderFilenameCalls (genPathLog context dir deps s), r.2.2 = none)
    (hvalid : ∀ v ∈ validatePathCalls (genPathLog context dir deps s), v.2 = (false, none)) :
    ∃ (init : List (Str × Str)) (a : Str × Str),
      (init ++ [a]).length = 50 ∧
      genPathLog context dir deps s = (init ++ [a]).flatMap (occupiedCalls context dir) ∧
      (genPath context dir deps s).1
        = ([], { context with ID := a.1 },
            some (Error.ErrNoteExists (filepath.Join dir.Name (candidateName dir a.2))
              (candidatePath dir a.2))) := by
  obtain ⟨occ, stop, hw, hl, hres⟩ := genPath_shape context dir deps s
  rw [hl] at hrender hvalid
  cases stop with
  | renderFailed id text err =>
    have := hrender ({ context with ID := id }, text, some err)
      (by simp [renderFilenameCalls_append, stopCalls, renderFilenameCalls])
    simp at this
  | validateFailed id text valid err =>
    have := hvalid (candidatePath dir text, valid, some err)
      (by simp [validatePathCalls_append, stopCalls, validatePathCalls])
    simp at this
  | accepted id text =>
    have := hvalid (candidatePath dir text, true, none)
      (by simp [validatePathCalls_append, stopCalls, validatePathCalls])
    simp at this
  | exhausted =>
    have hlen : occ.length = 50 := hw
    rcases List.eq_nil_or_concat occ with h | ⟨init, a, h⟩
    · rw [h] at hlen; simp at hlen
    · rw [List.concat_eq_append] at h
      subst h
      refine ⟨init, a, hlen, by simpa [stopCalls] using hl, ?_⟩
      rw [hres]
      simp only [stopResult, lastName_concat, lastPath_concat, lastContext_concat]
      rw [lastContext_frame init context]

/-- C3: when every filename render of the run succeeds and the validator
reports every candidate occupied, without error, `genPath` renders and
validates 50 candidates and fails with `ErrNoteExists`; its `Path` is the
last (50th) validated path and its `Name` the directory name joined with the
last candidate filename. `create` fails with the same error and no note. -/
theorem genPath_collision {σ : Type} (context : renderContext) (dir : zk.Dir)
    (deps : createDeps σ) (s : σ)
    (hrender : ∀ r ∈ renderFilenameCalls (genPathLog context dir deps s), r.2.2 = none)
    (hvalid : ∀ v ∈ validatePathCalls (genPathLog context dir deps s), v.2 = (false, none)) :
    ∃ (c : renderContext) (text : Str),
      (renderFilenameCalls (genPathLog context dir deps s)).length = 50 ∧
      (validatePathCalls (genPathLog context dir deps s)).length = 50 ∧
      (renderFilenameCalls (genPathLog context dir deps s)).getLast? = some (c, text, none) ∧
      (validatePathCalls (genPathLog context dir deps s)).getLast?
        = some (filepath.Join dir.Path (text ++ '.' :: dir.Config.Note.Extension), false, none) ∧
      (genPath context dir deps s).1.1 = [] ∧
      (genPath context dir deps s).1.2.2
        = some (Error.ErrNoteExists
            (filepath.Join dir.Name (text ++ '.' :: dir.Config.Note.Extension))
            (filepath.Join dir.Path (text ++ '.' :: dir.Config.Note.Extension))) ∧
      ∀ (opts : CreateOpts) (environ : List (Str × Str)),
        createContext opts deps environ = context → opts.Dir = dir →
        (create opts deps environ s).1
          = (none, some (Error.ErrNoteExists
              (filepath.Join dir.Name (text ++ '.' :: dir.Config.Note.Extension))
              (filepath.Join dir.Path (text ++ '.' :: dir.Config.Note.Extension)))) := by
  obtain ⟨init, a, hlen, hl, hres⟩ := genPath_exhausted context dir deps s hrender hvalid
  refine ⟨{ context with ID := a.1 }, a.2, ?_, ?_, ?_, ?_, ?_, ?_, ?_⟩
  · rw [hl, renderFilenameCalls_occupied, List.length_map]; exact hlen
  · rw [hl, validatePathCalls_occupied, List.length_map]; exact hlen
  · rw [hl, renderFilenameCalls_occupied]; simp
  · rw [hl, validatePathCalls_occupied]; simp [candidatePath, candidateName]
  · rw [hres]
  · rw [hres]; rfl
  · intro opts environ hc hd
    subst hc hd
    rw [create_of_genPath_error opts deps environ s _ (by rw [hres])]
    rfl

theorem genPath_collision_witness :
    (∀ v ∈ validatePathCalls (genPathLog Sample.context Sample.dir Sample.allOccupied 0),
      v.2 = (false, none)) ∧
    ∃ text : Str,
      (validatePathCalls (genPathLog Sample.context Sample.dir Sample.allOccupied 0)).length
        = 50 ∧
      (genPath Sample.context Sample.dir Sample.allOccupied 0).1.2.2
        = some (Error.ErrNoteExists
            (filepath.Join Sample.dir.Name (text ++ '.' :: Sample.dir.Config.Note.Extension))
            (filepath.Join Sample.dir.Path (text ++ '.' :: Sample.dir.Config.Note.Extension))) :=
  ⟨by decide,
    let ⟨_, text, h⟩ := genPath_collision Sample.context Sample.dir Sample.allOccupied 0
      (by decide) (by decide)
    ⟨text, h.2.1, h.2.2.2.2.2.1⟩⟩

/-- When the identifier is always `id`, the filename template renders the
identifier and the candidate for `id` is always reported occupied, the run
consists of 50 occupied attempts for `id`. -/
theorem genPath_same_identifier {σ : Type} (context : renderContext) (dir : zk.Dir)
    (deps : createDeps σ) (s : σ) (id : Str)
    (hgen : ∀ t, (deps.genId t).1 = id)
    (hrender : ∀ c t, (deps.filenameTemplate.Render c t).1 = (c.ID, none))
    (hvalid : ∀ t, (deps.validatePath (candidatePath dir id) t).1 = (false, none)) :
    genPathLog context dir deps s
        = (List.replicate 50 (id, id)).flatMap (occupiedCalls context dir) ∧
    (genPath context dir deps s).1
        = ([], { context with ID := id },
            some (Error.ErrNoteExists (filepath.Join dir.Name (candidateName dir id))
              (candidatePath dir id))) := by
  have hr : ∀ t, (attemptRender context deps t).1 = (id, none) := by
    intro t
    rw [attemptRender, hrender]
    simp [attemptContext, hgen]
  have hv : ∀ t, (attemptValidate context dir deps t).1 = (false, none) := by
    intro t
    rw [attemptValidate, hr t]
    exact hvalid _
  obtain ⟨occ, stop, hw, hl, hres, hocc, t, hstop⟩ := genPath_shape_at context dir deps s
  have hall : ∀ a ∈ occ, a = (id, id) := by
    intro a ha
    obtain ⟨u, h1, h2, -⟩ := hocc a ha
    rw [hr u] at h2
    rw [hgen u] at h1
    exact Prod.ext h1.symm (congrArg (fun x => x.1) h2).symm
  cases stop with
  | renderFailed i text err =>
    obtain ⟨-, h2⟩ := hstop
    rw [hr t] at h2
    simp at h2
  | validateFailed i text valid err =>
    obtain ⟨-, -, h3⟩ := hstop
    rw [hv t] at h3
    simp at h3
  | accepted i text =>
    obtain ⟨-, -, h3⟩ := hstop
    rw [hv t] at h3
    simp at h3
  | exhausted =>
    have hlen : occ.length = 50 := hw
    have hocc2 : occ = List.replicate 50 (id, id) :=
      List.eq_replicate_iff.mpr ⟨hlen, hall⟩
    subst hocc2
    refine ⟨by simpa [stopCalls] using hl, ?_⟩
    rw [hres]
    rfl

/-- C4 (amended): when the identifier generator always returns `abc123`, the
filename template is `{{id}}`, the extension is `md` and the validator reports
the resulting path occupied, `create` fails with `ErrNoteExists` after exactly
50 attempts: 50 identifiers, 50 filename renders, 50 validations and no body
render. The error carries the path of the directory joined with `abc123.md`,
and as name the name of the directory joined with `abc123.md`, which is
`abc123.md` when the name of the directory is empty. -/
theorem create_same_identifier {σ : Type} (opts : CreateOpts) (deps : createDeps σ)
    (environ : List (Str × Str)) (s : σ)
    (hgen : ∀ t, (deps.genId t).1 = "abc123".toList)
    (hrender : ∀ c t, (deps.filenameTemplate.Render c t).1 = (c.ID, none))
    (hext : opts.Dir.Config.Note.Extension = "md".toList)
    (hvalid : ∀ t,
      (deps.validatePath (filepath.Join opts.Dir.Path "abc123.md".toList) t).1 = (false, none)) :
    (create opts deps environ s).1
      = (none, some (Error.ErrNoteExists (filepath.Join opts.Dir.Name "abc123.md".toList)
          (filepath.Join opts.Dir.Path "abc123.md".toList))) ∧
    genIdCalls (createLog opts deps environ s) = List.replicate 50 "abc123".toList ∧
    (renderFilenameCalls (createLog opts deps environ s)).length = 50 ∧
    validatePathCalls (createLog opts deps environ s)
      = List.replicate 50 (filepath.Join opts.Dir.Path "abc123.md".toList, false, none) ∧
    renderBodyCalls (createLog opts deps environ s) = [] ∧
    (opts.Dir.Name = [] →
      filepath.Join opts.Dir.Name "abc123.md".toList = "abc123.md".toList) := by
  have hname : candidateName opts.Dir "abc123".toList = "abc123.md".toList := by
    rw [candidateName, hext]; rfl
  have hpath : candidatePath opts.Dir "abc123".toList
      = filepath.Join opts.Dir.Path "abc123.md".toList := by
    rw [candidatePath, hname]
  obtain ⟨hl, hres⟩ := genPath_same_identifier (createContext opts deps environ) opts.Dir deps s
    "abc123".toList hgen hrender (by rw [hpath]; exact hvalid)
  rw [hname, hpath] at hres
  have herr : (genPath (createContext opts deps environ) opts.Dir deps s).1.2.2
      = some (Error.ErrNoteExists (filepath.Join opts.Dir.Name "abc123.md".toList)
          (filepath.Join opts.Dir.Path "abc123.md".toList)) := by
    rw [hres]
  have hlog := createLog_of_genPath_error opts deps environ s _ herr
  refine ⟨?_, ?_, ?_, ?_, ?_, ?_⟩
  · rw [create_of_genPath_error opts deps environ s _ herr]
  · rw [hlog, hl, genIdCalls_occupied]; simp
  · rw [hlog, hl, renderFilenameCalls_occupied]; simp
  · rw [hlog, hl, validatePathCalls_occupied, List.map_replicate, hpath]
  · rw [hlog, hl, renderBodyCalls_occupied]
  · intro h
    rw [h]
    decide

theorem create_same_identifier_witness :
    (create { Sample.opts with Dir := { Sample.dir with Name := [] } } Sample.allOccupied [] 0).1
      = (none, some (Error.ErrNoteExists "abc123.md".toList "/notes/journal/abc123.md".toList)) ∧
    (validatePathCalls
      (createLog { Sample.opts with Dir := { Sample.dir with Name := [] } } Sample.allOccupied
        [] 0)).length = 50 :=
  have h := create_same_identifier { Sample.opts with Dir := { Sample.dir with Name := [] } }
    Sample.allOccupied [] 0 (fun _ => rfl) (fun _ _ => rfl) rfl (fun _ => rfl)
  ⟨by rw [h.1]; decide, by rw [h.2.2.2.1]; rfl⟩

/-- C4, as stated, fails: in the directory `journal` the error carries the
name `journal/abc123.md`, not `abc123.md`. -/
theorem create_same_identifier_counterexample :
    (∀ t, (Sample.allOccupied.genId t).1 = "abc123".toList) ∧
    (∀ c t, (Sample.allOccupied.filenameTemplate.Render c t).1 = (c.ID, none)) ∧
    Sample.opts.Dir.Config.Note.Extension = "md".toList ∧
    (∀ path t, (Sample.allOccupied.validatePath path t).1 = (false, none)) ∧
    (create Sample.opts Sample.allOccupied [] 0).1
      = (none, some (Error.ErrNoteExists "journal/abc123.md".toList
          "/notes/journal/abc123.md".toList)) ∧
    "journal/abc123.md".toList ≠ "abc123.md".toList :=
  ⟨fun _ => rfl, fun _ _ => rfl, rfl, fun _ _ => rfl, by decide, by decide⟩

/-! ## Errors of the renderer and of the validator -/

theorem getElem?_map_append {α β : Type} (f : α → β) (xs : List α) (ys : List β) (k : Nat)
    (y : β) (hnot : ∀ a, f a ≠ y) (h : (xs.map f ++ ys)[k]? = some y) :
    xs.length ≤ k ∧ ys[k - xs.length]? = some y := by
  by_cases hk : k < xs.length
  · rw [List.getElem?_append_left (by simpa using hk), List.getElem?_map] at h
    cases hx : xs[k]? with
    | none => simp [hx] at h
    | some a => simp [hx] at h; exact absurd h (hnot a)
  · have hk2 : (xs.map f).length ≤ k := by simpa using hk
    rw [List.getElem?_append_right hk2] at h
    exact ⟨Nat.le_of_not_lt hk, by simpa using h⟩

theorem getElem?_singleton_eq_some {α : Type} (x y : α) (k : Nat) (h : [x][k]? = some y) :
    k = 0 ∧ x = y := by
  cases k with
  | zero => simpa using h
  | succ k => simp at h

/-- C5: when the filename render of attempt `k + 1` fails, `genPath` returns
that very error, an empty path and the context of that attempt; the failed
render is the last call of the run, after `k + 1` identifiers, `k + 1`
filename renders and `k` validations, so there is no retry. For the first
attempt (`k = 0`) that is one identifier and no validation. `create` returns
the same error and no note, and calls nothing further. -/
theorem genPath_render_error {σ : Type} (context : renderContext) (dir : zk.Dir)
    (deps : createDeps σ) (s : σ) (k : Nat) (c : renderContext) (text : Str) (err : Error)
    (h : (renderFilenameCalls (genPathLog context dir deps s))[k]? = some (c, text, some err)) :
    (genPath context dir deps s).1 = ([], c, some err) ∧
    k < 50 ∧
    (genIdCalls (genPathLog context dir deps s)).length = k + 1 ∧
    (renderFilenameCalls (genPathLog context dir deps s)).length = k + 1 ∧
    (validatePathCalls (genPathLog context dir deps s)).length = k ∧
    (genPathLog context dir deps s).getLast? = some (Call.renderFilename c text (some err)) ∧
    ∀ (opts : CreateOpts) (environ : List (Str × Str)),
      createContext opts deps environ = context → opts.Dir = dir →
      (create opts deps environ s).1 = (none, some err) ∧
      createLog opts deps environ s = genPathLog context dir deps s := by
  obtain ⟨occ, stop, hw, hl, hres⟩ := genPath_shape context dir deps s
  rw [hl, renderFilenameCalls_append, renderFilenameCalls_occupied] at h
  obtain ⟨hk, hstop⟩ := getElem?_map_append _ occ _ k (c, text, some err)
    (by intro a ha; simpa using congrArg (fun x => x.2.2) ha) h
  cases stop with
  | exhausted => simp [stopCalls, renderFilenameCalls] at hstop
  | validateFailed id t valid e =>
    obtain ⟨-, h2⟩ := getElem?_singleton_eq_some _ _ _ hstop
    simpa using congrArg (fun x => x.2.2) h2
  | accepted id t =>
    obtain ⟨-, h2⟩ := getElem?_singleton_eq_some _ _ _ hstop
    simpa using congrArg (fun x => x.2.2) h2
  | renderFailed id t e =>
    obtain ⟨h1, h2⟩ := getElem?_singleton_eq_some _ _ _ hstop
    have hkeq : occ.length = k := by omega
    have hc : c = { context with ID := id } := (congrArg (fun x => x.1) h2).symm
    have ht : t = text := congrArg (fun x => x.2.1) h2
    have he : e = err := by simpa using congrArg (fun x => x.2.2) h2
    subst hc ht he
    have hlt : occ.length < 50 := hw
    have hgerr : (genPath context dir deps s).1.2.2 = some e := by rw [hres]; rfl
    refine ⟨by rw [hres]; rfl, by omega, ?_, ?_, ?_, ?_, ?_⟩
    · rw [hl, genIdCalls_append, genIdCalls_occupied]
      simp [stopCalls, genIdCalls, hkeq]
    · rw [hl, renderFilenameCalls_append, renderFilenameCalls_occupied]
      simp [stopCalls, renderFilenameCalls, hkeq]
    · rw [hl, validatePathCalls_append, validatePathCalls_occupied]
      simp [stopCalls, validatePathCalls, hkeq]
    · rw [hl]
      simp [stopCalls]
    · intro opts environ hctx hdir
      subst hctx hdir
      exact ⟨by rw [create_of_genPath_error opts deps environ s e hgerr],
        createLog_of_genPath_error opts deps environ s e hgerr⟩

/-- C6: when the validation of attempt `k + 1` returns an error, with
whatever boolean, `genPath` returns that very error and an empty path; the
failed validation is the last call of the run, after `k + 1` identifiers,
`k + 1` filename renders and `k + 1` validations, and the error returned is
the error of the validator, not one built by `genPath`. `create` returns the
same error and no note. -/
theorem genPath_validate_error {σ : Type} (context : renderContext) (dir : zk.Dir)
    (deps : createDeps σ) (s : σ) (k : Nat) (path : Str) (valid : Bool) (err : Error)
    (h : (validatePathCalls (genPathLog context dir deps s))[k]? = some (path, valid, some err)) :
    (genPath context dir deps s).1.1 = [] ∧
    (genPath context dir deps s).1.2.2 = some err ∧
    k < 50 ∧
    (genIdCalls (genPathLog context dir deps s)).length = k + 1 ∧
    (renderFilenameCalls (genPathLog context dir deps s)).length = k + 1 ∧
    (validatePathCalls (genPathLog context dir deps s)).length = k + 1 ∧
    (genPathLog context dir deps s).getLast? = some (Call.validatePath path valid (some err)) ∧
    ∀ (opts : CreateOpts) (environ : List (Str × Str)),
      createContext opts deps environ = context → opts.Dir = dir →
      (create opts deps environ s).1 = (none, some err) ∧
      createLog opts deps environ s = genPathLog context dir deps s := by
  obtain ⟨occ, stop, hw, hl, hres⟩ := genPath_shape context dir deps s
  rw [hl, validatePathCalls_append, validatePathCalls_occupied] at h
  obtain ⟨hk, hstop⟩ := getElem?_map_append _ occ _ k (path, valid, some err)
    (by intro a ha; simpa using congrArg (fun x => x.2.2) ha) h
  cases stop with
  | exhausted => simp [stopCalls, validatePathCalls] at hstop
  | renderFailed id t e => simp [stopCalls, validatePathCalls] at hstop
  | accepted id t =>
    obtain ⟨-, h2⟩ := getElem?_singleton_eq_some _ _ _ hstop
    simpa using congrArg (fun x => x.2.2) h2
  | validateFailed id t v e =>
    obtain ⟨h1, h2⟩ := getElem?_singleton_eq_some _ _ _ hstop
    have hkeq : occ.length = k := by omega
    have hp : candidatePath dir t = path := congrArg (fun x => x.1) h2
    have hv : v = valid := congrArg (fun x => x.2.1) h2
    have he : e = err := by simpa using congrArg (fun x => x.2.2) h2
    subst hp hv he
    have hlt : occ.length < 50 := hw
    have hgerr : (genPath context dir deps s).1.2.2 = some e := by rw [hres]; rfl
    refine ⟨by rw [hres]; rfl, hgerr, by omega, ?_, ?_, ?_, ?_, ?_⟩
    · rw [hl, genIdCalls_append, genIdCalls_occupied]
      simp [stopCalls, genIdCalls, hkeq]
    · rw [hl, renderFilenameCalls_append, renderFilenameCalls_occupied]
      simp [stopCalls, renderFilenameCalls, hkeq]
    · rw [hl, validatePathCalls_append, validatePathCalls_occupied]
      simp [stopCalls, validatePathCalls, hkeq]
    · rw [hl]
      simp [stopCalls]
    · intro opts environ hctx hdir
      subst hctx hdir
      exact ⟨by rw [create_of_genPath_error opts deps environ s e hgerr],
        createLog_of_genPath_error opts deps environ s e hgerr⟩

theorem genPath_render_error_witness :
    (renderFilenameCalls (genPathLog Sample.context Sample.dir Sample.renderFails 0))[0]?
      = some ({ Sample.context with ID := ['a'] }, [], some Sample.renderError) ∧
    (genPath Sample.context Sample.dir Sample.renderFails 0).1
      = ([], { Sample.context with ID := ['a'] }, some Sample.renderError) ∧
    (genIdCalls (genPathLog Sample.context Sample.dir Sample.renderFails 0)).length = 1 ∧
    (validatePathCalls (genPathLog Sample.context Sample.dir Sample.renderFails 0)).length = 0 :=
  have h := genPath_render_error Sample.context Sample.dir Sample.renderFails 0 0
    { Sample.context with ID := ['a'] } [] Sample.renderError (by decide)
  ⟨by decide, h.1, h.2.2.1, h.2.2.2.2.1⟩

theorem genPath_validate_error_witness :
    (validatePathCalls (genPathLog Sample.context Sample.dir Sample.validateFails 0))[1]?
      = some ("/notes/journal/aa.md".toList, true, some Sample.existsError) ∧
    (genPath Sample.context Sample.dir Sample.validateFails 0).1.1 = [] ∧
    (genPath Sample.context Sample.dir Sample.validateFails 0).1.2.2
      = some Sample.existsError ∧
    (genIdCalls (genPathLog Sample.context Sample.dir Sample.validateFails 0)).length = 2 :=
  have h := genPath_validate_error Sample.context Sample.dir Sample.validateFails 0 1
    "/notes/journal/aa.md".toList true Sample.existsError (by decide)
  ⟨by decide, h.1, h.2.1, h.2.2.2.1⟩

/-! ## The errors of `Create` -/

/-- The errors `Create` returns: each is the `new note` wrapping of its
cause, except the error of loading the filename template, which is returned
as the loader gave it. -/
theorem Create_error_cases {σ : Type} (out : Outside σ) (environ : List (Str × Str))
    (opts : CreateOpts) (templateLoader : templ.Loader σ) (s : σ) (err : Error)
    (h : (Create out environ opts templateLoader s).1.2 = some err) :
    (∃ cause, err = errors.Wrapperf "new note".toList cause) ∨
    (templateLoader.Load opts.Dir.Config.Note.FilenameTemplate s).1 = Except.error err := by
  unfold Create at h
  simp only [] at h
  split at h
  · rename_i e he
    right
    rw [he]
    simp at h
    rw [h]
  · left
    have hfin : ∀ (ft bt : templ.Renderer σ) (t : σ),
        (Create.finish out environ opts ft bt t).1.2 = some err →
        ∃ cause, err = errors.Wrapperf "new note".toList cause := by
      intro ft bt t hf
      unfold Create.finish at hf
      simp only [] at hf
      split at hf
      · rename_i e _
        exact ⟨e, by simpa using hf.symm⟩
      · simp at hf
      · split at hf
        · rename_i e _
          exact ⟨e, by simpa using hf.symm⟩
        · simp at hf
    split at h
    · split at h
      · exact ⟨_, by simpa using h.symm⟩
      · split at h
        · rename_i e _
          exact ⟨e, by simpa using h.symm⟩
        · exact hfin _ _ _ h
    · exact hfin _ _ _ h

/-- C7 (the code at the failing input): when the filename template cannot be
loaded, `Create` returns the error of the loader as it is, without the
`new note` wrapping that every other error path applies. -/
theorem Create_load_error_not_wrapped :
    (Create Sample.outside [] Sample.opts Sample.failingLoader 0).1
      = ([], some Sample.loadError) ∧
    Sample.loadError ≠ errors.Wrapperf "new note".toList Sample.loadError ∧
    ∀ cause, Sample.loadError ≠ errors.Wrapperf "new note".toList cause :=
  ⟨by decide, by decide, fun _ h => by simp [Sample.loadError, errors.Wrapperf] at h⟩

/-! ## The title and the contexts of the renders -/

/-- Every filename render of `create` is given the context `create` built,
with the identifier of its attempt. -/
theorem createLog_renderFilename_context {σ : Type} (opts : CreateOpts) (deps : createDeps σ)
    (environ : List (Str × Str)) (s : σ) :
    ∀ r ∈ renderFilenameCalls (createLog opts deps environ s),
      r.1 = { createContext opts deps environ with ID := r.1.ID } := by
  have key : ∀ r ∈ renderFilenameCalls
      (genPathLog (createContext opts deps environ) opts.Dir deps s),
      r.1 = { createContext opts deps environ with ID := r.1.ID } := by
    obtain ⟨occ, stop, -, hl, -⟩ := genPath_shape (createContext opts deps environ) opts.Dir deps s
    rw [hl, renderFilenameCalls_append, renderFilenameCalls_occupied]
    intro r hr
    rcases List.mem_append.mp hr with h | h
    · obtain ⟨a, -, rfl⟩ := List.mem_map.mp h
      rfl
    · cases stop <;> simp [stopCalls, renderFilenameCalls] at h <;> (rw [h])
  cases hg : (genPath (createContext opts deps environ) opts.Dir deps s).1.2.2 with
  | some err => rw [createLog_of_genPath_error opts deps environ s err hg]; exact key
  | none =>
    rw [createLog_of_genPath_ok opts deps environ s hg, renderFilenameCalls_append]
    simpa [renderFilenameCalls] using key

/-- The context `genPath` returns differs from the one it was given in `ID`,
`Filename` and `FilenameStem` at most. -/
theorem genPath_context_frame {σ : Type} (context : renderContext) (dir : zk.Dir)
    (deps : createDeps σ) (s : σ) :
    (genPath context dir deps s).1.2.1
      = { context with
          ID := (genPath context dir deps s).1.2.1.ID
          Filename := (genPath context dir deps s).1.2.1.Filename
          FilenameStem := (genPath context dir deps s).1.2.1.FilenameStem } := by
  obtain ⟨occ, stop, -, -, hres⟩ := genPath_shape context dir deps s
  rw [hres]
  cases stop with
  | exhausted =>
    simp only [stopResult]
    rw [lastContext_frame occ context]
  | renderFailed id text err => rfl
  | validateFailed id text valid err => rfl
  | accepted id text => rfl

/-- The body renders of `create`: none when `genPath` fails, and otherwise
one, of the context that `genPath` returned. -/
theorem renderBodyCalls_createLog {σ : Type} (opts : CreateOpts) (deps : createDeps σ)
    (environ : List (Str × Str)) (s : σ) :
    renderBodyCalls (createLog opts deps environ s)
      = match (genPath (createContext opts deps environ) opts.Dir deps s).1.2.2 with
        | some _ => []
        | none =>
          [((genPath (createContext opts deps environ) opts.Dir deps s).1.2.1,
            (deps.bodyTemplate.Render
              (genPath (createContext opts deps environ) opts.Dir deps s).1.2.1
              (genPath (createContext opts deps environ) opts.Dir deps s).2).1)] := by
  have key : renderBodyCalls (genPathLog (createContext opts deps environ) opts.Dir deps s)
      = [] := by
    obtain ⟨occ, stop, -, hl, -⟩ := genPath_shape (createContext opts deps environ) opts.Dir deps s
    rw [hl, renderBodyCalls_append, renderBodyCalls_occupied, renderBodyCalls_stop]
    rfl
  cases hg : (genPath (createContext opts deps environ) opts.Dir deps s).1.2.2 with
  | some err => rw [createLog_of_genPath_error opts deps environ s err hg]; exact key
  | none =>
    rw [createLog_of_genPath_ok opts deps environ s hg, renderBodyCalls_append, key]
    rfl

/-- C8: in the context built by `create` the title is the default title of
the directory when the request has no title (the null optional string), and
the title of the request, as it is, when it has one, the empty string
included. That title is the one every filename render and every body render
of `create` is given. -/
theorem create_title {σ : Type} (opts : CreateOpts) (deps : createDeps σ)
    (environ : List (Str × Str)) (s : σ) :
    (createContext { opts with Title := opt.NullString } deps environ).Title
      = opts.Dir.Config.Note.DefaultTitle ∧
    (∀ title : Str,
      (createContext { opts with Title := opt.NewString title } deps environ).Title = title) ∧
    (createContext { opts with Title := opt.NewString [] } deps environ).Title = [] ∧
    (∀ r ∈ renderFilenameCalls (createLog opts deps environ s),
      r.1.Title = (createContext opts deps environ).Title) ∧
    (∀ r ∈ renderBodyCalls (createLog opts deps environ s),
      r.1.Title = (createContext opts deps environ).Title) := by
  refine ⟨rfl, fun _ => rfl, rfl, ?_, ?_⟩
  · intro r hr
    rw [createLog_renderFilename_context opts deps environ s r hr]
  · intro r hr
    rw [renderBodyCalls_createLog] at hr
    split at hr
    · simp at hr
    · rw [List.mem_singleton] at hr
      rw [hr]
      simp only []
      rw [genPath_context_frame]

/-- C9 (amended): the title of the initial render context is the explicit
title whenever the request holds one, so in particular whenever that title is
not empty, and the configured default title when the request holds none. -/
theorem createContext_title {σ : Type} (opts : CreateOpts) (deps : createDeps σ)
    (environ : List (Str × Str)) :
    (createContext opts deps environ).Title
      = (match opts.Title.Value with
        | some title => title
        | none => opts.Dir.Config.Note.DefaultTitle) ∧
    (∀ title : Str, title ≠ [] → opts.Title.Value = some title →
      (createContext opts deps environ).Title = title) ∧
    (opts.Title.Value = none →
      (createContext opts deps environ).Title = opts.Dir.Config.Note.DefaultTitle) := by
  have h : (createContext opts deps environ).Title
      = (match opts.Title.Value with
        | some title => title
        | none => opts.Dir.Config.Note.DefaultTitle) := by
    obtain ⟨config, dir, ⟨value⟩, content⟩ := opts
    cases value <;> rfl
  refine ⟨h, ?_, ?_⟩
  · intro title _ ht
    rw [h, ht]
  · intro ht
    rw [h, ht]

/-- C9, as stated, fails: a request whose title is the empty string gets the
empty title, not the default title `Untitled` of the directory. -/
theorem createContext_title_counterexample :
    (createContext { Sample.opts with Title := opt.NewString [] } Sample.allFree []).Title = [] ∧
    Sample.opts.Dir.Config.Note.DefaultTitle = "Untitled".toList ∧
    (createContext { Sample.opts with Title := opt.NewString [] } Sample.allFree []).Title
      ≠ Sample.opts.Dir.Config.Note.DefaultTitle := by
  decide

/-! ## Filename and filename stem -/

namespace filepath

theorem lastElem_not_mem (p : Str) : Separator ∉ lastElem p := by
  intro h
  have h2 := List.mem_takeWhile_imp (List.mem_reverse.mp h)
  simp at h2

theorem lastElem_of_not_mem (e : Str) (h : Separator ∉ e) : lastElem e = e := by
  unfold lastElem
  rw [List.takeWhile_eq_self_iff.mpr]
  · simp
  · intro c hc
    have : c ≠ Separator := fun hcs => h (hcs ▸ List.mem_reverse.mp hc)
    simpa using this

/-- The base name of a path is never empty, and it is `/` or has no
separator. -/
theorem Base_cases (p : Str) :
    Base p ≠ [] ∧ (Base p = [Separator] ∨ Separator ∉ Base p) := by
  unfold Base
  by_cases hp : p = []
  · rw [if_pos hp]
    exact ⟨by simp, Or.inr (by decide)⟩
  · rw [if_neg hp]
    by_cases he : lastElem (stripTrailingSep p) = []
    · show (if lastElem (stripTrailingSep p) = [] then [Separator]
          else lastElem (stripTrailingSep p)) ≠ [] ∧ _
      rw [if_pos he]
      exact ⟨by simp, Or.inl rfl⟩
    · show (if lastElem (stripTrailingSep p) = [] then [Separator]
          else lastElem (stripTrailingSep p)) ≠ [] ∧ _
      rw [if_neg he]
      exact ⟨he, Or.inr (lastElem_not_mem _)⟩

theorem dropWhile_head_false {α : Type} (q : α → Bool) :
    ∀ (l : List α) (x : α) (rest : List α), l.dropWhile q = x :: rest → q x = false := by
  intro l
  induction l with
  | nil => intro x rest h; simp at h
  | cons a l ih =>
    intro x rest h
    cases hq : q a with
    | true => rw [List.dropWhile_cons_of_pos hq] at h; exact ih x rest h
    | false =>
      rw [List.dropWhile_cons_of_neg (by simp [hq])] at h
      simp only [List.cons.injEq] at h
      rw [← h.1]; exact hq

/-- A string with a dot splits at its last dot. -/
theorem split_last_dot (e : Str) (h : '.' ∈ e) :
    ∃ pre suf, e = pre ++ '.' :: suf ∧ '.' ∉ suf ∧
      (e.reverse.takeWhile (fun c => c ≠ '.')).reverse = suf := by
  have hsplit := List.takeWhile_append_dropWhile (fun c => decide (c ≠ '.')) e.reverse
  cases hd : e.reverse.dropWhile (fun c => decide (c ≠ '.')) with
  | nil =>
    rw [hd, List.append_nil] at hsplit
    have hall := List.takeWhile_eq_self_iff.mp hsplit '.' (List.mem_reverse.mpr h)
    simp at hall
  | cons x rest =>
    have hx : x = '.' := by
      have := dropWhile_head_false (fun c => decide (c ≠ '.')) e.reverse x rest hd
      simpa using this
    subst hx
    refine ⟨rest.reverse, (e.reverse.takeWhile (fun c => c ≠ '.')).reverse, ?_, ?_, rfl⟩
    · have := congrArg List.reverse hsplit
      rw [hd] at this
      simpa using this.symm
    · intro hm
      have h2 := List.mem_takeWhile_imp (List.mem_reverse.mp hm)
      simp at h2

end filepath

theorem TrimSuffix_append (pre suf : Str) : TrimSuffix (pre ++ suf) suf = pre := by
  unfold TrimSuffix
  have h : suf.isSuffixOf (pre ++ suf) = true :=
    List.isSuffixOf_iff_suffix.mpr (List.suffix_append pre suf)
  simp [h]

/-- The filename stem of a path is empty exactly when its base name starts
with its only dot. -/
theorem FilenameStem_eq_nil_iff (p : Str) :
    paths.FilenameStem p = [] ↔
      ∃ rest, filepath.Base p = '.' :: rest ∧ '.' ∉ rest := by
  obtain ⟨hne, hb⟩ := filepath.Base_cases p
  unfold paths.FilenameStem
  simp only []
  generalize filepath.Base p = b at hne hb
  rcases hb with hb | hb
  · subst hb
    constructor
    · intro h
      exact absurd h (by decide)
    · rintro ⟨rest, h, -⟩
      simp [filepath.Separator] at h
  · by_cases hdot : '.' ∈ b
    · obtain ⟨pre, suf, he, hsuf, hrev⟩ := filepath.split_last_dot b hdot
      have hext : filepath.Ext b = '.' :: suf := by
        unfold filepath.Ext
        simp only [filepath.lastElem_of_not_mem b hb, hdot, if_true, hrev]
      rw [hext]
      conv_lhs => rw [he]
      rw [TrimSuffix_append]
      constructor
      · intro hpre
        exact ⟨suf, by rw [he, hpre]; rfl, hsuf⟩
      · rintro ⟨rest, hr, hrest⟩
        cases pre with
        | nil => rfl
        | cons c pre =>
          rw [he] at hr
          simp only [List.cons_append, List.cons.injEq] at hr
          exact absurd (by rw [← hr.2]; simp) hrest
    · have hext : filepath.Ext b = [] := by
        unfold filepath.Ext
        simp only [filepath.lastElem_of_not_mem b hb, hdot, if_false]
      rw [hext]
      have : TrimSuffix b [] = b := by simpa using TrimSuffix_append b []
      rw [this]
      constructor
      · intro h; exact absurd h hne
      · rintro ⟨rest, h, -⟩
        exact absurd (by rw [h]; simp) hdot

/-- C10 (amended): on every successful `create` the body renderer is invoked
once, with a context whose `Filename` is the base name of the returned path,
which is never empty, and whose `FilenameStem` is that base name without its
extension. `FilenameStem` is empty exactly when the base name starts with its
only dot; it is not empty when the rendered filename is not empty and the
candidate name has no separator and is neither `.` nor `..`. -/
theorem create_body_context {σ : Type} (opts : CreateOpts) (deps : createDeps σ)
    (environ : List (Str × Str)) (s : σ) (h : (create opts deps environ s).1.2 = none) :
    ∃ (note : createdNote) (context : renderContext),
      (create opts deps environ s).1 = (some note, none) ∧
      renderBodyCalls (createLog opts deps environ s) = [(context, note.content, none)] ∧
      context.Filename = filepath.Base note.path ∧
      context.Filename ≠ [] ∧
      context.FilenameStem
        = TrimSuffix (filepath.Base note.path) (filepath.Ext (filepath.Base note.path)) ∧
      (context.FilenameStem = [] ↔
        ∃ rest, filepath.Base note.path = '.' :: rest ∧ '.' ∉ rest) ∧
      ∀ text : Str,
        note.path = filepath.Join opts.Dir.Path (text ++ '.' :: opts.Dir.Config.Note.Extension) →
        text ≠ [] → filepath.plainElem (text ++ '.' :: opts.Dir.Config.Note.Extension) →
        context.FilenameStem ≠ [] := by
  cases hg : (genPath (createContext opts deps environ) opts.Dir deps s).1.2.2 with
  | some err =>
    rw [create_of_genPath_error opts deps environ s err hg] at h
    simp at h
  | none =>
    have hc := create_of_genPath_ok opts deps environ s hg
    have hb := renderBodyCalls_createLog opts deps environ s
    rw [hg] at hb
    simp only [] at hb
    cases hbe : (deps.bodyTemplate.Render
        (genPath (createContext opts deps environ) opts.Dir deps s).1.2.1
        (genPath (createContext opts deps environ) opts.Dir deps s).2).1.2 with
    | some err =>
      rw [hc, hbe] at h
      simp at h
    | none =>
      obtain ⟨occ, stop, -, -, hres⟩ :=
        genPath_shape (createContext opts deps environ) opts.Dir deps s
      cases stop with
      | exhausted => rw [hres] at hg; simp [stopResult] at hg
      | renderFailed id text err => rw [hres] at hg; simp [stopResult] at hg
      | validateFailed id text valid err => rw [hres] at hg; simp [stopResult] at hg
      | accepted id text =>
        have hpath : (genPath (createContext opts deps environ) opts.Dir deps s).1.1
            = candidatePath opts.Dir text := by rw [hres]; rfl
        have hfn : (genPath (createContext opts deps environ) opts.Dir deps s).1.2.1.Filename
            = filepath.Base (candidatePath opts.Dir text) := by rw [hres]; rfl
        have hst :
            (genPath (createContext opts deps environ) opts.Dir deps s).1.2.1.FilenameStem
              = paths.FilenameStem (candidatePath opts.Dir text) := by rw [hres]; rfl
        refine ⟨{ path := candidatePath opts.Dir text
                  content := (deps.bodyTemplate.Render
                    (genPath (createContext opts deps environ) opts.Dir deps s).1.2.1
                    (genPath (createContext opts deps environ) opts.Dir deps s).2).1.1 },
          (genPath (createContext opts deps environ) opts.Dir deps s).1.2.1,
          ?_, ?_, hfn, ?_, hst, ?_, ?_⟩
        · rw [hc, hbe, hpath]
        · rw [hb]
          simp only [List.cons.injEq, and_true, Prod.mk.injEq, true_and]
          exact Prod.ext rfl hbe
        · rw [hfn]
          exact (filepath.Base_cases _).1
        · rw [hst]
          exact FilenameStem_eq_nil_iff _
        · intro text2 hp hne hplain hempty
          simp only [] at hp
          rw [hst, FilenameStem_eq_nil_iff, hp, filepath.Base_Join_plain _ _ hplain] at hempty
          obtain ⟨rest, hr, hrest⟩ := hempty
          cases text2 with
          | nil => exact hne rfl
          | cons c t =>
            simp only [List.cons_append, List.cons.injEq] at hr
            exact hrest (by rw [← hr.2]; simp)

theorem create_body_context_witness :
    (create Sample.opts Sample.allFree [] 0).1.2 = none ∧
    ∃ (note : createdNote) (context : renderContext),
      (create Sample.opts Sample.allFree [] 0).1 = (some note, none) ∧
      renderBodyCalls (createLog Sample.opts Sample.allFree [] 0)
        = [(context, note.content, none)] ∧
      context.Filename = filepath.Base note.path ∧
      context.Filename ≠ [] :=
  ⟨by decide,
    let ⟨note, context, h⟩ := create_body_context Sample.opts Sample.allFree [] 0 (by decide)
    ⟨note, context, h.1, h.2.1, h.2.2.1, h.2.2.2.1⟩⟩

/-- C10, as stated, fails: a filename template that renders the empty string
gives the path `/notes/journal/.md`, and the body renderer is invoked with
`Filename` equal to `.md` and an empty `FilenameStem`. -/
theorem create_body_context_counterexample :
    (create Sample.opts Sample.emptyTemplate [] 0).1
      = (some { path := "/notes/journal/.md".toList, content := [] }, none) ∧
    (renderBodyCalls (createLog Sample.opts Sample.emptyTemplate [] 0)).map
        (fun r => (r.1.Filename, r.1.FilenameStem))
      = [(".md".toList, [])] := by
  decide

/-! ## The body render -/

/-- The last call of a run of `genPath` that succeeds is the validation that
reported the returned path free. -/
theorem genPathLog_getLast_of_ok {σ : Type} (context : renderContext) (dir : zk.Dir)
    (deps : createDeps σ) (s : σ) (h : (genPath context dir deps s).1.2.2 = none) :
    (genPathLog context dir deps s).getLast?
      = some (Call.validatePath (genPath context dir deps s).1.1 true none) := by
  obtain ⟨occ, stop, -, hl, hres⟩ := genPath_shape context dir deps s
  rw [hres] at h
  cases stop with
  | exhausted => simp [stopResult] at h
  | renderFailed id text err => simp [stopResult] at h
  | validateFailed id text valid err => simp [stopResult] at h
  | accepted id text =>
    rw [hl, hres]
    simp [stopCalls, stopResult]

/-- C11: when the filename generation loop fails, `create` returns the error
of the loop as it is and no note, and its calls are those of the loop: the
body renderer is not invoked. When the loop accepts a path, `create` makes
exactly one more call, the body render, right after the validation that
accepted the path and with the context the loop returned; it returns the
error of that render and no note when the render fails, and the note
otherwise. So a successful `create` has invoked the body renderer exactly
once. -/
theorem create_body_render {σ : Type} (opts : CreateOpts) (deps : createDeps σ)
    (environ : List (Str × Str)) (s : σ) :
    (∀ err, (genPath (createContext opts deps environ) opts.Dir deps s).1.2.2 = some err →
      (create opts deps environ s).1 = (none, some err) ∧
      createLog opts deps environ s
        = genPathLog (createContext opts deps environ) opts.Dir deps s ∧
      renderBodyCalls (createLog opts deps environ s) = []) ∧
    ((genPath (createContext opts deps environ) opts.Dir deps s).1.2.2 = none →
      ∃ (text : Str) (berr : Option Error),
        createLog opts deps environ s
          = genPathLog (createContext opts deps environ) opts.Dir deps s ++
              [Call.renderBody
                (genPath (createContext opts deps environ) opts.Dir deps s).1.2.1 text berr] ∧
        (genPathLog (createContext opts deps environ) opts.Dir deps s).getLast?
          = some (Call.validatePath
              (genPath (createContext opts deps environ) opts.Dir deps s).1.1 true none) ∧
        renderBodyCalls (createLog opts deps environ s)
          = [((genPath (createContext opts deps environ) opts.Dir deps s).1.2.1, text, berr)] ∧
        (create opts deps environ s).1
          = (match berr with
            | some err => (none, some err)
            | none =>
              (some
                { path := (genPath (createContext opts deps environ) opts.Dir deps s).1.1
                  content := text },
                none))) ∧
    ((create opts deps environ s).1.2 = none →
      (renderBodyCalls (createLog opts deps environ s)).length = 1 ∧
      ∃ (context : renderContext) (text : Str),
        (createLog opts deps environ s).getLast?
          = some (Call.renderBody context text none)) := by
  refine ⟨?_, ?_, ?_⟩
  · intro err h
    refine ⟨by rw [create_of_genPath_error opts deps environ s err h],
      createLog_of_genPath_error opts deps environ s err h, ?_⟩
    rw [renderBodyCalls_createLog, h]
  · intro h
    refine ⟨_, _, createLog_of_genPath_ok opts deps environ s h,
      genPathLog_getLast_of_ok _ _ deps s h, ?_, ?_⟩
    · rw [renderBodyCalls_createLog, h]
    · rw [create_of_genPath_ok opts deps environ s h]
  · intro h
    cases hg : (genPath (createContext opts deps environ) opts.Dir deps s).1.2.2 with
    | some err =>
      rw [create_of_genPath_error opts deps environ s err hg] at h
      simp at h
    | none =>
      constructor
      · rw [renderBodyCalls_createLog, hg]
        rfl
      · rw [create_of_genPath_ok opts deps environ s hg] at h
        cases hb : (deps.bodyTemplate.Render
            (genPath (createContext opts deps environ) opts.Dir deps s).1.2.1
            (genPath (createContext opts deps environ) opts.Dir deps s).2).1.2 with
        | some err => rw [hb] at h; simp at h
        | none =>
          refine ⟨(genPath (createContext opts deps environ) opts.Dir deps s).1.2.1,
            (deps.bodyTemplate.Render
              (genPath (createContext opts deps environ) opts.Dir deps s).1.2.1
              (genPath (createContext opts deps environ) opts.Dir deps s).2).1.1, ?_⟩
          rw [createLog_of_genPath_ok opts deps environ s hg, hb]
          simp

theorem create_body_render_witness :
    (create Sample.opts Sample.allFree [] 0).1.2 = none ∧
    (renderBodyCalls (createLog Sample.opts Sample.allFree [] 0)).length = 1 ∧
    (create Sample.opts Sample.allOccupied [] 0).1.1 = none ∧
    renderBodyCalls (createLog Sample.opts Sample.allOccupied [] 0) = [] :=
  have h := create_body_render Sample.opts Sample.allFree [] 0
  have h2 := create_body_render Sample.opts Sample.allOccupied [] 0
  ⟨by decide, (h.2.2 (by decide)).1,
    by rw [(h2.1 (Error.ErrNoteExists "journal/abc123.md".toList
      "/notes/journal/abc123.md".toList) (by decide)).1],
    (h2.1 (Error.ErrNoteExists "journal/abc123.md".toList
      "/notes/journal/abc123.md".toList) (by decide)).2.2⟩

/-! ## The context across the loop -/

/-- Every filename render of a run of `genPath` is given the context of the
run with the identifier of its attempt. -/
theorem genPathLog_renderFilename_context {σ : Type} (context : renderContext) (dir : zk.Dir)
    (deps : createDeps σ) (s : σ) :
    ∀ r ∈ renderFilenameCalls (genPathLog context dir deps s),
      r.1 = { context with ID := r.1.ID } := by
  obtain ⟨occ, stop, -, hl, -⟩ := genPath_shape context dir deps s
  rw [hl, renderFilenameCalls_append, renderFilenameCalls_occupied]
  intro r hr
  rcases List.mem_append.mp hr with h | h
  · obtain ⟨a, -, rfl⟩ := List.mem_map.mp h
    rfl
  · cases stop <;> simp [stopCalls, renderFilenameCalls] at h <;> (rw [h])

/-- When `genPath` succeeds, the context it returns is the context of the
last filename render with `Filename` and `FilenameStem` set from the returned
path. -/
theorem genPath_accepted_context {σ : Type} (context : renderContext) (dir : zk.Dir)
    (deps : createDeps σ) (s : σ) (h : (genPath context dir deps s).1.2.2 = none) :
    ∃ (c : renderContext) (text : Str),
      (renderFilenameCalls (genPathLog context dir deps s)).getLast? = some (c, text, none) ∧
      (genIdCalls (genPathLog context dir deps s)).getLast? = some c.ID ∧
      c = { context with ID := c.ID } ∧
      (genPath context dir deps s).1.1
        = filepath.Join dir.Path (text ++ '.' :: dir.Config.Note.Extension) ∧
      (genPath context dir deps s).1.2.1
        = { c with
            Filename := filepath.Base (genPath context dir deps s).1.1
            FilenameStem := paths.FilenameStem (genPath context dir deps s).1.1 } := by
  obtain ⟨occ, stop, -, hl, hres⟩ := genPath_shape context dir deps s
  rw [hres] at h
  cases stop with
  | exhausted => simp [stopResult] at h
  | renderFailed id text err => simp [stopResult] at h
  | validateFailed id text valid err => simp [stopResult] at h
  | accepted id text =>
    refine ⟨{ context with ID := id }, text, ?_, ?_, rfl, ?_, ?_⟩
    · rw [hl, renderFilenameCalls_append]
      simp [stopCalls, renderFilenameCalls]
    · rw [hl, genIdCalls_append]
      simp [stopCalls, genIdCalls]
    · rw [hres]; rfl
    · rw [hres]; rfl

/-- C13: in a run of `genPath` from a context whose `Filename` and
`FilenameStem` are empty, which is how `create` builds it, every filename
render is given a context in which both are still empty, and the context
returned with an error (of a render, of a validation, or `ErrNoteExists`)
still has both empty. The two fields are set in the accepting step only, and
together: on success the returned context is the context of the last
filename render with `Filename` and `FilenameStem` set from the returned
path, and the last call of the run is the validation that accepted it. -/
theorem genPath_filename_unset {σ : Type} (context : renderContext) (dir : zk.Dir)
    (deps : createDeps σ) (s : σ)
    (hf : context.Filename = []) (hs : context.FilenameStem = []) :
    (∀ r ∈ renderFilenameCalls (genPathLog context dir deps s),
      r.1.Filename = [] ∧ r.1.FilenameStem = []) ∧
    (∀ err, (genPath context dir deps s).1.2.2 = some err →
      (genPath context dir deps s).1.2.1.Filename = [] ∧
      (genPath context dir deps s).1.2.1.FilenameStem = []) ∧
    ((genPath context dir deps s).1.2.2 = none →
      ∃ (c : renderContext) (text : Str),
        (renderFilenameCalls (genPathLog context dir deps s)).getLast? = some (c, text, none) ∧
        c.Filename = [] ∧ c.FilenameStem = [] ∧
        (genPath context dir deps s).1.2.1
          = { c with
              Filename := filepath.Base (genPath context dir deps s).1.1
              FilenameStem := paths.FilenameStem (genPath context dir deps s).1.1 } ∧
        (genPathLog context dir deps s).getLast?
          = some (Call.validatePath (genPath context dir deps s).1.1 true none)) ∧
    (∀ (opts : CreateOpts) (environ : List (Str × Str)),
      (createContext opts deps environ).Filename = [] ∧
      (createContext opts deps environ).FilenameStem = []) := by
  have hrc := genPathLog_renderFilename_context context dir deps s
  refine ⟨?_, ?_, ?_, fun _ _ => ⟨rfl, rfl⟩⟩
  · intro r hr
    rw [hrc r hr]
    exact ⟨hf, hs⟩
  · intro err herr
    obtain ⟨occ, stop, -, -, hres⟩ := genPath_shape context dir deps s
    rw [hres] at herr ⊢
    cases stop with
    | exhausted =>
      simp only [stopResult]
      rw [lastContext_frame occ context]
      exact ⟨hf, hs⟩
    | renderFailed id text e => exact ⟨hf, hs⟩
    | validateFailed id text valid e => exact ⟨hf, hs⟩
    | accepted id text => simp [stopResult] at herr
  · intro hok
    obtain ⟨c, text, hlast, -, hc, -, hret⟩ := genPath_accepted_context context dir deps s hok
    refine ⟨c, text, hlast, ?_, ?_, hret, genPathLog_getLast_of_ok context dir deps s hok⟩
    · rw [hc]; exact hf
    · rw [hc]; exact hs

theorem genPath_filename_unset_witness :
    Sample.context.Filename = [] ∧ Sample.context.FilenameStem = [] ∧
    (∀ r ∈ renderFilenameCalls (genPathLog Sample.context Sample.dir Sample.thirdFree 0),
      r.1.Filename = [] ∧ r.1.FilenameStem = []) ∧
    (genPath Sample.context Sample.dir Sample.thirdFree 0).1.2.1.Filename = "aaa.md".toList ∧
    (genPath Sample.context Sample.dir Sample.thirdFree 0).1.2.1.FilenameStem = "aaa".toList :=
  have h := genPath_filename_unset Sample.context Sample.dir Sample.thirdFree 0 rfl rfl
  ⟨rfl, rfl, h.1, by decide, by decide⟩

/-- C18: the context `genPath` returns, whatever the outcome, has the
`Title`, `Content`, `Dir`, `Extra`, `Now` and `Env` of the context it was
given: only `ID`, `Filename` and `FilenameStem` can differ. So the body
template of `create` is rendered with the title, the content, the directory
name, the extra fields, the timestamp and the environment that `create`
assembled. -/
theorem genPath_frame {σ : Type} (context : renderContext) (dir : zk.Dir)
    (deps : createDeps σ) (s : σ) :
    ((genPath context dir deps s).1.2.1.Title = context.Title ∧
      (genPath context dir deps s).1.2.1.Content = context.Content ∧
      (genPath context dir deps s).1.2.1.Dir = context.Dir ∧
      (genPath context dir deps s).1.2.1.Extra = context.Extra ∧
      (genPath context dir deps s).1.2.1.Now = context.Now ∧
      (genPath context dir deps s).1.2.1.Env = context.Env) ∧
    ∀ (opts : CreateOpts) (environ : List (Str × Str)),
      ∀ r ∈ renderBodyCalls (createLog opts deps environ s),
        r.1.Title = (opts.Title.OrString opts.Dir.Config.Note.DefaultTitle).Unwrap ∧
        r.1.Content = opts.Content.Unwrap ∧
        r.1.Dir = opts.Dir.Name ∧
        r.1.Extra = opts.Dir.Config.Extra ∧
        r.1.Now = deps.now ∧
        r.1.Env = environ := by
  constructor
  · have h := genPath_context_frame context dir deps s
    refine ⟨?_, ?_, ?_, ?_, ?_, ?_⟩ <;> rw [h]
  · intro opts environ r hr
    rw [renderBodyCalls_createLog] at hr
    split at hr
    · simp at hr
    · rw [List.mem_singleton] at hr
      have h := genPath_context_frame (createContext opts deps environ) opts.Dir deps s
      rw [hr]
      simp only []
      refine ⟨?_, ?_, ?_, ?_, ?_, ?_⟩ <;> rw [h] <;> rfl

theorem genIdRenderCalls_append (l m : List Call) :
    genIdRenderCalls (l ++ m) = genIdRenderCalls l ++ genIdRenderCalls m := by
  induction l with
  | nil => rfl
  | cons c l ih => cases c <;> simp [genIdRenderCalls, ih]

theorem genIdRenderCalls_occupied (context : renderContext) (dir : zk.Dir)
    (occ : List (Str × Str)) :
    genIdRenderCalls (occ.flatMap (occupiedCalls context dir))
      = (occ.map (fun a => ({ context with ID := a.1 }, a.2, (none : Option Error)))).flatMap
          genIdThenRender := by
  induction occ with
  | nil => rfl
  | cons a occ ih =>
    simp only [List.flatMap_cons, genIdRenderCalls_append, ih, List.map_cons]
    rfl

/-- C17: in a run of `genPath` every filename render comes right after the
generation of an identifier and is given a context whose `ID` is that
identifier, so the `k`-th filename render sees the `k`-th identifier
generated. On success the `ID` of the returned context is the last
identifier generated, that of the accepted attempt: the last filename render
was given the returned context with `Filename` and `FilenameStem` as they
were before (empty when they were empty), and the returned path is the path
of the directory joined with the text of that render, a dot and the
extension. -/
theorem genPath_identifier {σ : Type} (context : renderContext) (dir : zk.Dir)
    (deps : createDeps σ) (s : σ) :
    genIdRenderCalls (genPathLog context dir deps s)
      = (renderFilenameCalls (genPathLog context dir deps s)).flatMap genIdThenRender ∧
    (renderFilenameCalls (genPathLog context dir deps s)).map (fun r => r.1.ID)
      = genIdCalls (genPathLog context dir deps s) ∧
    (∀ (k : Nat) (c : renderContext) (text : Str) (err : Option Error),
      (renderFilenameCalls (genPathLog context dir deps s))[k]? = some (c, text, err) →
      (genIdCalls (genPathLog context dir deps s))[k]? = some c.ID) ∧
    ((genPath context dir deps s).1.2.2 = none →
      ∃ text : Str,
        (genIdCalls (genPathLog context dir deps s)).getLast?
          = some (genPath context dir deps s).1.2.1.ID ∧
        (renderFilenameCalls (genPathLog context dir deps s)).getLast?
          = some ({ (genPath context dir deps s).1.2.1 with
                    Filename := context.Filename
                    FilenameStem := context.FilenameStem }, text, none) ∧
        (context.Filename = [] → context.FilenameStem = [] →
          (renderFilenameCalls (genPathLog context dir deps s)).getLast?
            = some ({ (genPath context dir deps s).1.2.1 with
                      Filename := []
                      FilenameStem := [] }, text, none)) ∧
        (genPath context dir deps s).1.1
          = filepath.Join dir.Path (text ++ '.' :: dir.Config.Note.Extension)) := by
  have hmap : (renderFilenameCalls (genPathLog context dir deps s)).map (fun r => r.1.ID)
      = genIdCalls (genPathLog context dir deps s) := by
    obtain ⟨occ, stop, -, hl, -⟩ := genPath_shape context dir deps s
    rw [hl, renderFilenameCalls_append, renderFilenameCalls_occupied, genIdCalls_append,
      genIdCalls_occupied]
    cases stop <;> simp [stopCalls, renderFilenameCalls, genIdCalls, Function.comp_def]
  refine ⟨?_, hmap, ?_, ?_⟩
  · obtain ⟨occ, stop, -, hl, -⟩ := genPath_shape context dir deps s
    rw [hl, renderFilenameCalls_append, renderFilenameCalls_occupied, genIdRenderCalls_append,
      genIdRenderCalls_occupied, List.flatMap_append]
    cases stop <;> simp [stopCalls, renderFilenameCalls, genIdRenderCalls, genIdThenRender]
  · intro k c text err hk
    rw [← hmap, List.getElem?_map, hk]
    rfl
  · intro hok
    obtain ⟨c, text, hlast, hid, hc, hpath, hret⟩ :=
      genPath_accepted_context context dir deps s hok
    have hback : ({ (genPath context dir deps s).1.2.1 with
        Filename := context.Filename
        FilenameStem := context.FilenameStem } : renderContext) = c := by
      rw [hret]
      cases c with
      | mk i t co d f fs e n en =>
        simp only [renderContext.mk.injEq, true_and] at hc
        obtain ⟨-, -, -, h4, h5, -⟩ := hc
        simp only [renderContext.mk.injEq, true_and]
        exact ⟨h4.symm, h5.symm, trivial⟩
    refine ⟨text, ?_, ?_, ?_, hpath⟩
    · rw [hid, hret]
    · rw [hback]; exact hlast
    · intro hf hs
      have h3 := hback
      rw [hf, hs] at h3
      rw [h3]; exact hlast

theorem genPath_identifier_witness :
    (genPath Sample.context Sample.dir Sample.thirdFree 0).1.2.2 = none ∧
    genIdCalls (genPathLog Sample.context Sample.dir Sample.thirdFree 0)
      = ["a".toList, "aa".toList, "aaa".toList] ∧
    (renderFilenameCalls (genPathLog Sample.context Sample.dir Sample.thirdFree 0)).map
        (fun r => r.1.ID)
      = genIdCalls (genPathLog Sample.context Sample.dir Sample.thirdFree 0) ∧
    (genPath Sample.context Sample.dir Sample.thirdFree 0).1.2.1.ID = "aaa".toList ∧
    (genPath Sample.context Sample.dir Sample.thirdFree 0).1.1
      = "/notes/journal/aaa.md".toList :=
  have h := genPath_identifier Sample.context Sample.dir Sample.thirdFree 0
  ⟨by decide, by decide, h.2.1, by decide, by decide⟩

/-! ## The initial context -/

/-- C15: the context `create` builds has the content of the request as it is
(empty when the request holds none), the name of the directory, the extra
fields of its configuration, the injected timestamp and the environment, and
an empty `ID`, `Filename` and `FilenameStem`. Building it involves no
collaborator and cannot fail: the first call of `create` is the generation of
the first identifier, the first filename render is given that context with
the identifier, and an error of `create` is an error of `genPath` or of the
body render. -/
theorem create_initial_context {σ : Type} (opts : CreateOpts) (deps : createDeps σ)
    (environ : List (Str × Str)) (s : σ) :
    ((createContext opts deps environ).Content = opts.Content.Unwrap ∧
      (opts.Content = opt.NullString → (createContext opts deps environ).Content = []) ∧
      (∀ content, opts.Content = opt.NewString content →
        (createContext opts deps environ).Content = content) ∧
      (createContext opts deps environ).Dir = opts.Dir.Name ∧
      (createContext opts deps environ).Extra = opts.Dir.Config.Extra ∧
      (createContext opts deps environ).Now = deps.now ∧
      (createContext opts deps environ).Env = environ ∧
      (createContext opts deps environ).ID = [] ∧
      (createContext opts deps environ).Filename = [] ∧
      (createContext opts deps environ).FilenameStem = []) ∧
    (createLog opts deps environ s).head? = some (Call.genId (deps.genId s).1) ∧
    (∃ (text : Str) (err : Option Error),
      (renderFilenameCalls (createLog opts deps environ s)).head?
        = some ({ createContext opts deps environ with ID := (deps.genId s).1 }, text, err)) ∧
    (∀ err, (create opts deps environ s).1.2 = some err →
      (genPath (createContext opts deps environ) opts.Dir deps s).1.2.2 = some err ∨
      (deps.bodyTemplate.Render
        (genPath (createContext opts deps environ) opts.Dir deps s).1.2.1
        (genPath (createContext opts deps environ) opts.Dir deps s).2).1.2 = some err) := by
  have hlog : ∃ rest, genPathLog (createContext opts deps environ) opts.Dir deps s
      = Call.genId (deps.genId s).1 ::
        Call.renderFilename { createContext opts deps environ with ID := (deps.genId s).1 }
          (attemptRender (createContext opts deps environ) deps s).1.1
          (attemptRender (createContext opts deps environ) deps s).1.2 :: rest := by
    unfold genPathLog genPath
    cases hr : (attemptRender (createContext opts deps environ) deps s).1.2 with
    | some err =>
      rw [genPathLoop_renderFailed opts.Dir (logged deps) 49 _ [] [] (s, []) err
        (by rw [attemptRender_logged]; exact hr), attemptRender_logged]
      exact ⟨[], by simp [hr, attemptContext]⟩
    | none =>
      have hr2 : (attemptRender (createContext opts deps environ) (logged deps) (s, [])).1.2
          = none := by rw [attemptRender_logged]; exact hr
      cases he : (attemptValidate (createContext opts deps environ) opts.Dir deps s).1.2 with
      | some err =>
        rw [genPathLoop_validateFailed opts.Dir (logged deps) 49 _ [] [] (s, []) err hr2
          (by rw [attemptValidate_logged]; exact he), attemptValidate_logged]
        exact ⟨_, by simp [hr, attemptContext]; rfl⟩
      | none =>
        have he2 : (attemptValidate (createContext opts deps environ) opts.Dir (logged deps)
            (s, [])).1.2 = none := by rw [attemptValidate_logged]; exact he
        cases hv : (attemptValidate (createContext opts deps environ) opts.Dir deps s).1.1 with
        | true =>
          rw [genPathLoop_accepted opts.Dir (logged deps) 49 _ [] [] (s, []) hr2 he2
            (by rw [attemptValidate_logged]; exact hv), attemptValidate_logged]
          exact ⟨_, by simp [hr, attemptContext]; rfl⟩
        | false =>
          rw [genPathLoop_occupied opts.Dir (logged deps) 49 _ [] [] (s, []) hr2 he2
            (by rw [attemptValidate_logged]; exact hv)]
          obtain ⟨occ, stop, -, hl, -⟩ := genPathLoop_shape opts.Dir deps 49
            (attemptContext (createContext opts deps environ) (logged deps) (s, []))
            (candidateName opts.Dir
              (attemptRender (createContext opts deps environ) (logged deps) (s, [])).1.1)
            (candidatePath opts.Dir
              (attemptRender (createContext opts deps environ) (logged deps) (s, [])).1.1)
            (attemptValidate (createContext opts deps environ) opts.Dir (logged deps)
              (s, [])).2.1
            (attemptValidate (createContext opts deps environ) opts.Dir (logged deps)
              (s, [])).2.2
          rw [hl, attemptValidate_logged]
          exact ⟨_, by simp [hr, attemptContext]; rfl⟩
  obtain ⟨rest, hrest⟩ := hlog
  have hcl : ∃ more, createLog opts deps environ s
      = genPathLog (createContext opts deps environ) opts.Dir deps s ++ more := by
    cases hg : (genPath (createContext opts deps environ) opts.Dir deps s).1.2.2 with
    | some err => exact ⟨[], by rw [createLog_of_genPath_error opts deps environ s err hg]; simp⟩
    | none => exact ⟨_, createLog_of_genPath_ok opts deps environ s hg⟩
  obtain ⟨more, hmore⟩ := hcl
  refine ⟨⟨rfl, ?_, ?_, rfl, rfl, rfl, rfl, rfl, rfl, rfl⟩, ?_, ?_, ?_⟩
  · intro h
    simp only [createContext, h]
    rfl
  · intro content h
    simp only [createContext, h]
    rfl
  · rw [hmore, hrest]
    rfl
  · refine ⟨(attemptRender (createContext opts deps environ) deps s).1.1,
      (attemptRender (createContext opts deps environ) deps s).1.2, ?_⟩
    rw [hmore, hrest]
    simp only [List.cons_append, renderFilenameCalls, List.head?_cons]
  · intro err h
    cases hg : (genPath (createContext opts deps environ) opts.Dir deps s).1.2.2 with
    | some e =>
      rw [create_of_genPath_error opts deps environ s e hg] at h
      left
      simpa using h
    | none =>
      rw [create_of_genPath_ok opts deps environ s hg] at h
      right
      cases hb : (deps.bodyTemplate.Render
          (genPath (createContext opts deps environ) opts.Dir deps s).1.2.1
          (genPath (createContext opts deps environ) opts.Dir deps s).2).1.2 with
      | none => rw [hb] at h; simp at h
      | some e => rw [hb] at h; simpa using h

/-! ## A filename template that ignores the identifier -/

/-- C14: when the filename render is a function `f` of the context that does
not depend on the identifier and the validation is a function `v` of the
path, every attempt of `genPath` has the same candidate path and the outcome
is decided by the first attempt: a render error or a validation error is
returned after one attempt, a free path is accepted on the first attempt,
and an occupied path makes all 50 attempts collide on that one path and
ends with `ErrNoteExists` for it. So `genPath` never succeeds on an attempt
after the first. -/
theorem genPath_constant_template {σ : Type} (context : renderContext) (dir : zk.Dir)
    (deps : createDeps σ) (s : σ) (f : renderContext → Str × Option Error)
    (v : Str → Bool × Option Error)
    (hr : ∀ c t, (deps.filenameTemplate.Render c t).1 = f c)
    (hid : ∀ c id, f { c with ID := id } = f c)
    (hv : ∀ path t, (deps.validatePath path t).1 = v path) :
    (∀ x ∈ validatePathCalls (genPathLog context dir deps s),
      x.1 = candidatePath dir (f context).1) ∧
    (∀ err, (f context).2 = some err →
      (genPath context dir deps s).1.1 = [] ∧
      (genPath context dir deps s).1.2.2 = some err ∧
      (genIdCalls (genPathLog context dir deps s)).length = 1 ∧
      validatePathCalls (genPathLog context dir deps s) = []) ∧
    (∀ err, (f context).2 = none → (v (candidatePath dir (f context).1)).2 = some err →
      (genPath context dir deps s).1.1 = [] ∧
      (genPath context dir deps s).1.2.2 = some err ∧
      (genIdCalls (genPathLog context dir deps s)).length = 1 ∧
      (validatePathCalls (genPathLog context dir deps s)).length = 1) ∧
    ((f context).2 = none → v (candidatePath dir (f context).1) = (true, none) →
      (genPath context dir deps s).1.1 = candidatePath dir (f context).1 ∧
      (genPath context dir deps s).1.2.2 = none ∧
      (genIdCalls (genPathLog context dir deps s)).length = 1 ∧
      validatePathCalls (genPathLog context dir deps s)
        = [(candidatePath dir (f context).1, true, none)]) ∧
    ((f context).2 = none → v (candidatePath dir (f context).1) = (false, none) →
      (genPath context dir deps s).1.1 = [] ∧
      (genPath context dir deps s).1.2.2
        = some (Error.ErrNoteExists
            (filepath.Join dir.Name (candidateName dir (f context).1))
            (candidatePath dir (f context).1)) ∧
      (genIdCalls (genPathLog context dir deps s)).length = 50 ∧
      validatePathCalls (genPathLog context dir deps s)
        = List.replicate 50 (candidatePath dir (f context).1, false, none)) ∧
    ((genPath context dir deps s).1.2.2 = none →
      (genIdCalls (genPathLog context dir deps s)).length = 1) := by
  have hR : ∀ t, (attemptRender context deps t).1 = f context := by
    intro t
    rw [attemptRender, hr, attemptContext, hid]
  have hV : ∀ t, (attemptValidate context dir deps t).1
      = v (candidatePath dir (f context).1) := by
    intro t
    rw [attemptValidate, hv, hR]
  obtain ⟨occ, stop, hw, hl, hres, hocc, t, hstop⟩ := genPath_shape_at context dir deps s
  have hocc2 : ∀ a ∈ occ, a.2 = (f context).1 ∧ (f context).2 = none ∧
      v (candidatePath dir (f context).1) = (false, none) := by
    intro a ha
    obtain ⟨u, -, h2, h3⟩ := hocc a ha
    rw [hR u] at h2
    rw [hV u] at h3
    exact ⟨by rw [h2], by rw [h2], h3⟩
  have hvals : validatePathCalls (occ.flatMap (occupiedCalls context dir))
      = List.replicate occ.length (candidatePath dir (f context).1, false, none) := by
    rw [validatePathCalls_occupied]
    apply List.eq_replicate_iff.mpr
    refine ⟨by simp, ?_⟩
    intro x hx
    obtain ⟨a, ha, rfl⟩ := List.mem_map.mp hx
    rw [(hocc2 a ha).1]
  have hnil : (f context).2 ≠ none ∨ v (candidatePath dir (f context).1) ≠ (false, none) →
      occ = [] := by
    intro h
    cases occ with
    | nil => rfl
    | cons a occ =>
      obtain ⟨-, h1, h2⟩ := hocc2 a (by simp)
      rcases h with h | h
      · exact absurd h1 h
      · exact absurd h2 h
  cases stop with
  | exhausted =>
    have hlen : occ.length = 50 := hw
    rcases List.eq_nil_or_concat occ with h | ⟨init, a, h⟩
    · rw [h] at hlen; simp at hlen
    · rw [List.concat_eq_append] at h
      obtain ⟨ha2, hf, hvf⟩ := hocc2 a (by rw [h]; simp)
      have hres1 : (genPath context dir deps s).1.1 = [] := by rw [hres]; rfl
      have hres2 : (genPath context dir deps s).1.2.2
          = some (Error.ErrNoteExists
              (filepath.Join dir.Name (candidateName dir (f context).1))
              (candidatePath dir (f context).1)) := by
        rw [hres, h]
        simp only [stopResult, lastName_concat, lastPath_concat, ha2]
      have hids : (genIdCalls (genPathLog context dir deps s)).length = 50 := by
        rw [hl, genIdCalls_append, genIdCalls_occupied]
        simp [stopCalls, genIdCalls, hlen]
      have hvs : validatePathCalls (genPathLog context dir deps s)
          = List.replicate 50 (candidatePath dir (f context).1, false, none) := by
        rw [hl, validatePathCalls_append, hvals, hlen]
        simp [stopCalls, validatePathCalls]
      refine ⟨?_, ?_, ?_, ?_, ?_, ?_⟩
      · intro x hx
        rw [hvs] at hx
        rw [(List.mem_replicate.mp hx).2]
      · intro err he; rw [hf] at he; simp at he
      · intro err _ he; rw [hvf] at he; simp at he
      · intro _ he; rw [hvf] at he; simp at he
      · intro _ _; exact ⟨hres1, hres2, hids, hvs⟩
      · intro hok; rw [hres2] at hok; simp at hok
  | renderFailed id text err =>
    obtain ⟨-, h2⟩ := hstop
    rw [hR t] at h2
    have hf : (f context).2 = some err := by rw [h2]
    have ho := hnil (Or.inl (by rw [hf]; simp))
    subst ho
    have hres1 : (genPath context dir deps s).1.1 = [] := by rw [hres]; rfl
    have hres2 : (genPath context dir deps s).1.2.2 = some err := by rw [hres]; rfl
    have hids : (genIdCalls (genPathLog context dir deps s)).length = 1 := by
      rw [hl]; rfl
    have hvs : validatePathCalls (genPathLog context dir deps s) = [] := by
      rw [hl]; rfl
    refine ⟨?_, ?_, ?_, ?_, ?_, ?_⟩
    · intro x hx; rw [hvs] at hx; simp at hx
    · intro e he
      rw [hf] at he
      have : err = e := by simpa using he
      subst this
      exact ⟨hres1, hres2, hids, hvs⟩
    · intro e he; rw [hf] at he; simp at he
    · intro he; rw [hf] at he; simp at he
    · intro he; rw [hf] at he; simp at he
    · intro _; exact hids
  | validateFailed id text valid err =>
    obtain ⟨-, h2, h3⟩ := hstop
    rw [hR t] at h2
    rw [hV t] at h3
    have hf : (f context).2 = none := by rw [h2]
    have ht : (f context).1 = text := by rw [h2]
    have ho := hnil (Or.inr (by rw [h3]; simp))
    subst ho
    have hres1 : (genPath context dir deps s).1.1 = [] := by rw [hres]; rfl
    have hres2 : (genPath context dir deps s).1.2.2 = some err := by rw [hres]; rfl
    have hids : (genIdCalls (genPathLog context dir deps s)).length = 1 := by
      rw [hl]; rfl
    have hvs : validatePathCalls (genPathLog context dir deps s)
        = [(candidatePath dir (f context).1, valid, some err)] := by
      rw [hl, ht]; rfl
    refine ⟨?_, ?_, ?_, ?_, ?_, ?_⟩
    · intro x hx; rw [hvs] at hx; simp at hx; rw [hx]
    · intro e he; rw [hf] at he; simp at he
    · intro e _ he
      rw [h3] at he
      have : err = e := by simpa using he
      subst this
      exact ⟨hres1, hres2, hids, by rw [hvs]; rfl⟩
    · intro _ he; rw [h3] at he; simp at he
    · intro _ he; rw [h3] at he; simp at he
    · intro hok; rw [hres2] at hok; simp at hok
  | accepted id text =>
    obtain ⟨-, h2, h3⟩ := hstop
    rw [hR t] at h2
    rw [hV t] at h3
    have hf : (f context).2 = none := by rw [h2]
    have ht : (f context).1 = text := by rw [h2]
    have ho := hnil (Or.inr (by rw [h3]; simp))
    subst ho
    have hres1 : (genPath context dir deps s).1.1 = candidatePath dir (f context).1 := by
      rw [hres, ht]; rfl
    have hres2 : (genPath context dir deps s).1.2.2 = none := by rw [hres]; rfl
    have hids : (genIdCalls (genPathLog context dir deps s)).length = 1 := by
      rw [hl]; rfl
    have hvs : validatePathCalls (genPathLog context dir deps s)
        = [(candidatePath dir (f context).1, true, none)] := by
      rw [hl, ht]; rfl
    refine ⟨?_, ?_, ?_, ?_, ?_, ?_⟩
    · intro x hx; rw [hvs] at hx; simp at hx; rw [hx]
    · intro e he; rw [hf] at he; simp at he
    · intro e _ he; rw [h3] at he; simp at he
    · intro _ _; exact ⟨hres1, hres2, hids, hvs⟩
    · intro _ he; rw [h3] at he; simp at he
    · intro _; exact hids

theorem genPath_constant_template_witness :
    (genPath Sample.context Sample.dir Sample.constantTemplate 0).1.2.2
      = some (Error.ErrNoteExists "journal/note.md".toList "/notes/journal/note.md".toList) ∧
    (genIdCalls (genPathLog Sample.context Sample.dir Sample.constantTemplate 0)).length = 50 ∧
    validatePathCalls (genPathLog Sample.context Sample.dir Sample.constantTemplate 0)
      = List.replicate 50 ("/notes/journal/note.md".toList, false, none) :=
  have h := genPath_constant_template Sample.context Sample.dir Sample.constantTemplate 0
    (fun _ => ("note".toList, none)) (fun _ => (false, none))
    (fun _ _ => rfl) (fun _ _ => rfl) (fun _ _ => rfl)
  ⟨by rw [(h.2.2.2.2.1 rfl rfl).2.1]; decide, (h.2.2.2.2.1 rfl rfl).2.2.1,
    by rw [(h.2.2.2.2.1 rfl rfl).2.2.2]; decide⟩

/-! ## The writes of `Create` -/

theorem writeStringCalls_append (l m : List Call) :
    writeStringCalls (l ++ m) = writeStringCalls l ++ writeStringCalls m := by
  induction l with
  | nil => rfl
  | cons c l ih => cases c <;> simp [writeStringCalls, ih]

theorem writeStringCalls_occupied (context : renderContext) (dir : zk.Dir)
    (occ : List (Str × Str)) :
    writeStringCalls (occ.flatMap (occupiedCalls context dir)) = [] := by
  induction occ with
  | nil => rfl
  | cons a occ ih =>
    simp only [List.flatMap_cons, writeStringCalls_append, ih]
    rfl

theorem writeStringCalls_genPathLog {σ : Type} (context : renderContext) (dir : zk.Dir)
    (deps : createDeps σ) (s : σ) :
    writeStringCalls (genPathLog context dir deps s) = [] := by
  obtain ⟨occ, stop, -, hl, -⟩ := genPath_shape context dir deps s
  rw [hl, writeStringCalls_append, writeStringCalls_occupied]
  cases stop <;> rfl

/-- The loop of `genPath` does not use the body template. -/
theorem genPathLoop_bodyTemplate {σ : Type} (dir : zk.Dir) (deps : createDeps σ)
    (b : templ.Renderer σ) (n : Nat) :
    ∀ (context : renderContext) (filename path : Str) (s : σ),
      genPathLoop dir { deps with bodyTemplate := b } n context filename path s
        = genPathLoop dir deps n context filename path s := by
  induction n with
  | zero => intro context filename path s; rfl
  | succ n ih =>
    intro context filename path s
    simp only [genPathLoop, ih]

theorem bodyLike_logged {σ : Type} (bt : templ.Renderer σ) :
    bodyLike (loggedRenderer Call.renderBody bt) bt := by
  intro context w
  refine ⟨rfl, rfl, ?_⟩
  simp [loggedRenderer, writeStringCalls_append, writeStringCalls]

theorem bodyLike_null {σ : Type} :
    bodyLike (templ.NullRenderer : templ.Renderer (σ × List Call)) templ.NullRenderer := by
  intro context w
  exact ⟨rfl, rfl, rfl⟩

/-- Running `create` with logged collaborators, whatever body renderer does
what the body template does: the result and the world state are those of the
run without log, and no write is logged. -/
theorem create_logged_body {σ : Type} (opts : CreateOpts) (deps : createDeps σ)
    (b : templ.Renderer (σ × List Call)) (hb : bodyLike b deps.bodyTemplate)
    (environ : List (Str × Str)) (s : σ) :
    (create opts { logged deps with bodyTemplate := b } environ (s, [])).1
      = (create opts deps environ s).1 ∧
    (create opts { logged deps with bodyTemplate := b } environ (s, [])).2.1
      = (create opts deps environ s).2 ∧
    writeStringCalls (create opts { logged deps with bodyTemplate := b } environ (s, [])).2.2
      = [] := by
  have hg : genPath (createContext opts deps environ) opts.Dir
      { logged deps with bodyTemplate := b } (s, [])
      = genPath (createContext opts deps environ) opts.Dir (logged deps) (s, []) :=
    genPathLoop_bodyTemplate opts.Dir (logged deps) b 50 _ [] [] (s, [])
  have hc : createContext opts { logged deps with bodyTemplate := b } environ
      = createContext opts deps environ := rfl
  obtain ⟨h1, h2⟩ := genPath_logged (createContext opts deps environ) opts.Dir deps s
  have h3 : writeStringCalls
      (genPath (createContext opts deps environ) opts.Dir (logged deps) (s, [])).2.2 = [] :=
    writeStringCalls_genPathLog (createContext opts deps environ) opts.Dir deps s
  unfold create
  simp only [hc, hg]
  rw [h1]
  cases hge : (genPath (createContext opts deps environ) opts.Dir deps s).1.2.2 with
  | some err => exact ⟨rfl, h2, h3⟩
  | none =>
    simp only []
    obtain ⟨b1, b2, b3⟩ := hb (genPath (createContext opts deps environ) opts.Dir deps s).1.2.1
      (genPath (createContext opts deps environ) opts.Dir (logged deps) (s, [])).2
    rw [h2] at b1 b2
    rw [h3] at b3
    rw [b1]
    cases hbe : (deps.bodyTemplate.Render
        (genPath (createContext opts deps environ) opts.Dir deps s).1.2.1
        (genPath (createContext opts deps environ) opts.Dir deps s).2).1.2 with
    | some err => exact ⟨rfl, b2, b3⟩
    | none => exact ⟨rfl, b2, b3⟩

/-- A run that returns an error without having logged anything has written
nothing. -/
theorem writesOnce_of_error {σ : Type} (out : Outside σ) (environ : List (Str × Str))
    (opts : CreateOpts) (P : templ.Renderer σ → Prop) (err : Error) (t : σ) :
    writesOnce out environ opts P (([], some err), (t, [])) := by
  refine ⟨by simp [writeStringCalls], ?_, ?_, ?_⟩
  · intro path content e h
    simp [writeStringCalls] at h
  · intro h
    simp at h
  · intro e _
    exact Or.inl rfl

/-- The tail of `Create`, run with the log, writes at most once. -/
theorem writesOnce_finish {σ : Type} (out : Outside σ) (environ : List (Str × Str))
    (opts : CreateOpts) (P : templ.Renderer σ → Prop) (ft bt : templ.Renderer σ)
    (b : templ.Renderer (σ × List Call)) (hb : bodyLike b bt) (hP : P bt) (s : σ) :
    writesOnce out environ opts P
      (Create.finish (loggedOutside out) environ opts
        (loggedRenderer Call.renderFilename ft) b (s, [])) := by
  obtain ⟨h1, h2, h3⟩ := create_logged_body opts (Create.deps out opts ft bt s) b hb environ
    (out.Date s).2
  have hne := create_note_or_error opts (Create.deps out opts ft bt s) environ (out.Date s).2
  have hfin : Create.finish (loggedOutside out) environ opts
      (loggedRenderer Call.renderFilename ft) b (s, [])
      = (match (create opts { logged (Create.deps out opts ft bt s) with bodyTemplate := b }
            environ ((out.Date s).2, [])).1 with
        | (_, some err) =>
          (([], some (errors.Wrapperf "new note".toList err)),
            (create opts { logged (Create.deps out opts ft bt s) with bodyTemplate := b }
              environ ((out.Date s).2, [])).2)
        | (none, none) =>
          (([], none),
            (create opts { logged (Create.deps out opts ft bt s) with bodyTemplate := b }
              environ ((out.Date s).2, [])).2)
        | (some createdNote, none) =>
          match ((loggedOutside out).WriteString createdNote.path createdNote.content
              (create opts { logged (Create.deps out opts ft bt s) with bodyTemplate := b }
                environ ((out.Date s).2, [])).2).1 with
          | some err =>
            (([], some (errors.Wrapperf "new note".toList err)),
              ((loggedOutside out).WriteString createdNote.path createdNote.content
                (create opts { logged (Create.deps out opts ft bt s) with bodyTemplate := b }
                  environ ((out.Date s).2, [])).2).2)
          | none =>
            ((createdNote.path, none),
              ((loggedOutside out).WriteString createdNote.path createdNote.content
                (create opts { logged (Create.deps out opts ft bt s) with bodyTemplate := b }
                  environ ((out.Date s).2, [])).2).2)) := rfl
  rw [hfin, h1]
  generalize hC : create opts { logged (Create.deps out opts ft bt s) with bodyTemplate := b }
      environ ((out.Date s).2, []) = C at h1 h2 h3
  generalize hc : create opts (Create.deps out opts ft bt s) environ (out.Date s).2 = c
    at h1 h2 hne
  obtain ⟨⟨note, cerr⟩, cs⟩ := c
  obtain ⟨C1, Cs, Cl⟩ := C
  simp only [] at h2 h3 hne ⊢
  cases cerr with
  | some err =>
    simp only []
    refine ⟨by simp [h3], ?_, ?_, ?_⟩
    · intro path content e h; rw [h3] at h; simp at h
    · intro h; simp at h
    · intro e _; exact Or.inl h3
  | none =>
    cases note with
    | none => exact absurd rfl hne
    | some note =>
      simp only []
      have hw : ((loggedOutside out).WriteString note.path note.content (Cs, Cl))
          = ((out.WriteString note.path note.content Cs).1,
              ((out.WriteString note.path note.content Cs).2,
                Cl ++ [Call.writeString note.path note.content
                  (out.WriteString note.path note.content Cs).1])) := rfl
      rw [hw]
      simp only []
      have hW : writeStringCalls (Cl ++ [Call.writeString note.path note.content
          (out.WriteString note.path note.content Cs).1])
          = [(note.path, note.content, (out.WriteString note.path note.content Cs).1)] := by
        rw [writeStringCalls_append, h3]; rfl
      have hex : ∃ (filenameTemplate bodyTemplate : templ.Renderer σ) (t : σ),
          P bodyTemplate ∧
          (create opts (Create.deps out opts filenameTemplate bodyTemplate t) environ
            (out.Date t).2).1 = (some { path := note.path, content := note.content }, none) ∧
          (out.WriteString note.path note.content Cs).1
            = (out.WriteString note.path note.content
              (create opts (Create.deps out opts filenameTemplate bodyTemplate t) environ
                (out.Date t).2).2).1 :=
        ⟨ft, bt, s, hP, by rw [hc], by rw [hc, ← h2]⟩
      cases hwe : (out.WriteString note.path note.content Cs).1 with
      | some e =>
        simp only []
        rw [hwe] at hW hex
        refine ⟨by simp [hW], ?_, ?_, ?_⟩
        · intro path content e2 h
          rw [hW] at h
          simp only [List.mem_singleton, Prod.mk.injEq] at h
          obtain ⟨rfl, rfl, rfl⟩ := h
          exact ⟨by simp, rfl, hex⟩
        · intro h; simp at h
        · intro e2 h2
          right
          exact ⟨note.path, note.content, e, hW, by simpa using h2.symm⟩
      | none =>
        simp only []
        rw [hwe] at hW hex
        refine ⟨by simp [hW], ?_, ?_, ?_⟩
        · intro path content e2 h
          rw [hW] at h
          simp only [List.mem_singleton, Prod.mk.injEq] at h
          obtain ⟨rfl, rfl, rfl⟩ := h
          exact ⟨by simp, rfl, hex⟩
        · intro _; exact ⟨note.content, hW⟩
        · intro e2 h2; simp at h2

/-- A logged run of `Create` writes at most once. -/
theorem writesOnce_Create {σ : Type} (out : Outside σ) (environ : List (Str × Str))
    (opts : CreateOpts) (templateLoader : templ.Loader σ) (s : σ) :
    writesOnce out environ opts
      (fun bodyTemplate =>
        opts.Dir.Config.Note.BodyTemplatePath.Unwrap = [] → bodyTemplate = templ.NullRenderer)
      (Create (loggedOutside out) environ opts (loggedLoader templateLoader) (s, [])) := by
  unfold Create
  simp only []
  have hLoad : (loggedLoader templateLoader).Load opts.Dir.Config.Note.FilenameTemplate (s, [])
      = (match (templateLoader.Load opts.Dir.Config.Note.FilenameTemplate s).1 with
          | Except.error err => Except.error err
          | Except.ok r => Except.ok (loggedRenderer Call.renderFilename r),
          ((templateLoader.Load opts.Dir.Config.Note.FilenameTemplate s).2, [])) := rfl
  rw [hLoad]
  cases hL : (templateLoader.Load opts.Dir.Config.Note.FilenameTemplate s).1 with
  | error err =>
    simp only []
    exact writesOnce_of_error out environ opts _ err _
  | ok ft =>
    simp only []
    by_cases hp : opts.Dir.Config.Note.BodyTemplatePath.Unwrap = []
    · simp only [hp, ne_eq, not_true_eq_false, if_false]
      exact writesOnce_finish out environ opts _ ft templ.NullRenderer templ.NullRenderer
        bodyLike_null (fun _ => rfl) _
    · simp only [hp, ne_eq, not_false_eq_true, if_true]
      have hLoc : (loggedOutside out).LocateTemplate opts.Config
          opts.Dir.Config.Note.BodyTemplatePath.Unwrap
          ((templateLoader.Load opts.Dir.Config.Note.FilenameTemplate s).2, [])
          = ((out.LocateTemplate opts.Config opts.Dir.Config.Note.BodyTemplatePath.Unwrap
                (templateLoader.Load opts.Dir.Config.Note.FilenameTemplate s).2).1,
              ((out.LocateTemplate opts.Config opts.Dir.Config.Note.BodyTemplatePath.Unwrap
                (templateLoader.Load opts.Dir.Config.Note.FilenameTemplate s).2).2, [])) := rfl
      rw [hLoc]
      simp only []
      cases hok : (out.LocateTemplate opts.Config opts.Dir.Config.Note.BodyTemplatePath.Unwrap
          (templateLoader.Load opts.Dir.Config.Note.FilenameTemplate s).2).1.2 with
      | false =>
        simp only [Bool.not_false, if_true]
        exact writesOnce_of_error out environ opts _ _ _
      | true =>
        simp only [Bool.not_true, Bool.false_eq_true, if_false]
        generalize (out.LocateTemplate opts.Config opts.Dir.Config.Note.BodyTemplatePath.Unwrap
          (templateLoader.Load opts.Dir.Config.Note.FilenameTemplate s).2).1.1 = absPath
        generalize (out.LocateTemplate opts.Config opts.Dir.Config.Note.BodyTemplatePath.Unwrap
          (templateLoader.Load opts.Dir.Config.Note.FilenameTemplate s).2).2 = t
        have hFile : (loggedLoader templateLoader).LoadFile absPath (t, [])
            = (match (templateLoader.LoadFile absPath t).1 with
                | Except.error err => Except.error err
                | Except.ok r => Except.ok (loggedRenderer Call.renderBody r),
                ((templateLoader.LoadFile absPath t).2, [])) := rfl
        rw [hFile]
        cases hF : (templateLoader.LoadFile absPath t).1 with
        | error err =>
          simp only []
          exact writesOnce_of_error out environ opts _ _ _
        | ok bt =>
          simp only []
          exact writesOnce_finish out environ opts _ ft bt
            (loggedRenderer Call.renderBody bt) (bodyLike_logged bt) (fun h => h.elim) _

/-- Logging is transparent for the tail of `Create`. -/
theorem Create_finish_logged {σ : Type} (out : Outside σ) (environ : List (Str × Str))
    (opts : CreateOpts) (ft bt : templ.Renderer σ) (b : templ.Renderer (σ × List Call))
    (hb : bodyLike b bt) (s : σ) :
    (Create.finish (loggedOutside out) environ opts
        (loggedRenderer Call.renderFilename ft) b (s, [])).1
      = (Create.finish out environ opts ft bt s).1 ∧
    (Create.finish (loggedOutside out) environ opts
        (loggedRenderer Call.renderFilename ft) b (s, [])).2.1
      = (Create.finish out environ opts ft bt s).2 := by
  obtain ⟨h1, h2, -⟩ := create_logged_body opts (Create.deps out opts ft bt s) b hb environ
    (out.Date s).2
  have hfin : Create.finish (loggedOutside out) environ opts
      (loggedRenderer Call.renderFilename ft) b (s, [])
      = (match (create opts { logged (Create.deps out opts ft bt s) with bodyTemplate := b }
            environ ((out.Date s).2, [])).1 with
        | (_, some err) =>
          (([], some (errors.Wrapperf "new note".toList err)),
            (create opts { logged (Create.deps out opts ft bt s) with bodyTemplate := b }
              environ ((out.Date s).2, [])).2)
        | (none, none) =>
          (([], none),
            (create opts { logged (Create.deps out opts ft bt s) with bodyTemplate := b }
              environ ((out.Date s).2, [])).2)
        | (some createdNote, none) =>
          match ((loggedOutside out).WriteString createdNote.path createdNote.content
              (create opts { logged (Create.deps out opts ft bt s) with bodyTemplate := b }
                environ ((out.Date s).2, [])).2).1 with
          | some err =>
            (([], some (errors.Wrapperf "new note".toList err)),
              ((loggedOutside out).WriteString createdNote.path createdNote.content
                (create opts { logged (Create.deps out opts ft bt s) with bodyTemplate := b }
                  environ ((out.Date s).2, [])).2).2)
          | none =>
            ((createdNote.path, none),
              ((loggedOutside out).WriteString createdNote.path createdNote.content
                (create opts { logged (Create.deps out opts ft bt s) with bodyTemplate := b }
                  environ ((out.Date s).2, [])).2).2)) := rfl
  have hplain : Create.finish out environ opts ft bt s
      = (match (create opts (Create.deps out opts ft bt s) environ (out.Date s).2).1 with
        | (_, some err) =>
          (([], some (errors.Wrapperf "new note".toList err)),
            (create opts (Create.deps out opts ft bt s) environ (out.Date s).2).2)
        | (none, none) =>
          (([], none), (create opts (Create.deps out opts ft bt s) environ (out.Date s).2).2)
        | (some createdNote, none) =>
          match (out.WriteString createdNote.path createdNote.content
              (create opts (Create.deps out opts ft bt s) environ (out.Date s).2).2).1 with
          | some err =>
            (([], some (errors.Wrapperf "new note".toList err)),
              (out.WriteString createdNote.path createdNote.content
                (create opts (Create.deps out opts ft bt s) environ (out.Date s).2).2).2)
          | none =>
            ((createdNote.path, none),
              (out.WriteString createdNote.path createdNote.content
                (create opts (Create.deps out opts ft bt s) environ (out.Date s).2).2).2)) := rfl
  rw [hfin, hplain, h1]
  generalize create opts { logged (Create.deps out opts ft bt s) with bodyTemplate := b }
      environ ((out.Date s).2, []) = C at h1 h2
  generalize create opts (Create.deps out opts ft bt s) environ (out.Date s).2 = c at h1 h2
  obtain ⟨⟨note, cerr⟩, cs⟩ := c
  obtain ⟨C1, Cs, Cl⟩ := C
  simp only [] at h2 ⊢
  subst h2
  cases cerr with
  | some err => cases note <;> constructor <;> rfl
  | none =>
    cases note with
    | none => constructor <;> rfl
    | some note =>
      simp only []
      have hw : ((loggedOutside out).WriteString note.path note.content (Cs, Cl))
          = ((out.WriteString note.path note.content Cs).1,
              ((out.WriteString note.path note.content Cs).2,
                Cl ++ [Call.writeString note.path note.content
                  (out.WriteString note.path note.content Cs).1])) := rfl
      rw [hw]
      simp only []
      cases (out.WriteString note.path note.content Cs).1 <;> constructor <;> rfl

/-- Logging is transparent for `Create`: the logged run returns what the run
without log returns and leaves the same world state. -/
theorem Create_logged {σ : Type} (out : Outside σ) (environ : List (Str × Str))
    (opts : CreateOpts) (templateLoader : templ.Loader σ) (s : σ) :
    (Create (loggedOutside out) environ opts (loggedLoader templateLoader) (s, [])).1
      = (Create out environ opts templateLoader s).1 ∧
    (Create (loggedOutside out) environ opts (loggedLoader templateLoader) (s, [])).2.1
      = (Create out environ opts templateLoader s).2 := by
  unfold Create
  simp only []
  have hLoad : (loggedLoader templateLoader).Load opts.Dir.Config.Note.FilenameTemplate (s, [])
      = (match (templateLoader.Load opts.Dir.Config.Note.FilenameTemplate s).1 with
          | Except.error err => Except.error err
          | Except.ok r => Except.ok (loggedRenderer Call.renderFilename r),
          ((templateLoader.Load opts.Dir.Config.Note.FilenameTemplate s).2, [])) := rfl
  rw [hLoad]
  cases hL : (templateLoader.Load opts.Dir.Config.Note.FilenameTemplate s).1 with
  | error err => exact ⟨rfl, rfl⟩
  | ok ft =>
    simp only []
    by_cases hp : opts.Dir.Config.Note.BodyTemplatePath.Unwrap = []
    · simp only [hp, ne_eq, not_true_eq_false, if_false]
      exact Create_finish_logged out environ opts ft templ.NullRenderer templ.NullRenderer
        bodyLike_null _
    · simp only [hp, ne_eq, not_false_eq_true, if_true]
      have hLoc : (loggedOutside out).LocateTemplate opts.Config
          opts.Dir.Config.Note.BodyTemplatePath.Unwrap
          ((templateLoader.Load opts.Dir.Config.Note.FilenameTemplate s).2, [])
          = ((out.LocateTemplate opts.Config opts.Dir.Config.Note.BodyTemplatePath.Unwrap
                (templateLoader.Load opts.Dir.Config.Note.FilenameTemplate s).2).1,
              ((out.LocateTemplate opts.Config opts.Dir.Config.Note.BodyTemplatePath.Unwrap
                (templateLoader.Load opts.Dir.Config.Note.FilenameTemplate s).2).2, [])) := rfl
      rw [hLoc]
      simp only []
      cases hok : (out.LocateTemplate opts.Config opts.Dir.Config.Note.BodyTemplatePath.Unwrap
          (templateLoader.Load opts.Dir.Config.Note.FilenameTemplate s).2).1.2 with
      | false =>
        simp only [Bool.not_false, if_true]
        exact ⟨trivial, trivial⟩
      | true =>
        simp only [Bool.not_true, Bool.false_eq_true, if_false]
        generalize (out.LocateTemplate opts.Config opts.Dir.Config.Note.BodyTemplatePath.Unwrap
          (templateLoader.Load opts.Dir.Config.Note.FilenameTemplate s).2).1.1 = absPath
        generalize (out.LocateTemplate opts.Config opts.Dir.Config.Note.BodyTemplatePath.Unwrap
          (templateLoader.Load opts.Dir.Config.Note.FilenameTemplate s).2).2 = t
        have hFile : (loggedLoader templateLoader).LoadFile absPath (t, [])
            = (match (templateLoader.LoadFile absPath t).1 with
                | Except.error err => Except.error err
                | Except.ok r => Except.ok (loggedRenderer Call.renderBody r),
                ((templateLoader.LoadFile absPath t).2, [])) := rfl
        rw [hFile]
        cases hF : (templateLoader.LoadFile absPath t).1 with
        | error err => exact ⟨rfl, rfl⟩
        | ok bt =>
          simp only []
          exact Create_finish_logged out environ opts ft bt (loggedRenderer Call.renderBody bt)
            (bodyLike_logged bt) _

/-- `Create` is its template resolution followed, when it succeeds, by its
tail on the templates loaded. -/
theorem Create_resolve {σ : Type} (out : Outside σ) (environ : List (Str × Str))
    (opts : CreateOpts) (templateLoader : templ.Loader σ) (s : σ) :
    Create out environ opts templateLoader s
      = (match (Create.resolve out opts templateLoader s).1 with
        | Except.error err => (([], some err), (Create.resolve out opts templateLoader s).2)
        | Except.ok (filenameTemplate, bodyTemplate) =>
          Create.finish out environ opts filenameTemplate bodyTemplate
            (Create.resolve out opts templateLoader s).2) := by
  unfold Create Create.resolve
  simp only []
  cases hL : (templateLoader.Load opts.Dir.Config.Note.FilenameTemplate s).1 with
  | error err => rfl
  | ok ft =>
    simp only []
    by_cases hp : opts.Dir.Config.Note.BodyTemplatePath.Unwrap = []
    · simp only [hp, ne_eq, not_true_eq_false, if_false]
    · simp only [hp, ne_eq, not_false_eq_true, if_true]
      cases hok : (out.LocateTemplate opts.Config opts.Dir.Config.Note.BodyTemplatePath.Unwrap
          (templateLoader.Load opts.Dir.Config.Note.FilenameTemplate s).2).1.2 with
      | false => simp only [Bool.not_false, if_true]
      | true =>
        simp only [Bool.not_true, Bool.false_eq_true, if_false]
        cases hF : (templateLoader.LoadFile
            (out.LocateTemplate opts.Config opts.Dir.Config.Note.BodyTemplatePath.Unwrap
              (templateLoader.Load opts.Dir.Config.Note.FilenameTemplate s).2).1.1
            (out.LocateTemplate opts.Config opts.Dir.Config.Note.BodyTemplatePath.Unwrap
              (templateLoader.Load opts.Dir.Config.Note.FilenameTemplate s).2).2).1 with
        | error err => rfl
        | ok bt => rfl

/-- The log of `Create` is empty when the template resolution fails, and is
the log of its tail, run on the templates loaded, when it succeeds. -/
theorem CreateLog_resolve {σ : Type} (out : Outside σ) (environ : List (Str × Str))
    (opts : CreateOpts) (templateLoader : templ.Loader σ) (s : σ) :
    (∀ err, (Create.resolve out opts templateLoader s).1 = Except.error err →
      CreateLog out environ opts templateLoader s = []) ∧
    (∀ ft bt, (Create.resolve out opts templateLoader s).1 = Except.ok (ft, bt) →
      ∃ b : templ.Renderer (σ × List Call), bodyLike b bt ∧
        CreateLog out environ opts templateLoader s
          = (Create.finish (loggedOutside out) environ opts
              (loggedRenderer Call.renderFilename ft) b
              ((Create.resolve out opts templateLoader s).2, [])).2.2) := by
  unfold CreateLog Create Create.resolve
  simp only []
  have hLoad : (loggedLoader templateLoader).Load opts.Dir.Config.Note.FilenameTemplate (s, [])
      = (match (templateLoader.Load opts.Dir.Config.Note.FilenameTemplate s).1 with
          | Except.error err => Except.error err
          | Except.ok r => Except.ok (loggedRenderer Call.renderFilename r),
          ((templateLoader.Load opts.Dir.Config.Note.FilenameTemplate s).2, [])) := rfl
  rw [hLoad]
  cases hL : (templateLoader.Load opts.Dir.Config.Note.FilenameTemplate s).1 with
  | error err =>
    simp only []
    exact ⟨fun _ _ => trivial, fun _ _ h => by simp at h⟩
  | ok ft =>
    simp only []
    by_cases hp : opts.Dir.Config.Note.BodyTemplatePath.Unwrap = []
    · simp only [hp, ne_eq, not_true_eq_false, if_false]
      refine ⟨fun _ h => by simp at h, ?_⟩
      intro ft2 bt2 h
      simp only [Except.ok.injEq, Prod.mk.injEq] at h
      obtain ⟨rfl, rfl⟩ := h
      exact ⟨templ.NullRenderer, bodyLike_null, rfl⟩
    · simp only [hp, ne_eq, not_false_eq_true, if_true]
      have hLoc : (loggedOutside out).LocateTemplate opts.Config
          opts.Dir.Config.Note.BodyTemplatePath.Unwrap
          ((templateLoader.Load opts.Dir.Config.Note.FilenameTemplate s).2, [])
          = ((out.LocateTemplate opts.Config opts.Dir.Config.Note.BodyTemplatePath.Unwrap
                (templateLoader.Load opts.Dir.Config.Note.FilenameTemplate s).2).1,
              ((out.LocateTemplate opts.Config opts.Dir.Config.Note.BodyTemplatePath.Unwrap
                (templateLoader.Load opts.Dir.Config.Note.FilenameTemplate s).2).2, [])) := rfl
      rw [hLoc]
      simp only []
      cases hok : (out.LocateTemplate opts.Config opts.Dir.Config.Note.BodyTemplatePath.Unwrap
          (templateLoader.Load opts.Dir.Config.Note.FilenameTemplate s).2).1.2 with
      | false =>
        simp only [Bool.not_false, if_true]
        exact ⟨fun _ _ => trivial, fun _ _ h => by simp at h⟩
      | true =>
        simp only [Bool.not_true, Bool.false_eq_true, if_false]
        generalize (out.LocateTemplate opts.Config opts.Dir.Config.Note.BodyTemplatePath.Unwrap
          (templateLoader.Load opts.Dir.Config.Note.FilenameTemplate s).2).1.1 = absPath
        generalize (out.LocateTemplate opts.Config opts.Dir.Config.Note.BodyTemplatePath.Unwrap
          (templateLoader.Load opts.Dir.Config.Note.FilenameTemplate s).2).2 = t
        have hFile : (loggedLoader templateLoader).LoadFile absPath (t, [])
            = (match (templateLoader.LoadFile absPath t).1 with
                | Except.error err => Except.error err
                | Except.ok r => Except.ok (loggedRenderer Call.renderBody r),
                ((templateLoader.LoadFile absPath t).2, [])) := rfl
        rw [hFile]
        cases hF : (templateLoader.LoadFile absPath t).1 with
        | error err =>
          simp only []
          exact ⟨fun _ _ => trivial, fun _ _ h => by simp at h⟩
        | ok bt =>
          simp only []
          refine ⟨fun _ h => by simp at h, ?_⟩
          intro ft2 bt2 h
          simp only [Except.ok.injEq, Prod.mk.injEq] at h
          obtain ⟨rfl, rfl⟩ := h
          exact ⟨_, bodyLike_logged _, rfl⟩

/-- The writes of the tail of `Create`, run with the log: the note that
`create` returned, written once at the world state `create` left, and
nothing when `create` failed. -/
theorem Create_finish_writes {σ : Type} (out : Outside σ) (environ : List (Str × Str))
    (opts : CreateOpts) (ft bt : templ.Renderer σ)
    (b : templ.Renderer (σ × List Call)) (hb : bodyLike b bt) (s : σ) :
    (∀ note : createdNote,
      (create opts (Create.deps out opts ft bt s) environ (out.Date s).2).1
        = (some note, none) →
      writeStringCalls (Create.finish (loggedOutside out) environ opts
          (loggedRenderer Call.renderFilename ft) b (s, [])).2.2
        = [(note.path, note.content,
            (out.WriteString note.path note.content
              (create opts (Create.deps out opts ft bt s) environ (out.Date s).2).2).1)]) ∧
    (∀ err,
      (create opts (Create.deps out opts ft bt s) environ (out.Date s).2).1.2 = some err →
      writeStringCalls (Create.finish (loggedOutside out) environ opts
          (loggedRenderer Call.renderFilename ft) b (s, [])).2.2 = []) := by
  obtain ⟨h1, h2, h3⟩ := create_logged_body opts (Create.deps out opts ft bt s) b hb environ
    (out.Date s).2
  have hfin : Create.finish (loggedOutside out) environ opts
      (loggedRenderer Call.renderFilename ft) b (s, [])
      = (match (create opts { logged (Create.deps out opts ft bt s) with bodyTemplate := b }
            environ ((out.Date s).2, [])).1 with
        | (_, some err) =>
          (([], some (errors.Wrapperf "new note".toList err)),
            (create opts { logged (Create.deps out opts ft bt s) with bodyTemplate := b }
              environ ((out.Date s).2, [])).2)
        | (none, none) =>
          (([], none),
            (create opts { logged (Create.deps out opts ft bt s) with bodyTemplate := b }
              environ ((out.Date s).2, [])).2)
        | (some createdNote, none) =>
          match ((loggedOutside out).WriteString createdNote.path createdNote.content
              (create opts { logged (Create.deps out opts ft bt s) with bodyTemplate := b }
                environ ((out.Date s).2, [])).2).1 with
          | some err =>
            (([], some (errors.Wrapperf "new note".toList err)),
              ((loggedOutside out).WriteString createdNote.path createdNote.content
                (create opts { logged (Create.deps out opts ft bt s) with bodyTemplate := b }
                  environ ((out.Date s).2, [])).2).2)
          | none =>
            ((createdNote.path, none),
              ((loggedOutside out).WriteString createdNote.path createdNote.content
                (create opts { logged (Create.deps out opts ft bt s) with bodyTemplate := b }
                  environ ((out.Date s).2, [])).2).2)) := rfl
  rw [hfin, h1]
  generalize hC : create opts { logged (Create.deps out opts ft bt s) with bodyTemplate := b }
      environ ((out.Date s).2, []) = C at h1 h2 h3
  generalize hc : create opts (Create.deps out opts ft bt s) environ (out.Date s).2 = c
    at h1 h2
  obtain ⟨⟨note, cerr⟩, cs⟩ := c
  obtain ⟨C1, Cs, Cl⟩ := C
  simp only [] at h2 h3 ⊢
  subst h2
  constructor
  · intro note h
    simp only [Prod.mk.injEq] at h
    obtain ⟨rfl, rfl⟩ := h
    simp only []
    have hw : ((loggedOutside out).WriteString note.path note.content (Cs, Cl))
        = ((out.WriteString note.path note.content Cs).1,
            ((out.WriteString note.path note.content Cs).2,
              Cl ++ [Call.writeString note.path note.content
                (out.WriteString note.path note.content Cs).1])) := rfl
    rw [hw]
    simp only []
    have hW : writeStringCalls (Cl ++ [Call.writeString note.path note.content
        (out.WriteString note.path note.content Cs).1])
        = [(note.path, note.content,
            (out.WriteString note.path note.content Cs).1)] := by
      rw [writeStringCalls_append, h3]; rfl
    cases hwe : (out.WriteString note.path note.content Cs).1 with
    | some e => simp only []; rw [hwe] at hW; exact hW
    | none => simp only []; rw [hwe] at hW; exact hW
  · intro err h
    have h : cerr = some err := h
    subst h
    cases note <;> exact h3

/-- The writes of `Create` in terms of the templates it resolved. -/
theorem CreateLog_writes {σ : Type} (out : Outside σ) (environ : List (Str × Str))
    (opts : CreateOpts) (templateLoader : templ.Loader σ) (s : σ) :
    (∀ err, (Create.resolve out opts templateLoader s).1 = Except.error err →
      writeStringCalls (CreateLog out environ opts templateLoader s) = []) ∧
    (∀ ft bt, (Create.resolve out opts templateLoader s).1 = Except.ok (ft, bt) →
      (∀ note : createdNote,
        (create opts (Create.deps out opts ft bt (Create.resolve out opts templateLoader s).2)
          environ (out.Date (Create.resolve out opts templateLoader s).2).2).1
          = (some note, none) →
        writeStringCalls (CreateLog out environ opts templateLoader s)
          = [(note.path, note.content,
              (out.WriteString note.path note.content
                (create opts
                  (Create.deps out opts ft bt (Create.resolve out opts templateLoader s).2)
                  environ (out.Date (Create.resolve out opts templateLoader s).2).2).2).1)]) ∧
      (∀ err,
        (create opts (Create.deps out opts ft bt (Create.resolve out opts templateLoader s).2)
          environ (out.Date (Create.resolve out opts templateLoader s).2).2).1.2 = some err →
        writeStringCalls (CreateLog out environ opts templateLoader s) = [])) := by
  obtain ⟨h1, h2⟩ := CreateLog_resolve out environ opts templateLoader s
  constructor
  · intro err h
    rw [h1 err h]; rfl
  · intro ft bt h
    obtain ⟨b, hb, hl⟩ := h2 ft bt h
    rw [hl]
    exact Create_finish_writes out environ opts ft bt b hb _

/-- C16: a run of `Create` writes at most once, also when the write fails. A
write is the last call of the run and is made with the path and the content
of the note that `create` returned on the templates this run resolved, at the
world state `create` left; the result of `Create` is then the written path,
or the wrapped error of the write. A run of `Create` that succeeds has
written exactly the path it returns, and a run that fails has written
nothing, unless the failure is that of the write itself. `Create` is its
template resolution followed by its tail on the templates resolved; when the
resolution succeeds and `create` returns a note, the writes of the run are
that one write of the path and the content of the note, and when `create`
fails, or the templates cannot be resolved, nothing is written. -/
theorem Create_write_once {σ : Type} (out : Outside σ) (environ : List (Str × Str))
    (opts : CreateOpts) (templateLoader : templ.Loader σ) (s : σ) :
    (writeStringCalls (CreateLog out environ opts templateLoader s)).length ≤ 1 ∧
    (∀ path content err,
      (path, content, err) ∈ writeStringCalls (CreateLog out environ opts templateLoader s) →
      (CreateLog out environ opts templateLoader s).getLast?
        = some (Call.writeString path content err) ∧
      (Create out environ opts templateLoader s).1
        = (match err with
          | some e => ([], some (errors.Wrapperf "new note".toList e))
          | none => (path, none)) ∧
      ∃ filenameTemplate bodyTemplate : templ.Renderer σ,
        (Create.resolve out opts templateLoader s).1
          = Except.ok (filenameTemplate, bodyTemplate) ∧
        (create opts
          (Create.deps out opts filenameTemplate bodyTemplate
            (Create.resolve out opts templateLoader s).2)
          environ (out.Date (Create.resolve out opts templateLoader s).2).2).1
          = (some { path := path, content := content }, none) ∧
        err = (out.WriteString path content
          (create opts
            (Create.deps out opts filenameTemplate bodyTemplate
              (Create.resolve out opts templateLoader s).2)
            environ (out.Date (Create.resolve out opts templateLoader s).2).2).2).1) ∧
    ((Create out environ opts templateLoader s).1.2 = none →
      ∃ content,
        writeStringCalls (CreateLog out environ opts templateLoader s)
          = [((Create out environ opts templateLoader s).1.1, content, none)]) ∧
    (∀ err, (Create out environ opts templateLoader s).1.2 = some err →
      writeStringCalls (CreateLog out environ opts templateLoader s) = [] ∨
      ∃ path content e,
        writeStringCalls (CreateLog out environ opts templateLoader s)
          = [(path, content, some e)] ∧
        err = errors.Wrapperf "new note".toList e) ∧
    Create out environ opts templateLoader s
      = (match (Create.resolve out opts templateLoader s).1 with
        | Except.error err => (([], some err), (Create.resolve out opts templateLoader s).2)
        | Except.ok (filenameTemplate, bodyTemplate) =>
          Create.finish out environ opts filenameTemplate bodyTemplate
            (Create.resolve out opts templateLoader s).2) ∧
    (∀ filenameTemplate bodyTemplate,
      (Create.resolve out opts templateLoader s).1
        = Except.ok (filenameTemplate, bodyTemplate) →
      (∀ note : createdNote,
        (create opts
          (Create.deps out opts filenameTemplate bodyTemplate
            (Create.resolve out opts templateLoader s).2)
          environ (out.Date (Create.resolve out opts templateLoader s).2).2).1
          = (some note, none) →
        writeStringCalls (CreateLog out environ opts templateLoader s)
          = [(note.path, note.content,
              (out.WriteString note.path note.content
                (create opts
                  (Create.deps out opts filenameTemplate bodyTemplate
                    (Create.resolve out opts templateLoader s).2)
                  environ (out.Date (Create.resolve out opts templateLoader s).2).2).2).1)]) ∧
      (∀ err,
        (create opts
          (Create.deps out opts filenameTemplate bodyTemplate
            (Create.resolve out opts templateLoader s).2)
          environ (out.Date (Create.resolve out opts templateLoader s).2).2).1.2 = some err →
        writeStringCalls (CreateLog out environ opts templateLoader s) = [])) ∧
    (∀ err, (Create.resolve out opts templateLoader s).1 = Except.error err →
      writeStringCalls (CreateLog out environ opts templateLoader s) = []) := by
  obtain ⟨h1, h2, h3, h4⟩ := writesOnce_Create out environ opts templateLoader s
  rw [(Create_logged out environ opts templateLoader s).1] at h2 h3 h4
  obtain ⟨w1, w2⟩ := CreateLog_writes out environ opts templateLoader s
  refine ⟨h1, ?_, h3, h4, Create_resolve out environ opts templateLoader s, w2, w1⟩
  intro path content err h
  obtain ⟨a, b, -⟩ := h2 path content err h
  refine ⟨a, b, ?_⟩
  cases hr : (Create.resolve out opts templateLoader s).1 with
  | error e =>
    rw [w1 e hr] at h
    simp at h
  | ok p =>
    obtain ⟨ft, bt⟩ := p
    obtain ⟨v1, v2⟩ := w2 ft bt hr
    have hne := create_note_or_error opts
      (Create.deps out opts ft bt (Create.resolve out opts templateLoader s).2) environ
      (out.Date (Create.resolve out opts templateLoader s).2).2
    cases hc : (create opts
        (Create.deps out opts ft bt (Create.resolve out opts templateLoader s).2) environ
        (out.Date (Create.resolve out opts templateLoader s).2).2).1 with
    | mk n e =>
      cases e with
      | some e =>
        rw [v2 e (by rw [hc])] at h
        simp at h
      | none =>
        cases n with
        | none => exact absurd hc hne
        | some note =>
          have hw := v1 note hc
          rw [hw] at h
          simp only [List.mem_singleton, Prod.mk.injEq] at h
          obtain ⟨rfl, rfl, rfl⟩ := h
          exact ⟨ft, bt, rfl, hc, rfl⟩

theorem Create_write_once_witness :
    writeStringCalls
        (CreateLog Sample.outsideTemplates [] Sample.optsBodyTemplate Sample.titleLoader 0)
      = [("/notes/journal/a.md".toList, "# Groceries".toList, none)] ∧
    (Create Sample.outsideTemplates [] Sample.optsBodyTemplate Sample.titleLoader 0).1
      = ("/notes/journal/a.md".toList, none) ∧
    writeStringCalls
        (CreateLog Sample.outsideReadOnly [] Sample.optsBodyTemplate Sample.titleLoader 0)
      = [("/notes/journal/a.md".toList, "# Groceries".toList, some Sample.writeError)] ∧
    (Create Sample.outsideReadOnly [] Sample.optsBodyTemplate Sample.titleLoader 0).1
      = ([], some (Error.wrapped "new note".toList Sample.writeError)) ∧
    writeStringCalls (CreateLog Sample.outside [] Sample.opts Sample.failingLoader 0) = [] :=
  have h := Create_write_once Sample.outsideTemplates [] Sample.optsBodyTemplate
    Sample.titleLoader 0
  have h2 := Create_write_once Sample.outsideReadOnly [] Sample.optsBodyTemplate
    Sample.titleLoader 0
  have h3 := Create_write_once Sample.outside [] Sample.opts Sample.failingLoader 0
  have w := (h.2.2.2.2.2.1 _ _ rfl).1
    { path := "/notes/journal/a.md".toList, content := "# Groceries".toList } (by decide)
  have w2 := (h2.2.2.2.2.2.1 _ _ rfl).1
    { path := "/notes/journal/a.md".toList, content := "# Groceries".toList } (by decide)
  ⟨w, (h.2.1 _ _ _ (by rw [w]; exact List.mem_singleton_self _)).2.1,
    w2, (h2.2.1 _ _ _ (by rw [w2]; exact List.mem_singleton_self _)).2.1,
    h3.2.2.2.2.2.2 Sample.loadError rfl⟩

/-- With the null renderer as body template, the content of the note
`create` returns is the content of the request. -/
theorem create_null_content {σ : Type} (opts : CreateOpts) (deps : createDeps σ)
    (environ : List (Str × Str)) (s : σ) (hb : deps.bodyTemplate = templ.NullRenderer)
    (note : createdNote) (h : (create opts deps environ s).1.1 = some note) :
    note.content = opts.Content.Unwrap := by
  cases hg : (genPath (createContext opts deps environ) opts.Dir deps s).1.2.2 with
  | some err =>
    rw [create_of_genPath_error opts deps environ s err hg] at h
    simp at h
  | none =>
    rw [create_of_genPath_ok opts deps environ s hg, hb] at h
    simp only [templ.NullRenderer] at h
    have hn : note = { path := (genPath (createContext opts deps environ) opts.Dir deps s).1.1
                       content :=
                        (genPath (createContext opts deps environ) opts.Dir deps s).1.2.1.Content } := by
      simpa using h.symm
    rw [hn]
    simp only []
    rw [genPath_context_frame]
    rfl

/-- C12: when the directory configures no body-template path, `Create` uses
the null renderer as body template, and whatever it writes has the content of
the request, as it is, as content: a run that succeeds has written the path
it returns with that content. The note `create` returns with the null
renderer as body template has that content, the empty string when the
request holds no content or the empty content. -/
theorem Create_no_template_content {σ : Type} (out : Outside σ) (environ : List (Str × Str))
    (opts : CreateOpts) (templateLoader : templ.Loader σ) (s : σ)
    (hp : opts.Dir.Config.Note.BodyTemplatePath.Unwrap = []) :
    (∀ path content err,
      (path, content, err) ∈ writeStringCalls (CreateLog out environ opts templateLoader s) →
      content = opts.Content.Unwrap) ∧
    ((Create out environ opts templateLoader s).1.2 = none →
      writeStringCalls (CreateLog out environ opts templateLoader s)
        = [((Create out environ opts templateLoader s).1.1, opts.Content.Unwrap, none)]) ∧
    (∀ (deps : createDeps σ) (t : σ) (note : createdNote),
      deps.bodyTemplate = templ.NullRenderer →
      (create opts deps environ t).1.1 = some note →
      note.content = opts.Content.Unwrap) ∧
    (opts.Content = opt.NullString → opts.Content.Unwrap = []) ∧
    (opts.Content = opt.NewString [] → opts.Content.Unwrap = []) := by
  obtain ⟨-, h2, h3, -⟩ := writesOnce_Create out environ opts templateLoader s
  rw [(Create_logged out environ opts templateLoader s).1] at h2 h3
  have hall : ∀ path content err,
      (path, content, err) ∈ writeStringCalls (CreateLog out environ opts templateLoader s) →
      content = opts.Content.Unwrap := by
    intro path content err h
    obtain ⟨-, -, ft, bt, t, hbt, hc, -⟩ := h2 path content err h
    have hnull := hbt hp
    subst hnull
    exact create_null_content opts (Create.deps out opts ft templ.NullRenderer t) environ
      (out.Date t).2 rfl { path := path, content := content } (by rw [hc])
  refine ⟨hall, ?_, ?_, ?_, ?_⟩
  · intro hok
    obtain ⟨content, hw⟩ := h3 hok
    have hw2 : writeStringCalls (CreateLog out environ opts templateLoader s)
        = [((Create out environ opts templateLoader s).1.1, content, none)] := hw
    have := hall (Create out environ opts templateLoader s).1.1 content none
      (by rw [hw2]; simp)
    rw [hw2, this]
  · intro deps t note hb h
    exact create_null_content opts deps environ t hb note h
  · intro h; rw [h]; rfl
  · intro h; rw [h]; rfl

theorem Create_no_template_content_witness :
    Sample.opts.Dir.Config.Note.BodyTemplatePath.Unwrap = [] ∧
    (Create Sample.outside [] { Sample.opts with Content := opt.NewString "milk".toList }
      Sample.idLoader 0).1.2 = none ∧
    writeStringCalls
      (CreateLog Sample.outside [] { Sample.opts with Content := opt.NewString "milk".toList }
        Sample.idLoader 0)
      = [("/notes/journal/a.md".toList, "milk".toList, none)] :=
  have h := Create_no_template_content Sample.outside []
    { Sample.opts with Content := opt.NewString "milk".toList } Sample.idLoader 0 rfl
  ⟨rfl, by decide, by rw [h.2.1 (by decide)]; decide⟩

/-! ## The options of the alias listing -/

namespace cmd

theorem list_cmd (Pluralize : Str → Nat → Str) (cmd : AliasList) (container : Container) :
    (AliasList.list Pluralize cmd container).cmd = cmd := by
  unfold AliasList.list
  simp only []
  split
  · rfl
  · split <;> rfl

/-- The end of `Run` fails only with the error of the pager, after having
called it. -/
theorem list_err (Pluralize : Str → Nat → Str) (cmd : AliasList) (container : Container) :
    (AliasList.list Pluralize cmd container).err = none ∨
    ((AliasList.list Pluralize cmd container).paginated
        = some (cmd.NoPager, listing cmd container) ∧
      (AliasList.list Pluralize cmd container).err
        = container.Paginate cmd.NoPager (listing cmd container)) := by
  unfold AliasList.list
  simp only []
  split
  · exact Or.inr ⟨rfl, rfl⟩
  · split <;> exact Or.inl rfl

/-- C19: with the format `json` or `jsonl`, `Run` fails without having
called the pager or printed anything exactly when, after the expansion of the
whitespace literals, the header is not empty, or the footer is not a line
feed, or the delimiter is not a line feed; the error is that of the header
before that of the footer, and that of the footer before that of the
delimiter. When none applies, `json` sets the delimiter to `,`, the header to
`[` and the footer to `]` and a line feed, and `jsonl` leaves the header
empty and the delimiter and the footer a line feed. With any other format
the options are left as expanded and no option is rejected: an error of `Run`
is the error of the pager. -/
theorem Run_json_options (ExpandWhitespaceLiterals : Str → Str) (Pluralize : Str → Nat → Str)
    (cmd : AliasList) (container : Container) :
    ((cmd.Format = "json".toList ∨ cmd.Format = "jsonl".toList) →
      (((cmd.Run ExpandWhitespaceLiterals Pluralize container).err ≠ none ∧
          (cmd.Run ExpandWhitespaceLiterals Pluralize container).paginated = none ∧
          (cmd.Run ExpandWhitespaceLiterals Pluralize container).stderr = []) ↔
        (ExpandWhitespaceLiterals cmd.Header ≠ [] ∨
          ExpandWhitespaceLiterals cmd.Footer ≠ ['\n'] ∨
          ExpandWhitespaceLiterals cmd.Delimiter ≠ ['\n'])) ∧
      (ExpandWhitespaceLiterals cmd.Header ≠ [] →
        (cmd.Run ExpandWhitespaceLiterals Pluralize container).err
          = some (Error.message "--header can't be used with JSON format".toList)) ∧
      (ExpandWhitespaceLiterals cmd.Header = [] →
        ExpandWhitespaceLiterals cmd.Footer ≠ ['\n'] →
        (cmd.Run ExpandWhitespaceLiterals Pluralize container).err
          = some (Error.message "--footer can't be used with JSON format".toList)) ∧
      (ExpandWhitespaceLiterals cmd.Header = [] →
        ExpandWhitespaceLiterals cmd.Footer = ['\n'] →
        ExpandWhitespaceLiterals cmd.Delimiter ≠ ['\n'] →
        (cmd.Run ExpandWhitespaceLiterals Pluralize container).err
          = some (Error.message "--delimiter can't be used with JSON format".toList)) ∧
      (ExpandWhitespaceLiterals cmd.Header = [] →
        ExpandWhitespaceLiterals cmd.Footer = ['\n'] →
        ExpandWhitespaceLiterals cmd.Delimiter = ['\n'] →
        (cmd.Format = "json".toList →
          (cmd.Run ExpandWhitespaceLiterals Pluralize container).cmd.Delimiter = [','] ∧
          (cmd.Run ExpandWhitespaceLiterals Pluralize container).cmd.Header = ['['] ∧
          (cmd.Run ExpandWhitespaceLiterals Pluralize container).cmd.Footer = [']', '\n']) ∧
        (cmd.Format = "jsonl".toList →
          (cmd.Run ExpandWhitespaceLiterals Pluralize container).cmd.Header = [] ∧
          (cmd.Run ExpandWhitespaceLiterals Pluralize container).cmd.Delimiter = ['\n'] ∧
          (cmd.Run ExpandWhitespaceLiterals Pluralize container).cmd.Footer = ['\n']))) ∧
    (¬ (cmd.Format = "json".toList ∨ cmd.Format = "jsonl".toList) →
      (cmd.Run ExpandWhitespaceLiterals Pluralize container).cmd
        = expanded ExpandWhitespaceLiterals cmd ∧
      (∀ err, (cmd.Run ExpandWhitespaceLiterals Pluralize container).err = some err →
        (cmd.Run ExpandWhitespaceLiterals Pluralize container).paginated
          = some (cmd.NoPager, listing (expanded ExpandWhitespaceLiterals cmd) container) ∧
        container.Paginate cmd.NoPager (listing (expanded ExpandWhitespaceLiterals cmd) container)
          = some err)) := by
  constructor
  · intro hf
    by_cases hh : ExpandWhitespaceLiterals cmd.Header = []
    · by_cases hfo : ExpandWhitespaceLiterals cmd.Footer = ['\n']
      · by_cases hd : ExpandWhitespaceLiterals cmd.Delimiter = ['\n']
        · have hrun : cmd.Run ExpandWhitespaceLiterals Pluralize container
              = AliasList.list Pluralize
                  (if cmd.Format = "json".toList then
                    { expanded ExpandWhitespaceLiterals cmd with
                      Delimiter := [','], Header := ['['], Footer := [']', '\n'] }
                  else if cmd.Format = "jsonl".toList then
                    { expanded ExpandWhitespaceLiterals cmd with Footer := ['\n'] }
                  else expanded ExpandWhitespaceLiterals cmd) container := by
            unfold AliasList.Run
            simp only [hf, hh, hfo, hd, if_true, ne_eq, not_true_eq_false, if_false, expanded]
          refine ⟨?_, fun h => absurd hh h, fun _ h => absurd hfo h,
            fun _ _ h => absurd hd h, fun _ _ _ => ⟨?_, ?_⟩⟩
          · constructor
            · rintro ⟨he, hp, -⟩
              rw [hrun] at he hp
              rcases list_err Pluralize _ container with h | ⟨h, -⟩
              · exact absurd h he
              · rw [h] at hp; simp at hp
            · rintro (h | h | h)
              · exact absurd hh h
              · exact absurd hfo h
              · exact absurd hd h
          · intro hj
            rw [hrun, list_cmd, if_pos hj]
            exact ⟨rfl, rfl, rfl⟩
          · intro hj
            have hnj : ¬ cmd.Format = "json".toList := by rw [hj]; decide
            rw [hrun, list_cmd, if_neg hnj, if_pos hj]
            exact ⟨hh, hd, rfl⟩
        · have hrun : cmd.Run ExpandWhitespaceLiterals Pluralize container
              = { cmd := expanded ExpandWhitespaceLiterals cmd, paginated := none, stderr := []
                  err := some
                    (Error.message "--delimiter can't be used with JSON format".toList) } := by
            unfold AliasList.Run
            simp only [hf, hh, hfo, hd, if_true, ne_eq, not_true_eq_false, if_false,
              not_false_eq_true, expanded]
          refine ⟨?_, fun h => absurd hh h, fun _ h => absurd hfo h,
            fun _ _ _ => by rw [hrun], fun _ _ h => absurd h hd⟩
          rw [hrun]
          exact ⟨fun _ => Or.inr (Or.inr hd), fun _ => ⟨by simp, rfl, rfl⟩⟩
      · have hrun : cmd.Run ExpandWhitespaceLiterals Pluralize container
            = { cmd := expanded ExpandWhitespaceLiterals cmd, paginated := none, stderr := []
                err := some
                  (Error.message "--footer can't be used with JSON format".toList) } := by
          unfold AliasList.Run
          simp only [hf, hh, hfo, if_true, ne_eq, not_true_eq_false, if_false,
            not_false_eq_true, expanded]
        refine ⟨?_, fun h => absurd hh h, fun _ _ => by rw [hrun],
          fun _ h => absurd h hfo, fun _ h => absurd h hfo⟩
        rw [hrun]
        exact ⟨fun _ => Or.inr (Or.inl hfo), fun _ => ⟨by simp, rfl, rfl⟩⟩
    · have hrun : cmd.Run ExpandWhitespaceLiterals Pluralize container
          = { cmd := expanded ExpandWhitespaceLiterals cmd, paginated := none, stderr := []
              err := some
                (Error.message "--header can't be used with JSON format".toList) } := by
        unfold AliasList.Run
        simp only [hf, hh, if_true, ne_eq, not_false_eq_true, expanded]
      refine ⟨?_, fun _ => by rw [hrun], fun h => absurd h hh,
        fun h => absurd h hh, fun h => absurd h hh⟩
      rw [hrun]
      exact ⟨fun _ => Or.inl hh, fun _ => ⟨by simp, rfl, rfl⟩⟩
  · intro hf
    have hrun : cmd.Run ExpandWhitespaceLiterals Pluralize container
        = AliasList.list Pluralize (expanded ExpandWhitespaceLiterals cmd) container := by
      unfold AliasList.Run
      simp only [hf, if_false]
      rfl
    rw [hrun]
    refine ⟨list_cmd _ _ _, ?_⟩
    intro err he
    rcases list_err Pluralize (expanded ExpandWhitespaceLiterals cmd) container with h | ⟨h1, h2⟩
    · rw [h] at he; simp at he
    · exact ⟨h1, h2.symm.trans he⟩

theorem Run_json_options_witness :
    (AliasList.Run id (fun word _ => word) (sampleCmd "json".toList []) sampleContainer)
      = { cmd := { sampleCmd "json".toList ['['] with Delimiter := [','], Footer := [']', '\n'] }
          paginated := some (true, "[ls=zk list,n=zk new]\n".toList)
          stderr := []
          err := none } ∧
    (AliasList.Run id (fun word _ => word) (sampleCmd "json".toList ['#'])
        sampleContainer).err
      = some (Error.message "--header can't be used with JSON format".toList) ∧
    (AliasList.Run id (fun word _ => word) (sampleCmd "name".toList ['#'])
        sampleContainer).paginated
      = some (true, "#ls=zk list\nn=zk new\n".toList) :=
  have h := Run_json_options id (fun word _ => word) (sampleCmd "json".toList ['#'])
    sampleContainer
  ⟨by decide, (h.1 (Or.inl rfl)).2.1 (by decide), by decide⟩

end cmd

end Note
